import Mathlib

/-!
# dbbackup: the config-driven MySQL/XtraBackup orchestrator

A shallow embedding of `cmd/mysql_xtrabackup/main.go` and of the XtraBackup
path of `dbbackup.go`.

* Go strings are modelled by `String`; comparisons go through the underlying
  character lists (for UTF-8 text the code-point order is the byte order).
* Every interaction with the operating system is an explicit input: the answer
  the OS gives at a call site is a field of an environment record, and what the
  program does to the outside world is recorded as a list of `Event`s.
-/

namespace GoStd

/-! ## Go standard library pieces used by the programs -/

/-- Go `strings.HasPrefix s p`. -/
def hasPrefix (s p : String) : Bool :=
  p.data.isPrefixOf s.data

/-- Go `strings.Join xs sep`. -/
def stringsJoin : List String → String → String
  | [], _ => ""
  | [x], _ => x
  | x :: y :: rest, sep => x ++ sep ++ stringsJoin (y :: rest) sep

/-- Components of a path between the separators `/`. -/
def splitSlash : List Char → List (List Char)
  | [] => [[]]
  | c :: cs =>
    if c = '/' then [] :: splitSlash cs
    else
      match splitSlash cs with
      | [] => [[c]]
      | x :: xs => (c :: x) :: xs

/-- One path element processed by Go `filepath.Clean`; `stack` holds the
elements kept so far, last one first. -/
def cleanStep (rooted : Bool) (stack : List (List Char)) (comp : List Char) :
    List (List Char) :=
  if comp = [] ∨ comp = ['.'] then stack
  else if comp = ['.', '.'] then
    match stack with
    | top :: rest => if top = ['.', '.'] then comp :: stack else rest
    | [] => if rooted then [] else [comp]
  else comp :: stack

/-- The kept elements written out with `/` between them. -/
def joinSlash : List (List Char) → List Char
  | [] => []
  | [x] => x
  | x :: y :: rest => x ++ '/' :: joinSlash (y :: rest)

/-- Go `filepath.Clean` on a Unix system. -/
def filepathClean (path : String) : String :=
  if path = "" then "."
  else
    let rooted : Bool := path.data.head? = some '/'
    let kept := ((splitSlash path.data).foldl (cleanStep rooted) []).reverse
    let out := (if rooted then ['/'] else []) ++ joinSlash kept
    if out = [] then "." else String.mk out

/-- Go `filepath.Join a b` on a Unix system. -/
def filepathJoin (a b : String) : String :=
  if a ≠ "" then filepathClean (a ++ "/" ++ b)
  else if b ≠ "" then filepathClean b
  else ""

/-- Go `filepath.Base` on a Unix system. -/
def filepathBase (path : String) : String :=
  if path = "" then "."
  else
    let stripped := (path.data.reverse.dropWhile (fun c => c = '/')).reverse
    let last := (stripped.reverse.takeWhile (fun c => c ≠ '/')).reverse
    if last = [] then "/" else String.mk last

/-- Go `filepath.Dir` on a Unix system. -/
def filepathDir (path : String) : String :=
  filepathClean (String.mk (path.data.reverse.dropWhile (fun c => c ≠ '/')).reverse)

/-- Pieces of a character sequence between single spaces. -/
def splitSpace : List Char → List (List Char)
  | [] => [[]]
  | c :: cs =>
    if c = ' ' then [] :: splitSpace cs
    else
      match splitSpace cs with
      | [] => [[c]]
      | x :: xs => (c :: x) :: xs

/-- Go `strings.Split s " "`. -/
def stringsSplitSpace (s : String) : List String :=
  (splitSpace s.data).map String.mk

/-- The lower-case form of an ASCII capital letter; other characters stay. -/
def lowerChar (c : Char) : Char :=
  if 65 ≤ c.toNat ∧ c.toNat ≤ 90 then Char.ofNat (c.toNat + 32) else c

/-- Go `strings.ToLower` on the ASCII letters. The database type names the
program compares the result with hold no letter that is the lower case of a
character outside ASCII, so for those comparisons the two agree. -/
def stringsToLower (s : String) : String :=
  String.mk (s.data.map lowerChar)

/-- Lexicographic comparison of two character sequences, character by
character, a proper initial segment being smaller. -/
def lexLt : List Char → List Char → Bool
  | _, [] => false
  | [], _ :: _ => true
  | a :: as, b :: bs =>
    if a.toNat < b.toNat then true
    else if a = b then lexLt as bs
    else false

/-- Go's `<` on strings. -/
def strLt (a b : String) : Bool :=
  lexLt a.data b.data

/-- Insertion of one string into an ascending list. -/
def insertString (x : String) : List String → List String
  | [] => [x]
  | y :: ys => if strLt x y then x :: y :: ys else y :: insertString x ys

/-- Go `sort.Strings`: the ascending rearrangement of the list. -/
def sortStrings : List String → List String
  | [] => []
  | x :: xs => insertString x (sortStrings xs)

/-- Go `fmt.Sprint` of an `int`. -/
def sprintInt (n : Int) : String :=
  toString n

/-- A wall-clock reading of `time.Now()` in the local zone. -/
structure Civil where
  year : Nat
  month : Nat
  day : Nat
  hour : Nat
  minute : Nat
  second : Nat
  deriving DecidableEq, Repr

/-- The decimal digit character of `d % 10`. -/
def digit (d : Nat) : Char :=
  Char.ofNat (48 + d % 10)

/-- Go `appendInt` of package `time`: `x` in decimal, padded with zeros to at
least `width` characters. -/
def appendInt (x width : Nat) : List Char :=
  if width = 2 ∧ x < 100 then [digit (x / 10), digit x]
  else if width = 4 ∧ x < 10000 then [digit (x / 1000), digit (x / 100), digit (x / 10), digit x]
  else
    let ds := Nat.toDigits 10 x
    List.replicate (width - ds.length) '0' ++ ds

/-- Go `t.Format("20060102_150405")`. -/
def formatCompact (t : Civil) : String :=
  String.mk (appendInt t.year 4 ++ appendInt t.month 2 ++ appendInt t.day 2 ++ '_' ::
    (appendInt t.hour 2 ++ appendInt t.minute 2 ++ appendInt t.second 2))

/-- Go `t.Format("2006-01-02 15:04:05")`. -/
def formatStamp (t : Civil) : String :=
  String.mk (appendInt t.year 4 ++ '-' :: (appendInt t.month 2 ++ '-' :: (appendInt t.day 2 ++ ' ' ::
    (appendInt t.hour 2 ++ ':' :: (appendInt t.minute 2 ++ ':' :: appendInt t.second 2)))))

/-- The calendar order of two wall-clock readings. -/
def Civil.earlier (a b : Civil) : Prop :=
  a.year < b.year ∨ (a.year = b.year ∧
    (a.month < b.month ∨ (a.month = b.month ∧
      (a.day < b.day ∨ (a.day = b.day ∧
        (a.hour < b.hour ∨ (a.hour = b.hour ∧
          (a.minute < b.minute ∨ (a.minute = b.minute ∧ a.second < b.second)))))))))

instance (a b : Civil) : Decidable (a.earlier b) := by
  unfold Civil.earlier
  infer_instance

/-- A date and a time of day, with a year of at most four digits. -/
def Civil.wellFormed (t : Civil) : Prop :=
  t.year ≤ 9999 ∧ 1 ≤ t.month ∧ t.month ≤ 12 ∧ 1 ≤ t.day ∧ t.day ≤ 31 ∧
  t.hour ≤ 23 ∧ t.minute ≤ 59 ∧ t.second ≤ 59

instance (t : Civil) : Decidable t.wellFormed := by
  unfold Civil.wellFormed
  infer_instance

/-- Nanoseconds in a day of 24 hours. -/
def nsPerDay : Int := 86400 * 1000000000

/-- Go `-n` on an `int` of 64 bits: the negation wraps around, so that the
least value is its own negation. -/
def negInt (n : Int) : Int :=
  (2 ^ 63 - n) % 2 ^ 64 - 2 ^ 63

deriving instance DecidableEq for Except

end GoStd

/-! ## The outside world -/

namespace Sys

/-- An entry returned by `os.ReadDir`; `modTime` is the modification time (in
nanoseconds since the epoch) reported by `e.Info()`, `none` when `e.Info()`
returns an error. -/
structure DirEntry where
  name : String
  isDir : Bool
  modTime : Option Int
  deriving DecidableEq, Repr

/-- The `exec.Command` call sites of the programs. -/
inductive Proc where
  | engine
  | tar
  | scp
  deriving DecidableEq, Repr

/-- What a program does to the outside world. -/
inductive Event where
  | mkdirAll (path : String)
  | openFile (path : String)
  | logLine (text : String)
  | stdout (text : String)
  | stderr (text : String)
  | run (site : Proc) (bin : String) (args : List String)
  | removeAll (path : String)
  | remove (path : String)
  | httpPost (url : String) (text : String)
  | exit (code : Nat)
  | create (path : String)
  | runEnv (bin : String) (args : List String) (env : List String)
  | crash (reason : String)
  deriving DecidableEq, Repr

end Sys

/-! ## `cmd/mysql_xtrabackup/main.go` -/

namespace MysqlXtrabackup

open GoStd Sys

/-- `findLatestFull(root, prefix)`; `listing` is the result of
`os.ReadDir(root)`. -/
def findLatestFull (listing : Except String (List DirEntry)) (root pfx : String) :
    Except String String :=
  match listing with
  | .error err => .error ("read backup_dir: " ++ err)
  | .ok entries =>
    let p := pfx ++ "_full_"
    let fulls := (entries.filter (fun e => e.isDir && hasPrefix e.name p)).map (fun e => e.name)
    if fulls.length = 0 then
      .error "no full backup found, run a full backup first"
    else
      .ok (filepathJoin root ((sortStrings fulls).getLastD ""))

/-- `timeStamp()` when the clock reads `t`. -/
def timeStamp (t : Civil) : String :=
  formatStamp t

/-! ### Configuration -/

/-- The `mysql` block of `Config`. -/
structure MySQLSection where
  DefaultsFile : String
  Socket : String
  Host : String
  Port : Int
  User : String
  Password : String
  deriving DecidableEq, Repr

/-- The `xtrabackup` block of `Config`. -/
structure XtraBackupSection where
  Bin : String
  Parallel : Int
  Compress : Bool
  CompressThreads : Int
  ExtraArgs : List String
  deriving DecidableEq, Repr

/-- The `remote` block of `Config`. -/
structure RemoteSection where
  Enabled : Bool
  User : String
  Host : String
  Port : Int
  DestDir : String
  deriving DecidableEq, Repr

/-- The `feishu` block of `Config`. -/
structure FeishuSection where
  Enabled : Bool
  Webhook : String
  Keyword : String
  deriving DecidableEq, Repr

/-- `Config`: the JSON configuration of the tool. -/
structure Config where
  BackupType : String
  BackupDir : String
  BackupPrefix : String
  RetentionDays : Int
  TarArchive : Bool
  LogDir : String
  MySQL : MySQLSection
  XtraBackup : XtraBackupSection
  Remote : RemoteSection
  Feishu : FeishuSection
  deriving DecidableEq, Repr

/-- `backupResult`. -/
structure BackupResult where
  BackupName : String
  TargetDir : String
  ArchivePath : String
  LogPath : String
  deriving DecidableEq, Repr

/-- The errors `validateConfig` returns, in the order of its checks. -/
inductive ConfigError where
  | badType (got : String)
  | backupDirRequired
  | defaultsFileRequired
  | userPasswordRequired
  | xtrabackupNotFound (err : String)
  | remoteFieldsRequired
  | scpNotFound (err : String)
  | webhookRequired
  | keywordRequired
  deriving DecidableEq, Repr

/-- The text of a `ConfigError` (`err.Error()`). -/
def ConfigError.message : ConfigError → String
  | .badType got => "backup_type must be full or incr, got " ++ got
  | .backupDirRequired => "backup_dir is required"
  | .defaultsFileRequired => "mysql.defaults_file is required"
  | .userPasswordRequired => "mysql.user and mysql.password are required"
  | .xtrabackupNotFound err => "xtrabackup not found in PATH: " ++ err
  | .remoteFieldsRequired =>
    "remote.user, remote.host, remote.dest_dir are required when remote.enabled=true"
  | .scpNotFound err => "scp not found in PATH: " ++ err
  | .webhookRequired => "feishu.webhook is required when feishu.enabled=true"
  | .keywordRequired =>
    "feishu.keyword is required when feishu.enabled=true (需满足飞书关键字校验)"

/-- `loadConfig(path)`; `readFile` is the result of `os.ReadFile(path)` and
`unmarshal` the JSON decoder for `Config`. -/
def loadConfig (readFile : Except String String) (unmarshal : String → Except String Config) :
    Except String Config :=
  match readFile with
  | .error err => .error err
  | .ok data =>
    match unmarshal data with
    | .error err => .error err
    | .ok cfg => .ok cfg

/-- Sequencing of two parts of `validateConfig`: the second part runs on the
configuration the first one leaves, unless the first one returned an error. -/
def andThen (r : Config × Option ConfigError) (next : Config → Config × Option ConfigError) :
    Config × Option ConfigError :=
  match r with
  | (cfg, some err) => (cfg, some err)
  | (cfg, none) => next cfg

/-- `validateConfig`, first part: backup type, backup directory, prefix and
log directory. -/
def checkLayout (cfg : Config) : Config × Option ConfigError :=
  if cfg.BackupType ≠ "full" ∧ cfg.BackupType ≠ "incr" then
    (cfg, some (.badType cfg.BackupType))
  else if cfg.BackupDir = "" then
    (cfg, some .backupDirRequired)
  else
    let cfg := if cfg.BackupPrefix = "" then { cfg with BackupPrefix := "mysql" } else cfg
    let cfg := if cfg.LogDir = "" then { cfg with LogDir := filepathJoin cfg.BackupDir "log" }
      else cfg
    (cfg, none)

/-- `validateConfig`, second part: the `mysql` block. -/
def checkMySQL (cfg : Config) : Config × Option ConfigError :=
  if cfg.MySQL.DefaultsFile = "" then
    (cfg, some .defaultsFileRequired)
  else if cfg.MySQL.User = "" ∨ cfg.MySQL.Password = "" then
    (cfg, some .userPasswordRequired)
  else
    let cfg :=
      if cfg.MySQL.Socket = "" then
        let cfg := if cfg.MySQL.Host = "" then
          { cfg with MySQL := { cfg.MySQL with Host := "127.0.0.1" } } else cfg
        if cfg.MySQL.Port = 0 then { cfg with MySQL := { cfg.MySQL with Port := 3306 } } else cfg
      else cfg
    (cfg, none)

/-- `validateConfig`, third part: the `xtrabackup` block. -/
def checkEngine (lookPath : String → Except String String) (cfg : Config) :
    Config × Option ConfigError :=
  let found : Except String Config :=
    if cfg.XtraBackup.Bin = "" then
      match lookPath "xtrabackup" with
      | .error err => .error err
      | .ok bin => .ok { cfg with XtraBackup := { cfg.XtraBackup with Bin := bin } }
    else .ok cfg
  match found with
  | .error err => (cfg, some (.xtrabackupNotFound err))
  | .ok cfg =>
    let cfg := if cfg.XtraBackup.Parallel = 0 then
      { cfg with XtraBackup := { cfg.XtraBackup with Parallel := 2 } } else cfg
    let cfg := if cfg.XtraBackup.Compress = true ∧ cfg.XtraBackup.CompressThreads = 0 then
      { cfg with XtraBackup := { cfg.XtraBackup with CompressThreads := 2 } } else cfg
    (cfg, none)

/-- `validateConfig`, fourth part: the `remote` block. -/
def checkRemote (lookPath : String → Except String String) (cfg : Config) :
    Config × Option ConfigError :=
  if cfg.Remote.Enabled = true then
    if cfg.Remote.User = "" ∨ cfg.Remote.Host = "" ∨ cfg.Remote.DestDir = "" then
      (cfg, some .remoteFieldsRequired)
    else
      let cfg := if cfg.Remote.Port = 0 then
        { cfg with Remote := { cfg.Remote with Port := 22 } } else cfg
      match lookPath "scp" with
      | .error err => (cfg, some (.scpNotFound err))
      | .ok _ => (cfg, none)
  else (cfg, none)

/-- `validateConfig`, last part: the `feishu` block. -/
def checkFeishu (cfg : Config) : Config × Option ConfigError :=
  if cfg.Feishu.Enabled = true then
    if cfg.Feishu.Webhook = "" then (cfg, some .webhookRequired)
    else if cfg.Feishu.Keyword = "" then (cfg, some .keywordRequired)
    else (cfg, none)
  else (cfg, none)

/-- `validateConfig(cfg)`. The configuration is updated in place, so the result
is the configuration as the call leaves it together with the error, if any.
`lookPath` is `exec.LookPath`. The body of the Go function is the five parts
above, run in order up to the first error. -/
def validateConfig (lookPath : String → Except String String) (cfg : Config) :
    Config × Option ConfigError :=
  andThen (andThen (andThen (andThen (checkLayout cfg) checkMySQL) (checkEngine lookPath))
    (checkRemote lookPath)) checkFeishu

/-- The defaulting as the specification words it, field by field: the input
with the prefix, log directory, host and port (without a socket), parallelism,
compression threads, remote port and engine binary filled in when unset, and
nothing else changed. `found` is the engine binary found on `PATH`. -/
def specDefaults (found : String) (cfg : Config) : Config :=
  { cfg with
    BackupPrefix := if cfg.BackupPrefix = "" then "mysql" else cfg.BackupPrefix
    LogDir := if cfg.LogDir = "" then filepathJoin cfg.BackupDir "log" else cfg.LogDir
    MySQL := { cfg.MySQL with
      Host := if cfg.MySQL.Socket = "" ∧ cfg.MySQL.Host = "" then "127.0.0.1"
        else cfg.MySQL.Host
      Port := if cfg.MySQL.Socket = "" ∧ cfg.MySQL.Port = 0 then 3306 else cfg.MySQL.Port }
    XtraBackup := { cfg.XtraBackup with
      Bin := if cfg.XtraBackup.Bin = "" then found else cfg.XtraBackup.Bin
      Parallel := if cfg.XtraBackup.Parallel = 0 then 2 else cfg.XtraBackup.Parallel
      CompressThreads :=
        if cfg.XtraBackup.Compress = true ∧ cfg.XtraBackup.CompressThreads = 0 then 2
        else cfg.XtraBackup.CompressThreads }
    Remote := { cfg.Remote with
      Port := if cfg.Remote.Enabled = true ∧ cfg.Remote.Port = 0 then 22
        else cfg.Remote.Port } }

/-- What the specification requires of a configuration for validation to
succeed: a known backup type, the required fields, and the binaries it needs
resolvable on `PATH`. -/
def Acceptable (lookPath : String → Except String String) (cfg : Config) : Prop :=
  (cfg.BackupType = "full" ∨ cfg.BackupType = "incr") ∧ cfg.BackupDir ≠ "" ∧
  cfg.MySQL.DefaultsFile ≠ "" ∧ cfg.MySQL.User ≠ "" ∧ cfg.MySQL.Password ≠ "" ∧
  (cfg.XtraBackup.Bin = "" → ∃ found, lookPath "xtrabackup" = .ok found) ∧
  (cfg.Remote.Enabled = true →
    cfg.Remote.User ≠ "" ∧ cfg.Remote.Host ≠ "" ∧ cfg.Remote.DestDir ≠ "" ∧
    ∃ scp, lookPath "scp" = .ok scp) ∧
  (cfg.Feishu.Enabled = true → cfg.Feishu.Webhook ≠ "" ∧ cfg.Feishu.Keyword ≠ "")

/-! ### Backup, shipping, retention, notification -/

/-- `maskPassword(args)`: `out` starts as a copy of `args` and the loop
overwrites, index by index, the elements that start with `--password=`. -/
def maskPassword (args : List String) : List String :=
  let out := args
  (List.range out.length).foldl
    (fun out i => if hasPrefix (out.getD i "") "--password=" then out.set i "--password=***" else out)
    out

/-- The answers of the operating system to `runBackup`, one per call site.
`clock n` is the reading of `time.Now()` at the `n`-th place the function reads
the time (0: the backup name, 1 to 5: the log lines in source order). -/
structure BackupEnv where
  mkdirBackupDir : Option String
  mkdirLogDir : Option String
  clock : Nat → Civil
  openLog : Option String
  listing : Except String (List DirEntry)
  runErr : Option String
  statTarget : Except String Bool
  lookTar : Except String String
  tarErr : Option String

/-- `tarDir(dir, logger)`. -/
def tarDir (env : BackupEnv) (dir : String) : List Event × Except String String :=
  match env.statTarget with
  | .error err => ([], .error ("stat target dir: " ++ err))
  | .ok isDir =>
    if !isDir then ([], .ok dir)
    else
      match env.lookTar with
      | .error err => ([], .error ("tar not found in PATH: " ++ err))
      | .ok _ =>
        let base := filepathBase dir
        let parent := filepathDir dir
        let archive := dir ++ ".tar.gz"
        let line := Event.logLine
          ("[" ++ timeStamp (env.clock 4) ++ "] tar " ++ dir ++ " -> " ++ archive ++ "\n")
        let cmd := Event.run .tar "tar" ["-czf", archive, "-C", parent, base]
        match env.tarErr with
        | some err => ([line, cmd], .error ("tar archive failed: " ++ err))
        | none => ([line, cmd], .ok archive)

/-- The argument vector of `runBackup` before the incremental base directory
and the passthrough arguments are added. -/
def engineArgs (cfg : Config) (targetDir : String) : List String :=
  let args := [
    "--defaults-file=" ++ cfg.MySQL.DefaultsFile,
    "--user=" ++ cfg.MySQL.User,
    "--password=" ++ cfg.MySQL.Password,
    "--backup",
    "--target-dir=" ++ targetDir,
    "--parallel=" ++ sprintInt cfg.XtraBackup.Parallel,
    "--ftwrl-wait-timeout=300",
    "--backup-lock-timeout=300"]
  let args :=
    if cfg.MySQL.Socket ≠ "" then args ++ ["--socket=" ++ cfg.MySQL.Socket]
    else args ++ ["--host=" ++ cfg.MySQL.Host, "--port=" ++ sprintInt cfg.MySQL.Port]
  if cfg.XtraBackup.Compress = true then
    args ++ ["--compress", "--compress-threads=" ++ sprintInt cfg.XtraBackup.CompressThreads]
  else args

/-- The step of `runBackup` for `cfg.BackupType == "incr"`: the base directory
is looked up, appended to `args` and noted in the log; any other type leaves
`args` as they are. -/
def incrementalArgs (env : BackupEnv) (cfg : Config) (args : List String) :
    Except String (List Event × List String) :=
  if cfg.BackupType = "incr" then
    match findLatestFull env.listing cfg.BackupDir cfg.BackupPrefix with
    | .error err => .error err
    | .ok baseDir =>
      .ok ([.logLine ("[" ++ timeStamp (env.clock 2) ++ "] incremental basedir: " ++
        baseDir ++ "\n")], args ++ ["--incremental-basedir=" ++ baseDir])
  else .ok ([], args)

/-- `runBackup(cfg)`: the events it causes and what it returns. -/
def runBackup (env : BackupEnv) (cfg : Config) : List Event × Except String BackupResult :=
  match env.mkdirBackupDir with
  | some err => ([.mkdirAll cfg.BackupDir], .error ("create backup_dir: " ++ err))
  | none =>
    match env.mkdirLogDir with
    | some err =>
      ([.mkdirAll cfg.BackupDir, .mkdirAll cfg.LogDir], .error ("create log_dir: " ++ err))
    | none =>
      let ts := formatCompact (env.clock 0)
      let backupName := cfg.BackupPrefix ++ "_" ++ cfg.BackupType ++ "_" ++ ts
      let targetDir := filepathJoin cfg.BackupDir backupName
      let logPath := filepathJoin cfg.LogDir (backupName ++ ".log")
      let opened := [Event.mkdirAll cfg.BackupDir, .mkdirAll cfg.LogDir, .openFile logPath]
      match env.openLog with
      | some err => (opened, .error ("open log file: " ++ err))
      | none =>
        let started := opened ++ [.logLine
          ("[" ++ timeStamp (env.clock 1) ++ "] starting backup: " ++ backupName ++ "\n")]
        match incrementalArgs env cfg (engineArgs cfg targetDir) with
        | .error err => (started, .error err)
        | .ok (noted, args) =>
          let args := args ++ cfg.XtraBackup.ExtraArgs
          let launched := started ++ noted ++ [
            .logLine ("[" ++ timeStamp (env.clock 3) ++ "] exec: " ++ cfg.XtraBackup.Bin ++ " " ++
              stringsJoin (maskPassword args) " " ++ "\n"),
            .run .engine cfg.XtraBackup.Bin args]
          match env.runErr with
          | some err =>
            (launched, .error ("xtrabackup: " ++ err ++ " (see log " ++ logPath ++ ")"))
          | none =>
            let packed : List Event × Except String String :=
              if cfg.TarArchive = true then tarDir env targetDir else ([], .ok targetDir)
            match packed with
            | (tarred, .error err) => (launched ++ tarred, .error err)
            | (tarred, .ok archivePath) =>
              (launched ++ tarred ++
                [.logLine ("[" ++ timeStamp (env.clock 5) ++ "] backup finished\n")],
               .ok { BackupName := backupName, TargetDir := targetDir,
                     ArchivePath := archivePath, LogPath := logPath })

/-- `sendArchive(cfg, res)`; `now` is the time read for the progress line and
`scpErr` the error of running `scp`, if any. -/
def sendArchive (now : Civil) (scpErr : Option String) (cfg : Config) (res : BackupResult) :
    List Event × Option String :=
  let line := Event.stdout ("[" ++ timeStamp now ++ "] sending archive to " ++ cfg.Remote.User ++
    "@" ++ cfg.Remote.Host ++ ":" ++ cfg.Remote.DestDir ++ " ...\n")
  let args := ["-P", sprintInt cfg.Remote.Port, res.ArchivePath,
    cfg.Remote.User ++ "@" ++ cfg.Remote.Host ++ ":" ++ cfg.Remote.DestDir]
  match scpErr with
  | some err => ([line, .run .scp "scp" args], some ("scp failed: " ++ err))
  | none => ([line, .run .scp "scp" args], none)

/-- The answers of the operating system and of the time library to
`cleanupOld`. `now` is the instant of `time.Now()` in nanoseconds and
`addDate t days` the instant of `t.AddDate(0, 0, days)` for the local time `t`:
the same wall-clock reading `days` calendar days away in the local time zone. It
is `days` times 24 hours away from `t` only when the zone has the same offset
from UTC at both instants and the date arithmetic stays in range. `removeAll fp`
is the error of `os.RemoveAll(fp)`, `clock fp` the time read for the message
about `fp`, and `logEntries` the entries `os.ReadDir(cfg.LogDir)` returns, with
or without an error (the error is discarded). -/
structure CleanupEnv where
  listing : Except String (List DirEntry)
  now : Int
  addDate : Int → Int → Int
  removeAll : String → Option String
  clock : String → Civil
  logEntries : List DirEntry

/-- The first loop of `cleanupOld`, over the entries of the backup root. -/
def sweepBackups (env : CleanupEnv) (cfg : Config) (cutoff : Int) :
    List DirEntry → List Event × Option String
  | [] => ([], none)
  | e :: rest =>
    if !hasPrefix e.name (cfg.BackupPrefix ++ "_") then sweepBackups env cfg cutoff rest
    else
      let fp := filepathJoin cfg.BackupDir e.name
      match e.modTime with
      | none => sweepBackups env cfg cutoff rest
      | some t =>
        if t < cutoff then
          match env.removeAll fp with
          | some err => ([.removeAll fp], some ("cleanup remove " ++ fp ++ ": " ++ err))
          | none =>
            let later := sweepBackups env cfg cutoff rest
            (.removeAll fp :: .stdout ("[" ++ timeStamp (env.clock fp) ++
              "] cleaned old backup " ++ fp ++ "\n") :: later.1, later.2)
        else sweepBackups env cfg cutoff rest

/-- The second loop of `cleanupOld`, over the entries of the log directory. -/
def sweepLogs (cfg : Config) (cutoff : Int) : List DirEntry → List Event
  | [] => []
  | e :: rest =>
    let fp := filepathJoin cfg.LogDir e.name
    match e.modTime with
    | none => sweepLogs cfg cutoff rest
    | some t =>
      if t < cutoff then .remove fp :: sweepLogs cfg cutoff rest
      else sweepLogs cfg cutoff rest

/-- `cleanupOld(cfg)`. -/
def cleanupOld (env : CleanupEnv) (cfg : Config) : List Event × Option String :=
  match env.listing with
  | .error err => ([], some ("cleanup read dir: " ++ err))
  | .ok entries =>
    let cutoff := env.addDate env.now (negInt cfg.RetentionDays)
    match sweepBackups env cfg cutoff entries with
    | (evs, some err) => (evs, some err)
    | (evs, none) => (evs ++ sweepLogs cfg cutoff env.logEntries, none)

/-- The text of the message `sendFeishu` posts. -/
def feishuText (cfg : Config) (res : Option BackupResult) (status errMsg : String) : String :=
  let backupName := match res with
    | some r => r.BackupName
    | none => ""
  let archive := match res with
    | some r => r.ArchivePath
    | none => ""
  let log := match res with
    | some r => r.LogPath
    | none => ""
  let textLines := [cfg.Feishu.Keyword, "状态: " ++ status, "备份名: " ++ backupName,
    "文件: " ++ archive, "日志: " ++ log]
  let textLines := if errMsg ≠ "" then textLines ++ ["错误: " ++ errMsg] else textLines
  stringsJoin textLines "\n"

/-- `sendFeishu(cfg, res, status, errMsg)`: the events it causes, and whether
it returns. `requestErr url` is the error of `http.NewRequest("POST", url, body)`,
which fails when `url` does not parse as a URL; the function discards that error
and sets a header on the request, so with the nil request of a failed call the
Go run-time stops the process: a nil dereference that nothing recovers, reported
on standard error, exit code 2, nothing posted. `postErr` is the error of the
HTTP round trip, if any. -/
def sendFeishu (requestErr : String → Option String) (postErr : Option String) (cfg : Config)
    (res : Option BackupResult) (status errMsg : String) : List Event × Bool :=
  if !cfg.Feishu.Enabled then ([], true)
  else
    match requestErr cfg.Feishu.Webhook with
    | some _ =>
      ([.crash "runtime error: invalid memory address or nil pointer dereference", .exit 2],
        false)
    | none =>
      let post := Event.httpPost cfg.Feishu.Webhook (feishuText cfg res status errMsg)
      match postErr with
      | some err => ([post, .stderr ("send feishu failed: " ++ err ++ "\n")], true)
      | none => ([post], true)

/-- What `main` does around a call of `sendFeishu`: the events of the call, then
`rest` when the call returned and nothing more when it stopped the process. -/
def thenRun (sent : List Event × Bool) (rest : List Event) : List Event :=
  sent.1 ++ (if sent.2 = true then rest else [])

/-- `fatalf(format, a...)` with the message already formatted. -/
def fatalf (msg : String) : List Event :=
  [.stderr (msg ++ "\n"), .exit 1]

/-- The command-line flags of the tool. -/
structure Flags where
  cfgPath : String
  backupTypeOverride : String
  skipRemote : Bool
  deriving DecidableEq, Repr

/-- Everything outside the program that one run of `main` depends on. -/
structure World where
  readFile : String → Except String String
  unmarshal : String → Except String Config
  lookPath : String → Except String String
  backup : BackupEnv
  sendClock : Civil
  scpErr : Option String
  cleanup : CleanupEnv
  requestErr : String → Option String
  postErr : Option String

/-- The backup type after the command-line override and the default are
applied (the two assignments at the start of `main`). -/
def overrideType (fl : Flags) (cfg : Config) : Config :=
  let cfg := if fl.backupTypeOverride ≠ "" then { cfg with BackupType := fl.backupTypeOverride }
    else cfg
  if cfg.BackupType = "" then { cfg with BackupType := "full" } else cfg

/-- `main()`: the events of one run, ending with the exit of the process. -/
def main (w : World) (fl : Flags) : List Event :=
  match loadConfig (w.readFile fl.cfgPath) w.unmarshal with
  | .error err => fatalf ("load config: " ++ err)
  | .ok cfg =>
    match validateConfig w.lookPath (overrideType fl cfg) with
    | (_, some err) => fatalf ("config invalid: " ++ err.message)
    | (cfg, none) =>
      match runBackup w.backup cfg with
      | (evs, .error err) =>
        evs ++ thenRun (sendFeishu w.requestErr w.postErr cfg none "失败" err)
          (fatalf ("backup failed: " ++ err))
      | (evs, .ok result) =>
        let shipped : List Event × Option String :=
          if cfg.Remote.Enabled = true ∧ fl.skipRemote = false then
            sendArchive w.sendClock w.scpErr cfg result
          else ([], none)
        match shipped with
        | (sent, some err) =>
          evs ++ sent ++ thenRun (sendFeishu w.requestErr w.postErr cfg (some result) "失败" err)
            (fatalf ("send to remote failed: " ++ err))
        | (sent, none) =>
          let swept : List Event × Option String :=
            if cfg.RetentionDays > 0 then cleanupOld w.cleanup cfg else ([], none)
          match swept with
          | (cleaned, some err) =>
            evs ++ sent ++ cleaned ++
              thenRun (sendFeishu w.requestErr w.postErr cfg (some result) "失败" err)
                (fatalf ("cleanup failed: " ++ err))
          | (cleaned, none) =>
            evs ++ sent ++ cleaned ++
              thenRun (sendFeishu w.requestErr w.postErr cfg (some result) "成功" "")
                [.stdout ("Backup finished. name=" ++ result.BackupName ++ " local=" ++
                  result.TargetDir ++ " archive=" ++ result.ArchivePath ++ " log=" ++
                  result.LogPath ++ "\n"), .exit 0]

end MysqlXtrabackup

/-! ## `dbbackup.go` -/

namespace Dbbackup

open GoStd Sys

/-- `MySQLConfig`. -/
structure MySQLConfig where
  Host : String
  Port : String
  Username : String
  Password : String
  Database : String
  AllDatabases : Bool
  BackupTool : String
  Datadir : String
  deriving DecidableEq, Repr

/-- The answers of the operating system to `backupMySQLWithXtraBackup`. -/
structure XtraEnv where
  lookPath : Except String String
  now : Civil
  mkdirErr : Option String
  runErr : Option String

/-- Go `fmt.Sprintf("%v", xs)` of a slice of strings. -/
def sprintSlice (xs : List String) : String :=
  "[" ++ stringsJoin xs " " ++ "]"

/-- The copy of the arguments made for display in
`backupMySQLWithXtraBackup` (`logArgs`). -/
def logArgs (cmdArgs : List String) : List String :=
  let logArgs := cmdArgs
  (List.range logArgs.length).foldl
    (fun logArgs i =>
      if hasPrefix (logArgs.getD i "") "--password=" then logArgs.set i "--password=***"
      else logArgs)
    logArgs

/-- `backupMySQLWithXtraBackup(config, outputDir)`. -/
def backupMySQLWithXtraBackup (env : XtraEnv) (config : MySQLConfig) (outputDir : String) :
    List Event × Option String :=
  let hello := Event.stdout "Starting MySQL backup with XtraBackup...\n"
  match env.lookPath with
  | .error err =>
    ([hello], some ("xtrabackup command not found. Please install Percona XtraBackup: " ++ err))
  | .ok _ =>
    let backupDir := outputDir ++ "/xtrabackup_" ++ formatCompact env.now
    match env.mkdirErr with
    | some err => ([hello, .mkdirAll backupDir], some ("failed to create backup directory: " ++ err))
    | none =>
      let cmdArgs := [
        "--backup",
        "--datadir=" ++ config.Datadir,
        "--target-dir=" ++ backupDir,
        "--host=" ++ config.Host,
        "--port=" ++ config.Port,
        "--user=" ++ config.Username,
        "--password=" ++ config.Password]
      let shown := Event.stdout
        ("Executing: xtrabackup with args " ++ sprintSlice (logArgs cmdArgs) ++ "\n")
      let cmd := Event.run .engine "xtrabackup" cmdArgs
      match env.runErr with
      | some err => ([hello, .mkdirAll backupDir, shown, cmd], some ("xtrabackup failed: " ++ err))
      | none =>
        ([hello, .mkdirAll backupDir, shown, cmd,
          .stdout ("MySQL backup with XtraBackup completed successfully: " ++ backupDir ++ "\n")],
         none)

/-- `MongoDBConfig`. -/
structure MongoDBConfig where
  Host : String
  Port : String
  Username : String
  Password : String
  Database : String
  AuthDatabase : String
  Options : String
  AllDatabases : Bool
  deriving DecidableEq, Repr

/-- `PostgresConfig`. -/
structure PostgresConfig where
  Host : String
  Port : String
  Username : String
  Password : String
  Database : String
  AllDatabases : Bool
  deriving DecidableEq, Repr

/-- The answers of the operating system to one of the dump functions:
`exec.LookPath`, the clock, `os.Environ()`, the error of `os.Create` and the
error of running the command. -/
structure DumpEnv where
  lookPath : String → Except String String
  now : Civil
  environ : List String
  createErr : Option String
  runErr : Option String

/-- `backupMySQLWithMysqldump(config, outputDir)`. -/
def backupMySQLWithMysqldump (env : DumpEnv) (config : MySQLConfig) (outputDir : String) :
    List Event × Option String :=
  let hello := Event.stdout "Starting MySQL backup with mysqldump...\n"
  match env.lookPath "mysqldump" with
  | .error err =>
    ([hello], some ("mysqldump command not found. Please install MySQL client tools: " ++ err))
  | .ok _ =>
    let filename := outputDir ++ "/mysql_" ++ formatCompact env.now ++ ".sql"
    let cmdArgs := [
      "--host=" ++ config.Host,
      "--port=" ++ config.Port,
      "--user=" ++ config.Username,
      "--password=" ++ config.Password,
      "--single-transaction",
      "--routines",
      "--triggers",
      "--no-tablespaces"]
    let cmdArgs :=
      if config.AllDatabases = true then cmdArgs ++ ["--all-databases"]
      else cmdArgs ++ [config.Database]
    match env.createErr with
    | some err => ([hello, .create filename], some ("failed to create output file: " ++ err))
    | none =>
      let shown := Event.stdout
        ("Executing: mysqldump with args " ++ sprintSlice (logArgs cmdArgs) ++ "\n")
      let cmd := Event.run .engine "mysqldump" cmdArgs
      match env.runErr with
      | some err => ([hello, .create filename, shown, cmd], some ("mysqldump failed: " ++ err))
      | none =>
        ([hello, .create filename, shown, cmd,
          .stdout ("MySQL backup with mysqldump completed successfully: " ++ filename ++ "\n")],
         none)

/-- `backupMySQL(config, outputDir)`. -/
def backupMySQL (xtra : XtraEnv) (env : DumpEnv) (config : MySQLConfig) (outputDir : String) :
    List Event × Option String :=
  let hello := Event.stdout ("Starting MySQL backup using " ++ config.BackupTool ++ "...\n")
  let r :=
    if config.BackupTool = "xtrabackup" then backupMySQLWithXtraBackup xtra config outputDir
    else if config.BackupTool = "mysqldump" then backupMySQLWithMysqldump env config outputDir
    else backupMySQLWithMysqldump env config outputDir
  (hello :: r.1, r.2)

/-- The copy of the environment made for display in the PostgreSQL dump
functions (`logEnv`). -/
def logEnv (env : List String) : List String :=
  let logEnv := env
  (List.range logEnv.length).foldl
    (fun logEnv i =>
      if hasPrefix (logEnv.getD i "") "PGPASSWORD=" then logEnv.set i "PGPASSWORD=***"
      else logEnv)
    logEnv

/-- The environment the PostgreSQL dump functions give to the command. -/
def pgEnviron (env : DumpEnv) (config : PostgresConfig) : List String :=
  env.environ ++ ["PGHOST=" ++ config.Host] ++ ["PGPORT=" ++ config.Port] ++
    ["PGUSER=" ++ config.Username] ++ ["PGPASSWORD=" ++ config.Password]

/-- `backupPostgreSQLAll(config, outputDir)`. -/
def backupPostgreSQLAll (env : DumpEnv) (config : PostgresConfig) (outputDir : String) :
    List Event × Option String :=
  let hello := Event.stdout "Starting PostgreSQL backup of all databases...\n"
  match env.lookPath "pg_dumpall" with
  | .error err =>
    ([hello],
      some ("pg_dumpall command not found. Please install PostgreSQL client tools: " ++ err))
  | .ok _ =>
    let environ := pgEnviron env config
    let filename := outputDir ++ "/postgresql_all_" ++ formatCompact env.now ++ ".sql"
    let cmdArgs := ["--verbose", "--clean", "--no-owner", "--no-acl"]
    match env.createErr with
    | some err => ([hello, .create filename], some ("failed to create output file: " ++ err))
    | none =>
      let shown := Event.stdout ("Executing: pg_dumpall with args " ++ sprintSlice cmdArgs ++
        " and env " ++ sprintSlice (logEnv environ) ++ "\n")
      let cmd := Event.runEnv "pg_dumpall" cmdArgs environ
      match env.runErr with
      | some err => ([hello, .create filename, shown, cmd], some ("pg_dumpall failed: " ++ err))
      | none =>
        ([hello, .create filename, shown, cmd,
          .stdout ("PostgreSQL backup of all databases completed successfully: " ++ filename ++
            "\n")], none)

/-- `backupPostgreSQLSingle(config, outputDir)`. -/
def backupPostgreSQLSingle (env : DumpEnv) (config : PostgresConfig) (outputDir : String) :
    List Event × Option String :=
  let hello := Event.stdout
    ("Starting PostgreSQL backup of database '" ++ config.Database ++ "'...\n")
  match env.lookPath "pg_dump" with
  | .error err =>
    ([hello],
      some ("pg_dump command not found. Please install PostgreSQL client tools: " ++ err))
  | .ok _ =>
    let environ := pgEnviron env config
    let filename := outputDir ++ "/postgresql_" ++ config.Database ++ "_" ++
      formatCompact env.now ++ ".sql"
    let cmdArgs := ["--verbose", "--clean", "--no-owner", "--no-acl", config.Database]
    match env.createErr with
    | some err => ([hello, .create filename], some ("failed to create output file: " ++ err))
    | none =>
      let shown := Event.stdout ("Executing: pg_dump with args " ++ sprintSlice cmdArgs ++
        " and env " ++ sprintSlice (logEnv environ) ++ "\n")
      let cmd := Event.runEnv "pg_dump" cmdArgs environ
      match env.runErr with
      | some err => ([hello, .create filename, shown, cmd], some ("pg_dump failed: " ++ err))
      | none =>
        ([hello, .create filename, shown, cmd,
          .stdout ("PostgreSQL backup of database '" ++ config.Database ++
            "' completed successfully: " ++ filename ++ "\n")], none)

/-- `backupPostgreSQL(config, outputDir)`. -/
def backupPostgreSQL (env : DumpEnv) (config : PostgresConfig) (outputDir : String) :
    List Event × Option String :=
  if config.AllDatabases = true then backupPostgreSQLAll env config outputDir
  else backupPostgreSQLSingle env config outputDir

/-- The end of the two MongoDB dump functions, from the authentication
database on: the remaining arguments, the display, the run. -/
def mongodump (env : DumpEnv) (config : MongoDBConfig) (hello : Event) (cmdArgs : List String)
    (done : String) : List Event × Option String :=
  let authDB := if config.AuthDatabase = "" then "admin" else config.AuthDatabase
  let cmdArgs := cmdArgs ++ ["--authenticationDatabase=" ++ authDB]
  let cmdArgs :=
    if config.Options ≠ "" then cmdArgs ++ stringsSplitSpace config.Options else cmdArgs
  let shown := Event.stdout
    ("Executing: mongodump with args " ++ sprintSlice (logArgs cmdArgs) ++ "\n")
  let cmd := Event.run .engine "mongodump" cmdArgs
  match env.runErr with
  | some err => ([hello, shown, cmd], some ("mongodump failed: " ++ err))
  | none => ([hello, shown, cmd, .stdout done], none)

/-- `backupMongoDBAll(config, outputDir)`. -/
def backupMongoDBAll (env : DumpEnv) (config : MongoDBConfig) (outputDir : String) :
    List Event × Option String :=
  let hello := Event.stdout "Starting MongoDB backup of all databases...\n"
  match env.lookPath "mongodump" with
  | .error err =>
    ([hello], some ("mongodump command not found. Please install MongoDB client tools: " ++ err))
  | .ok _ =>
    let filename := outputDir ++ "/mongodb_all_" ++ formatCompact env.now
    mongodump env config hello
      ["--host=" ++ config.Host ++ ":" ++ config.Port,
       "--username=" ++ config.Username,
       "--password=" ++ config.Password,
       "--out=" ++ filename]
      ("MongoDB backup of all databases completed successfully: " ++ filename ++ "\n")

/-- `backupMongoDBSingle(config, outputDir)`. -/
def backupMongoDBSingle (env : DumpEnv) (config : MongoDBConfig) (outputDir : String) :
    List Event × Option String :=
  let hello := Event.stdout
    ("Starting MongoDB backup of database '" ++ config.Database ++ "'...\n")
  match env.lookPath "mongodump" with
  | .error err =>
    ([hello], some ("mongodump command not found. Please install MongoDB client tools: " ++ err))
  | .ok _ =>
    let filename := outputDir ++ "/mongodb_" ++ config.Database ++ "_" ++ formatCompact env.now
    mongodump env config hello
      ["--host=" ++ config.Host ++ ":" ++ config.Port,
       "--username=" ++ config.Username,
       "--password=" ++ config.Password,
       "--db=" ++ config.Database,
       "--out=" ++ filename]
      ("MongoDB backup of database '" ++ config.Database ++ "' completed successfully: " ++
        filename ++ "\n")

/-- `backupMongoDB(config, outputDir)`. -/
def backupMongoDB (env : DumpEnv) (config : MongoDBConfig) (outputDir : String) :
    List Event × Option String :=
  if config.AllDatabases = true then backupMongoDBAll env config outputDir
  else backupMongoDBSingle env config outputDir

/-- The command line after `flag.Parse()`: `visited name` is the value of the
string flag `name` when it was given (what `flag.Visit` reports), and the three
boolean flags with their parsed values. -/
structure Flags where
  visited : String → Option String
  mongoAllDBs : Bool
  mysqlAllDBs : Bool
  postgresAllDatabases : Bool

/-- The value of a string flag: what was given, or its default. -/
def strFlag (fl : Flags) (name dflt : String) : String :=
  match fl.visited name with
  | some v => v
  | none => dflt

/-- `getFlagValueByName(name)`. -/
def getFlagValueByName (fl : Flags) (name : String) : String :=
  match fl.visited name with
  | some v => v
  | none => ""

/-- `getFlagValue(short, long, defaultValue)`. -/
def getFlagValue (fl : Flags) (short long defaultValue : String) : String :=
  let shortValue := getFlagValueByName fl short
  if shortValue ≠ "" then shortValue
  else
    let longValue := getFlagValueByName fl long
    if longValue ≠ "" then longValue
    else defaultValue

/-- `*dbType` after the short and long forms are merged in `main`. -/
def dbTypeOf (fl : Flags) : String :=
  getFlagValue fl "t" "type" (strFlag fl "t" "")

/-- `*host` after the short and long forms are merged in `main`. -/
def hostOf (fl : Flags) : String :=
  getFlagValue fl "h" "host" (strFlag fl "h" "localhost")

/-- `*port` after the short and long forms are merged in `main`. -/
def portOf (fl : Flags) : String :=
  getFlagValue fl "P" "port" (strFlag fl "P" "")

/-- `*username` after the short and long forms are merged in `main`. -/
def usernameOf (fl : Flags) : String :=
  getFlagValue fl "u" "user" (strFlag fl "u" "")

/-- `*password` after the short and long forms are merged in `main`. -/
def passwordOf (fl : Flags) : String :=
  getFlagValue fl "p" "pass" (strFlag fl "p" "")

/-- The `switch *dbType` that sets the default port in `main`; `none` is its
`default` branch. -/
def defaultPort (dbType : String) : Option String :=
  if dbType = "mysql" then some "3306"
  else if dbType = "postgresql" then some "5432"
  else if dbType = "mongodb" then some "27017"
  else none

/-- Everything outside the program that one run of `main` depends on: the text
`flag.Usage()` prints, the error of creating the output directory, and the
answers to the backup functions. -/
structure World where
  usage : String
  mkdirErr : Option String
  xtra : XtraEnv
  dump : DumpEnv

/-- The end of `main` after a backup function returned: the failure message and
exit code 1, or the normal end of the program. -/
def finish (label : String) (r : List Event × Option String) : List Event :=
  match r with
  | (evs, some err) => evs ++ [.stdout (label ++ " backup failed: " ++ err ++ "\n"), .exit 1]
  | (evs, none) => evs ++ [.exit 0]

/-- The `MySQLConfig` that `main` builds from the flags. -/
def mysqlConfigOf (fl : Flags) (port : String) : MySQLConfig where
  Host := hostOf fl
  Port := port
  Username := usernameOf fl
  Password := passwordOf fl
  Database := strFlag fl "db" ""
  AllDatabases := fl.mysqlAllDBs
  BackupTool := strFlag fl "mysql-tool" "mysqldump"
  Datadir := strFlag fl "mysql-datadir" "/var/lib/mysql"

/-- The `PostgresConfig` that `main` builds from the flags. -/
def postgresConfigOf (fl : Flags) (port : String) : PostgresConfig where
  Host := hostOf fl
  Port := port
  Username := usernameOf fl
  Password := passwordOf fl
  Database := strFlag fl "db" ""
  AllDatabases := fl.postgresAllDatabases

/-- The `MongoDBConfig` that `main` builds from the flags. -/
def mongoConfigOf (fl : Flags) (port : String) : MongoDBConfig where
  Host := hostOf fl
  Port := port
  Username := usernameOf fl
  Password := passwordOf fl
  Database := strFlag fl "db" ""
  AuthDatabase := strFlag fl "mongo-auth-db" ""
  Options := strFlag fl "mongo-options" ""
  AllDatabases := fl.mongoAllDBs

/-- The last statement of `main`, `switch strings.ToLower(*dbType)`, with
`port` the value of `*port` at that point. -/
def dispatch (w : World) (fl : Flags) (dbType port outputDir : String) : List Event :=
  if stringsToLower dbType = "mysql" then
    finish "MySQL" (backupMySQL w.xtra w.dump (mysqlConfigOf fl port) outputDir)
  else if stringsToLower dbType = "postgresql" then
    finish "PostgreSQL" (backupPostgreSQL w.dump (postgresConfigOf fl port) outputDir)
  else if stringsToLower dbType = "mongodb" then
    finish "MongoDB" (backupMongoDB w.dump (mongoConfigOf fl port) outputDir)
  else
    [.stdout ("Error: unsupported database type '" ++ dbType ++ "'\n"), .stderr w.usage,
      .exit 1]

/-- `main()` of `dbbackup.go`: the events of one run, ending with the exit of
the process. -/
def main (w : World) (fl : Flags) : List Event :=
  let dbType := dbTypeOf fl
  let port := portOf fl
  let username := usernameOf fl
  let database := strFlag fl "db" ""
  let outputDir := strFlag fl "out" "./backups"
  if dbType = "" then
    [.stdout "Error: -t or -type is required\n", .stderr w.usage, .exit 1]
  else if database = "" ∧ dbType ≠ "mysql" ∧ fl.postgresAllDatabases = false ∧
      fl.mongoAllDBs = false then
    [.stdout "Error: -db is required\n", .stderr w.usage, .exit 1]
  else if username = "" then
    [.stdout "Error: -u or -user is required\n", .stderr w.usage, .exit 1]
  else
    match (if port = "" then defaultPort dbType else some port) with
    | none => [.stdout "Error: unsupported database type\n", .exit 1]
    | some port =>
      match w.mkdirErr with
      | some err =>
        [.mkdirAll outputDir, .stdout ("Error creating output directory: " ++ err ++ "\n"),
          .exit 1]
      | none => .mkdirAll outputDir :: dispatch w fl dbType port outputDir

/-- A world in which every step of a backup succeeds. -/
def calmWorld : World where
  usage := "Usage of dbbackup:\n"
  mkdirErr := none
  xtra := { lookPath := .ok "/usr/bin/xtrabackup", now := ⟨2024, 1, 4, 3, 0, 0⟩,
            mkdirErr := none, runErr := none }
  dump := { lookPath := fun name => .ok ("/usr/bin/" ++ name), now := ⟨2024, 1, 4, 3, 0, 0⟩,
            environ := ["PATH=/usr/bin"], createErr := none, runErr := none }

end Dbbackup

/-! ## Vocabulary for traces -/

namespace Sys

/-- The kinds of event `runBackup` can cause. -/
def Event.ofBackup : Event → Bool
  | .mkdirAll _ => true
  | .openFile _ => true
  | .logLine _ => true
  | .run .engine _ _ => true
  | .run .tar _ _ => true
  | _ => false

/-- The kinds of event `cleanupOld` can cause. -/
def Event.ofCleanup : Event → Bool
  | .removeAll _ => true
  | .remove _ => true
  | .stdout _ => true
  | _ => false

/-- A webhook post. -/
def Event.isPost : Event → Bool
  | .httpPost _ _ => true
  | _ => false

end Sys

/-! ## Sample inputs -/

namespace MysqlXtrabackup

open GoStd Sys

/-- The configuration `cfg` with another password. -/
def withPassword (cfg : Config) (pw : String) : Config :=
  { cfg with MySQL := { cfg.MySQL with Password := pw } }

/-- An event as a log may show it: the arguments of a started process are
replaced by their masked copy, every other event is left as it is. -/
def hideArgs : Event → Event
  | .run site bin args => .run site bin (maskPassword args)
  | ev => ev

/-- A configuration of the flag-driven tool for a physical backup. -/
def sampleXtraConfig : Dbbackup.MySQLConfig where
  Host := "127.0.0.1"
  Port := "3306"
  Username := "backup"
  Password := "s3cret"
  Database := ""
  AllDatabases := true
  BackupTool := "xtrabackup"
  Datadir := "/var/lib/mysql"

/-- The listing of the example: two full backups and a later incremental one. -/
def sampleListing : List DirEntry :=
  [⟨"mysql_full_20240101_000000", true, none⟩,
   ⟨"mysql_full_20240102_000000", true, none⟩,
   ⟨"mysql_incr_20240103_000000", true, none⟩]

/-- A validated configuration for an incremental backup. -/
def sampleConfig : Config where
  BackupType := "incr"
  BackupDir := "/data/backup"
  BackupPrefix := "mysql"
  RetentionDays := 7
  TarArchive := false
  LogDir := "/data/backup/log"
  MySQL := { DefaultsFile := "/etc/my.cnf", Socket := "", Host := "127.0.0.1", Port := 3306,
             User := "backup", Password := "s3cret" }
  XtraBackup := { Bin := "/usr/bin/xtrabackup", Parallel := 2, Compress := false,
                  CompressThreads := 0, ExtraArgs := ["--no-lock"] }
  Remote := { Enabled := true, User := "ops", Host := "vault", Port := 22,
              DestDir := "/srv/backups" }
  Feishu := { Enabled := true, Webhook := "https://open.feishu.cn/hook/1", Keyword := "backup" }

/-- The clock of the examples: 4 January 2024, 03:00:00. -/
def sampleClock : Civil :=
  ⟨2024, 1, 4, 3, 0, 0⟩

/-- An environment in which every step of `runBackup` succeeds and the
backup root holds `entries`. -/
def backupEnvWith (entries : List DirEntry) : BackupEnv where
  mkdirBackupDir := none
  mkdirLogDir := none
  clock := fun _ => sampleClock
  openLog := none
  listing := .ok entries
  runErr := none
  statTarget := .ok true
  lookTar := .ok "/usr/bin/tar"
  tarErr := none

/-- The instant of the examples, 2024-01-04 03:00:00 UTC, in nanoseconds. -/
def sampleNow : Int :=
  1704337200000000000

/-- A backup root with an artifact 8 days old, one 6 days old and a file that
is not a backup. -/
def retentionListing : List DirEntry :=
  [⟨"mysql_full_20231227_030000", true, some (sampleNow - 8 * nsPerDay)⟩,
   ⟨"mysql_full_20231229_030000", true, some (sampleNow - 6 * nsPerDay)⟩,
   ⟨"notes.txt", false, some (sampleNow - 30 * nsPerDay)⟩]

/-- An environment in which every removal succeeds, the backup root holds
`entries`, the log directory holds `logs`, and the local time zone is UTC, where
a calendar day away is 24 hours away. -/
def cleanupEnvWith (entries logs : List DirEntry) : CleanupEnv where
  listing := .ok entries
  now := sampleNow
  addDate := fun t days => t + days * nsPerDay
  removeAll := fun _ => none
  clock := fun _ => sampleClock
  logEntries := logs

/-- A `PATH` on which every binary is found under `/usr/bin`. -/
def sampleLookPath : String → Except String String :=
  fun name => .ok ("/usr/bin/" ++ name)

/-- The answers of `http.NewRequest` in the examples: the URL `:` has no
scheme and is refused, every other URL of the examples is accepted. -/
def sampleRequestErr : String → Option String :=
  fun url => if url = ":" then some "missing protocol scheme" else none

/-- A world in which the configuration file holds `cfg` and every later step
succeeds. -/
def worldWith (cfg : Config) : World where
  readFile := fun _ => .ok "{}"
  unmarshal := fun _ => .ok cfg
  lookPath := sampleLookPath
  backup := backupEnvWith sampleListing
  sendClock := sampleClock
  scpErr := none
  cleanup := cleanupEnvWith retentionListing []
  requestErr := sampleRequestErr
  postErr := none

/-- A configuration that leaves every optional field unset. -/
def bareConfig : Config where
  BackupType := "full"
  BackupDir := "/data/backup"
  BackupPrefix := ""
  RetentionDays := 7
  TarArchive := false
  LogDir := ""
  MySQL := { DefaultsFile := "/etc/my.cnf", Socket := "", Host := "", Port := 0,
             User := "backup", Password := "s3cret" }
  XtraBackup := { Bin := "", Parallel := 0, Compress := true, CompressThreads := 0,
                  ExtraArgs := [] }
  Remote := { Enabled := true, User := "ops", Host := "vault", Port := 0,
              DestDir := "/srv/backups" }
  Feishu := { Enabled := false, Webhook := "", Keyword := "" }

/-- The configuration `validateConfig` makes of `bareConfig`. -/
def filledConfig : Config where
  BackupType := "full"
  BackupDir := "/data/backup"
  BackupPrefix := "mysql"
  RetentionDays := 7
  TarArchive := false
  LogDir := "/data/backup/log"
  MySQL := { DefaultsFile := "/etc/my.cnf", Socket := "", Host := "127.0.0.1", Port := 3306,
             User := "backup", Password := "s3cret" }
  XtraBackup := { Bin := "/usr/bin/xtrabackup", Parallel := 2, Compress := true,
                  CompressThreads := 2, ExtraArgs := [] }
  Remote := { Enabled := true, User := "ops", Host := "vault", Port := 22,
              DestDir := "/srv/backups" }
  Feishu := { Enabled := false, Webhook := "", Keyword := "" }

/-- The result of the sample incremental run. -/
def sampleResult : BackupResult where
  BackupName := "mysql_incr_20240104_030000"
  TargetDir := "/data/backup/mysql_incr_20240104_030000"
  ArchivePath := "/data/backup/mysql_incr_20240104_030000"
  LogPath := "/data/backup/log/mysql_incr_20240104_030000.log"

/-- The sample configuration with notification switched off. -/
def silentConfig : Config :=
  { sampleConfig with Feishu := { sampleConfig.Feishu with Enabled := false } }

/-- The time stamps in the names of the sample listing. -/
def sampleStamp (e : DirEntry) : Civil :=
  if e.name = "mysql_full_20240101_000000" then ⟨2024, 1, 1, 0, 0, 0⟩
  else ⟨2024, 1, 2, 0, 0, 0⟩

/-- A validated configuration for a full backup over a socket, with a host
given among the passthrough arguments. -/
def socketConfig : Config :=
  { sampleConfig with
    BackupType := "full"
    MySQL := { sampleConfig.MySQL with Socket := "/var/run/mysqld/mysqld.sock" }
    XtraBackup := { sampleConfig.XtraBackup with ExtraArgs := ["--host=10.0.0.5"] } }

/-- The argument vector of the sample incremental run. -/
def sampleArgs : List String :=
  ["--defaults-file=/etc/my.cnf", "--user=backup", "--password=s3cret", "--backup",
   "--target-dir=/data/backup/mysql_incr_20240104_030000", "--parallel=2",
   "--ftwrl-wait-timeout=300", "--backup-lock-timeout=300", "--host=127.0.0.1",
   "--port=3306", "--incremental-basedir=/data/backup/mysql_full_20240102_000000",
   "--no-lock"]

/-- The flags of a run without overrides. -/
def plainFlags : Flags :=
  ⟨"config/mysql_backup.json", "", false⟩

/-- The sample configuration with the logs kept in the backup root itself. -/
def sharedDirConfig : Config :=
  { sampleConfig with LogDir := "/data/backup" }

end MysqlXtrabackup

/-! ## Facts about the library model -/

set_option maxRecDepth 8000

namespace GoStd

theorem char_lt_iff (x y : Char) : x < y ↔ x.toNat < y.toNat := Iff.rfl

theorem lexLt_iff (a b : List Char) : lexLt a b = true ↔ a < b := by
  induction a generalizing b with
  | nil =>
    cases b with
    | nil => simp [lexLt]
    | cons y ys => simp [lexLt, List.nil_lt_cons]
  | cons x xs ih =>
    cases b with
    | nil => simp [lexLt]
    | cons y ys =>
      simp only [lexLt]
      by_cases hxy : x.toNat < y.toNat
      · simp only [hxy, if_true, true_iff]
        exact List.Lex.rel ((char_lt_iff x y).2 hxy)
      · by_cases he : x = y
        · subst he
          simp only [hxy, if_false, if_true, ih]
          exact (List.Lex.cons_iff (r := (· < ·))).symm
        · simp only [hxy, he, if_false]
          constructor
          · intro h; cases h
          · intro h
            cases h with
            | cons h => exact absurd rfl he
            | rel h => exact absurd ((char_lt_iff x y).1 h) hxy

theorem strLt_iff (a b : String) : strLt a b = true ↔ a < b := by
  rw [String.lt_iff_toList_lt]; exact lexLt_iff a.data b.data

theorem mem_insertString {a x : String} {l : List String} :
    a ∈ insertString x l ↔ a = x ∨ a ∈ l := by
  induction l with
  | nil => simp [insertString]
  | cons y ys ih =>
    unfold insertString
    split
    · simp
    · simp only [List.mem_cons, ih]; tauto

theorem mem_sortStrings {a : String} {l : List String} : a ∈ sortStrings l ↔ a ∈ l := by
  induction l with
  | nil => simp [sortStrings]
  | cons y ys ih => simp [sortStrings, mem_insertString, ih]

theorem pairwise_insertString {x : String} {l : List String}
    (h : l.Pairwise (fun a b => a ≤ b)) : (insertString x l).Pairwise (fun a b => a ≤ b) := by
  induction l with
  | nil => simp [insertString]
  | cons y ys ih =>
    rw [List.pairwise_cons] at h
    unfold insertString
    split
    · rename_i hlt
      have hxy : x < y := (strLt_iff x y).1 hlt
      rw [List.pairwise_cons]
      refine ⟨?_, List.pairwise_cons.2 h⟩
      intro b hb
      rcases List.mem_cons.1 hb with rfl | hb
      · exact le_of_lt hxy
      · exact le_trans (le_of_lt hxy) (h.1 b hb)
    · rename_i hlt
      have hyx : y ≤ x := by
        rw [← not_lt]; intro hxy; exact hlt ((strLt_iff x y).2 hxy)
      rw [List.pairwise_cons]
      refine ⟨?_, ih h.2⟩
      intro b hb
      rcases mem_insertString.1 hb with rfl | hb
      · exact hyx
      · exact h.1 b hb

theorem pairwise_sortStrings (l : List String) :
    (sortStrings l).Pairwise (fun a b => a ≤ b) := by
  induction l with
  | nil => simp [sortStrings]
  | cons y ys ih => exact pairwise_insertString ih

theorem getLastD_mem {l : List String} (d : String) (h : l ≠ []) : l.getLastD d ∈ l := by
  induction l generalizing d with
  | nil => exact absurd rfl h
  | cons y ys ih =>
    cases ys with
    | nil => simp [List.getLastD]
    | cons z zs =>
      have := ih y (by simp)
      simp only [List.getLastD_cons] at this ⊢
      exact List.mem_cons_of_mem _ this

theorem le_getLastD {l : List String} (d : String) (h : l.Pairwise (fun a b => a ≤ b))
    {a : String} (ha : a ∈ l) : a ≤ l.getLastD d := by
  induction l generalizing d with
  | nil => simp at ha
  | cons y ys ih =>
    rw [List.pairwise_cons] at h
    cases ys with
    | nil =>
      simp only [List.mem_singleton] at ha
      subst ha
      simp [List.getLastD]
    | cons z zs =>
      simp only [List.getLastD_cons]
      rcases List.mem_cons.1 ha with rfl | ha
      · have := getLastD_mem d (l := z :: zs) (by simp)
        rw [List.getLastD_cons] at this
        exact h.1 _ this
      · have := ih d h.2 ha
        rw [List.getLastD_cons] at this
        exact this

/-- The in-place masking loop run over the first `n` indices. -/
theorem maskLoop_getElem? (f : String → Bool) (s : String) (l : List String) (n : Nat) :
    ∀ j : Nat,
    ((List.range n).foldl (fun out i => if f (out.getD i "") then out.set i s else out) l)[j]? =
      if j < n then (l[j]?).map (fun v => if f v then s else v) else l[j]? := by
  induction n with
  | zero => simp
  | succ n ih =>
    intro j
    rw [List.range_succ, List.foldl_append]
    simp only [List.foldl_cons, List.foldl_nil]
    have hn := ih n
    have hj := ih j
    simp only [lt_irrefl, if_false] at hn
    generalize List.foldl (fun out i => if f (out.getD i "") then out.set i s else out) l
      (List.range n) = out at hn hj ⊢
    rw [List.getD_eq_getElem?_getD, hn]
    by_cases hjn : n = j
    · subst hjn
      have hlt : n < n + 1 := Nat.lt_succ_self n
      simp only [hlt, if_true]
      rcases hl : l[n]? with _ | v
      · have hlen : out.length ≤ n := List.getElem?_eq_none_iff.1 (hn.trans hl)
        rw [List.set_eq_of_length_le hlen, ite_self, hn, hl]
        rfl
      · rw [Option.getD_some, Option.map_some']
        by_cases hf : f v = true
        · rw [if_pos hf, if_pos hf, List.getElem?_set_self', hn, hl]
          rfl
        · rw [if_neg hf, if_neg hf, hn, hl]
    · have hset : ∀ a : String, (out.set n a)[j]? = out[j]? := fun a =>
        List.getElem?_set_ne hjn
      have hout : (if f (l[n]?.getD "") = true then out.set n s else out)[j]? = out[j]? := by
        split
        · exact hset s
        · rfl
      rw [hout, hj]
      by_cases hlt : j < n
      · have hlt' : j < n + 1 := Nat.lt_succ_of_lt hlt
        simp only [hlt, hlt', if_true]
      · have hlt' : ¬ j < n + 1 := by omega
        simp only [hlt, hlt', if_false]

theorem maskLoop_eq_map (f : String → Bool) (s : String) (l : List String) :
    (List.range l.length).foldl (fun out i => if f (out.getD i "") then out.set i s else out) l =
      l.map (fun v => if f v then s else v) := by
  apply List.ext_getElem?
  intro j
  rw [maskLoop_getElem?, List.getElem?_map]
  split
  · rfl
  · rename_i h
    rw [List.getElem?_eq_none (by omega)]
    rfl

end GoStd

namespace MysqlXtrabackup

open GoStd Sys

/-! ### Helper lemmas -/

theorem findLatestFull_no_full (entries : List DirEntry) (root pfx : String)
    (hnone : ∀ e ∈ entries, ¬ (e.isDir = true ∧ hasPrefix e.name (pfx ++ "_full_") = true)) :
    findLatestFull (.ok entries) root pfx =
      .error "no full backup found, run a full backup first" := by
  have hf : entries.filter (fun e => e.isDir && hasPrefix e.name (pfx ++ "_full_")) = [] := by
    rw [List.filter_eq_nil_iff]
    intro e he
    simpa [Bool.and_eq_true] using hnone e he
  simp [findLatestFull, hf]

theorem maskPassword_eq_map (args : List String) :
    maskPassword args =
      args.map (fun v => if hasPrefix v "--password=" then "--password=***" else v) :=
  maskLoop_eq_map (fun v => hasPrefix v "--password=") "--password=***" args

/-! ### Claims -/

/-- C1: when the listing of the backup root has a directory whose name starts
with `prefix_full_`, `findLatestFull` succeeds with the root joined with the
lexicographically greatest such name, and any listing with the same matching
directories gives the same result. -/
theorem findLatestFull_greatest (entries : List DirEntry) (root pfx : String)
    (h : ∃ e ∈ entries, e.isDir = true ∧ hasPrefix e.name (pfx ++ "_full_") = true) :
    ∃ best : String,
      findLatestFull (.ok entries) root pfx = .ok (filepathJoin root best) ∧
      (∃ e ∈ entries, e.isDir = true ∧ hasPrefix e.name (pfx ++ "_full_") = true ∧
        e.name = best) ∧
      (∀ e ∈ entries, e.isDir = true → hasPrefix e.name (pfx ++ "_full_") = true →
        e.name ≤ best) ∧
      (∀ others : List DirEntry,
        others.filter (fun e => e.isDir && hasPrefix e.name (pfx ++ "_full_")) =
          entries.filter (fun e => e.isDir && hasPrefix e.name (pfx ++ "_full_")) →
        findLatestFull (.ok others) root pfx = findLatestFull (.ok entries) root pfx) := by
  obtain ⟨e0, he0, hd0, hp0⟩ := h
  have hmem : ∀ n : String,
      n ∈ (entries.filter (fun e => e.isDir && hasPrefix e.name (pfx ++ "_full_"))).map
        (fun e => e.name) ↔
      ∃ e ∈ entries, e.isDir = true ∧ hasPrefix e.name (pfx ++ "_full_") = true ∧ e.name = n := by
    intro n
    simp only [List.mem_map, List.mem_filter, Bool.and_eq_true]
    constructor
    · rintro ⟨e, ⟨he, hd, hp⟩, rfl⟩; exact ⟨e, he, hd, hp, rfl⟩
    · rintro ⟨e, he, hd, hp, rfl⟩; exact ⟨e, ⟨he, hd, hp⟩, rfl⟩
  have hne : (entries.filter (fun e => e.isDir && hasPrefix e.name (pfx ++ "_full_"))).map
      (fun e => e.name) ≠ [] := by
    intro hnil
    have : e0.name ∈ (entries.filter (fun e => e.isDir && hasPrefix e.name (pfx ++ "_full_"))).map
        (fun e => e.name) := (hmem _).2 ⟨e0, he0, hd0, hp0, rfl⟩
    rw [hnil] at this
    simp at this
  have hlen : ¬ ((entries.filter (fun e => e.isDir && hasPrefix e.name (pfx ++ "_full_"))).map
      (fun e => e.name)).length = 0 := by
    intro h0; exact hne (List.length_eq_zero.1 h0)
  have hsne : sortStrings ((entries.filter (fun e => e.isDir &&
      hasPrefix e.name (pfx ++ "_full_"))).map (fun e => e.name)) ≠ [] := by
    intro hnil
    have : e0.name ∈ sortStrings ((entries.filter (fun e => e.isDir &&
        hasPrefix e.name (pfx ++ "_full_"))).map (fun e => e.name)) :=
      mem_sortStrings.2 ((hmem _).2 ⟨e0, he0, hd0, hp0, rfl⟩)
    rw [hnil] at this
    simp at this
  refine ⟨(sortStrings ((entries.filter (fun e => e.isDir &&
      hasPrefix e.name (pfx ++ "_full_"))).map (fun e => e.name))).getLastD "", ?_, ?_, ?_, ?_⟩
  · simp only [findLatestFull, if_neg hlen]
  · exact (hmem _).1 (mem_sortStrings.1 (getLastD_mem "" hsne))
  · intro e he hd hp
    exact le_getLastD "" (pairwise_sortStrings _)
      (mem_sortStrings.2 ((hmem _).2 ⟨e, he, hd, hp, rfl⟩))
  · intro others hsame
    simp only [findLatestFull, hsame]

/-- The example of the specification: of two full backups and a later incremental
one, the later full backup is chosen. -/
theorem findLatestFull_greatest_witness :
    (∃ e ∈ sampleListing, e.isDir = true ∧ hasPrefix e.name ("mysql" ++ "_full_") = true) ∧
    findLatestFull (.ok sampleListing) "/data/backup" "mysql" =
      .ok "/data/backup/mysql_full_20240102_000000" ∧
    ∃ best : String,
      findLatestFull (.ok sampleListing) "/data/backup" "mysql" =
        .ok (filepathJoin "/data/backup" best) ∧
      (∃ e ∈ sampleListing, e.isDir = true ∧ hasPrefix e.name ("mysql" ++ "_full_") = true ∧
        e.name = best) ∧
      (∀ e ∈ sampleListing, e.isDir = true → hasPrefix e.name ("mysql" ++ "_full_") = true →
        e.name ≤ best) ∧
      (∀ others : List DirEntry,
        others.filter (fun e => e.isDir && hasPrefix e.name ("mysql" ++ "_full_")) =
          sampleListing.filter (fun e => e.isDir && hasPrefix e.name ("mysql" ++ "_full_")) →
        findLatestFull (.ok others) "/data/backup" "mysql" =
          findLatestFull (.ok sampleListing) "/data/backup" "mysql") :=
  ⟨⟨⟨"mysql_full_20240101_000000", true, none⟩, by decide, by decide, by decide⟩, by decide,
    findLatestFull_greatest sampleListing "/data/backup" "mysql"
      ⟨⟨"mysql_full_20240101_000000", true, none⟩, by decide, by decide, by decide⟩⟩

/-- C2: an incremental run whose backup-root listing has no full-backup
directory for the configured prefix returns an error and starts no subprocess,
whatever the environment; when the directories and the log file can be set up
the error is "no full backup found, run a full backup first". -/
theorem runBackup_incr_without_full (env : BackupEnv) (cfg : Config) (entries : List DirEntry)
    (htype : cfg.BackupType = "incr")
    (hlist : env.listing = .ok entries)
    (hnone : ∀ e ∈ entries,
      ¬ (e.isDir = true ∧ hasPrefix e.name (cfg.BackupPrefix ++ "_full_") = true)) :
    (∀ site bin args, Event.run site bin args ∉ (runBackup env cfg).1) ∧
    (∃ err, (runBackup env cfg).2 = .error err) ∧
    (env.mkdirBackupDir = none → env.mkdirLogDir = none → env.openLog = none →
      (runBackup env cfg).2 = .error "no full backup found, run a full backup first") := by
  have hfind := findLatestFull_no_full entries cfg.BackupDir cfg.BackupPrefix hnone
  refine ⟨?_, ?_, ?_⟩
  · intro site bin args
    unfold runBackup
    cases h1 : env.mkdirBackupDir <;> cases h2 : env.mkdirLogDir <;> cases h3 : env.openLog <;>
      simp [incrementalArgs, htype, hlist, hfind]
  · unfold runBackup
    cases h1 : env.mkdirBackupDir <;> cases h2 : env.mkdirLogDir <;> cases h3 : env.openLog <;>
      simp [incrementalArgs, htype, hlist, hfind]
  · intro h1 h2 h3
    unfold runBackup
    simp [h1, h2, h3, incrementalArgs, htype, hlist, hfind]

/-- An incremental run over a backup root that holds only an incremental backup
fails with the no-full-backup error before any process is started. -/
theorem runBackup_incr_without_full_witness :
    (runBackup (backupEnvWith [⟨"mysql_incr_20240103_000000", true, none⟩]) sampleConfig).2 =
      .error "no full backup found, run a full backup first" ∧
    ∀ site bin args, Event.run site bin args ∉
      (runBackup (backupEnvWith [⟨"mysql_incr_20240103_000000", true, none⟩]) sampleConfig).1 :=
  have h := runBackup_incr_without_full
    (backupEnvWith [⟨"mysql_incr_20240103_000000", true, none⟩]) sampleConfig
    [⟨"mysql_incr_20240103_000000", true, none⟩] rfl rfl (by decide)
  ⟨h.2.2 rfl rfl rfl, h.1⟩

end MysqlXtrabackup

namespace MysqlXtrabackup
open GoStd Sys

theorem sweepBackups_ok (env : CleanupEnv) (cfg : Config) (cutoff : Int)
    (hrm : ∀ p, env.removeAll p = none) (entries : List DirEntry) :
    (sweepBackups env cfg cutoff entries).2 = none := by
  induction entries with
  | nil => rfl
  | cons e rest ih =>
    unfold sweepBackups
    split
    · exact ih
    · cases hm : e.modTime with
      | none => simpa using ih
      | some t =>
        by_cases hlt : t < cutoff
        · simp [hlt, hrm, ih]
        · simpa [hlt] using ih

theorem mem_sweepBackups (env : CleanupEnv) (cfg : Config) (cutoff : Int)
    (hrm : ∀ p, env.removeAll p = none) (entries : List DirEntry) (ev : Event) :
    ev ∈ (sweepBackups env cfg cutoff entries).1 ↔
      ∃ e ∈ entries, hasPrefix e.name (cfg.BackupPrefix ++ "_") = true ∧
        (∃ t, e.modTime = some t ∧ t < cutoff) ∧
        (ev = .removeAll (filepathJoin cfg.BackupDir e.name) ∨
         ev = .stdout ("[" ++ timeStamp (env.clock (filepathJoin cfg.BackupDir e.name)) ++
           "] cleaned old backup " ++ filepathJoin cfg.BackupDir e.name ++ "\n")) := by
  induction entries with
  | nil => simp [sweepBackups]
  | cons e rest ih =>
    have hskip : (sweepBackups env cfg cutoff (e :: rest)).1 = (sweepBackups env cfg cutoff rest).1 →
        ¬ (hasPrefix e.name (cfg.BackupPrefix ++ "_") = true ∧ ∃ t, e.modTime = some t ∧ t < cutoff) →
        (ev ∈ (sweepBackups env cfg cutoff (e :: rest)).1 ↔
          ∃ e' ∈ e :: rest, hasPrefix e'.name (cfg.BackupPrefix ++ "_") = true ∧
            (∃ t, e'.modTime = some t ∧ t < cutoff) ∧
            (ev = .removeAll (filepathJoin cfg.BackupDir e'.name) ∨
             ev = .stdout ("[" ++ timeStamp (env.clock (filepathJoin cfg.BackupDir e'.name)) ++
               "] cleaned old backup " ++ filepathJoin cfg.BackupDir e'.name ++ "\n"))) := by
      intro heq hno
      rw [heq, ih]
      constructor
      · rintro ⟨e', he', h⟩
        exact ⟨e', List.mem_cons_of_mem _ he', h⟩
      · rintro ⟨e', he', h1, h2, h3⟩
        rcases List.mem_cons.1 he' with rfl | he'
        · exact absurd ⟨h1, h2⟩ hno
        · exact ⟨e', he', h1, h2, h3⟩
    by_cases hp : hasPrefix e.name (cfg.BackupPrefix ++ "_") = true
    · cases hm : e.modTime with
      | none => exact hskip (by simp [sweepBackups, hp, hm]) (by simp [hm])
      | some t =>
        by_cases hlt : t < cutoff
        · have hstep : (sweepBackups env cfg cutoff (e :: rest)).1 =
              .removeAll (filepathJoin cfg.BackupDir e.name) ::
              .stdout ("[" ++ timeStamp (env.clock (filepathJoin cfg.BackupDir e.name)) ++
                "] cleaned old backup " ++ filepathJoin cfg.BackupDir e.name ++ "\n") ::
              (sweepBackups env cfg cutoff rest).1 := by
            simp [sweepBackups, hp, hm, hlt, hrm]
          rw [hstep, List.mem_cons, List.mem_cons, ih]
          constructor
          · rintro (h | h | ⟨e', he', h⟩)
            · exact ⟨e, List.mem_cons_self _ _, hp, ⟨t, hm, hlt⟩, Or.inl h⟩
            · exact ⟨e, List.mem_cons_self _ _, hp, ⟨t, hm, hlt⟩, Or.inr h⟩
            · exact ⟨e', List.mem_cons_of_mem _ he', h⟩
          · rintro ⟨e', he', h1, h2, h3⟩
            rcases List.mem_cons.1 he' with rfl | he'
            · rcases h3 with h3 | h3
              · exact Or.inl h3
              · exact Or.inr (Or.inl h3)
            · exact Or.inr (Or.inr ⟨e', he', h1, h2, h3⟩)
        · exact hskip (by simp [sweepBackups, hp, hm, hlt]) (by simp [hm, hlt])
    · exact hskip (by simp [sweepBackups, hp]) (by simp [hp])

theorem mem_sweepLogs (cfg : Config) (cutoff : Int) (logs : List DirEntry) (ev : Event) :
    ev ∈ sweepLogs cfg cutoff logs ↔
      ∃ l ∈ logs, (∃ t, l.modTime = some t ∧ t < cutoff) ∧
        ev = .remove (filepathJoin cfg.LogDir l.name) := by
  induction logs with
  | nil => simp [sweepLogs]
  | cons e rest ih =>
    unfold sweepLogs
    cases hm : e.modTime with
    | none => simp [hm, ih]
    | some t =>
      by_cases hlt : t < cutoff
      · simp [hm, hlt, ih]
      · simp [hm, hlt, ih]

end MysqlXtrabackup

namespace MysqlXtrabackup
open GoStd Sys

/-- C3 (as stated, refuted): with the log directory set to the backup root, an
old file of the backup root whose name does not start with the prefix is
deleted by the log sweep of `cleanupOld`. -/
theorem cleanupOld_log_sweep_removes_root_entry :
    (cleanupEnvWith [⟨"notes.txt", false, some (sampleNow - 30 * nsPerDay)⟩]
      [⟨"notes.txt", false, some (sampleNow - 30 * nsPerDay)⟩]).listing =
      .ok [⟨"notes.txt", false, some (sampleNow - 30 * nsPerDay)⟩] ∧
    0 < sharedDirConfig.RetentionDays ∧
    hasPrefix "notes.txt" (sharedDirConfig.BackupPrefix ++ "_") = false ∧
    filepathJoin sharedDirConfig.BackupDir "notes.txt" = "/data/backup/notes.txt" ∧
    cleanupOld (cleanupEnvWith [⟨"notes.txt", false, some (sampleNow - 30 * nsPerDay)⟩]
      [⟨"notes.txt", false, some (sampleNow - 30 * nsPerDay)⟩]) sharedDirConfig =
      ([.remove "/data/backup/notes.txt"], none) := by
  decide

/-- C3 (amended): when the backup root can be listed and every removal
succeeds, `cleanupOld` returns no error; it calls `os.RemoveAll` on exactly the
entries of the backup root whose name starts with `prefix_` and whose
modification time is strictly before the cutoff
`time.Now().AddDate(0, 0, -retention_days)`; and it calls `os.Remove` on exactly
the entries of the log directory whose modification time is strictly before that
cutoff, whatever their name. Where that cutoff is 7 times 24 hours before now
(retention of 7 days, a zone with the same offset at both instants), an artifact
8 days old is removed and one 6 days old is not. -/
theorem cleanupOld_removes_exactly (env : CleanupEnv) (cfg : Config) (entries : List DirEntry)
    (hrm : ∀ p, env.removeAll p = none) (hlist : env.listing = .ok entries) :
    (cleanupOld env cfg).2 = none ∧
    (∀ p, Event.removeAll p ∈ (cleanupOld env cfg).1 ↔
      ∃ e ∈ entries, hasPrefix e.name (cfg.BackupPrefix ++ "_") = true ∧
        (∃ t, e.modTime = some t ∧ t < env.addDate env.now (negInt cfg.RetentionDays)) ∧
        p = filepathJoin cfg.BackupDir e.name) ∧
    (∀ p, Event.remove p ∈ (cleanupOld env cfg).1 ↔
      ∃ l ∈ env.logEntries,
        (∃ t, l.modTime = some t ∧ t < env.addDate env.now (negInt cfg.RetentionDays)) ∧
        p = filepathJoin cfg.LogDir l.name) ∧
    (cfg.RetentionDays = 7 → env.addDate env.now (-7) = env.now - 7 * nsPerDay →
      (∀ e ∈ entries, hasPrefix e.name (cfg.BackupPrefix ++ "_") = true →
        e.modTime = some (env.now - 8 * nsPerDay) →
        Event.removeAll (filepathJoin cfg.BackupDir e.name) ∈ (cleanupOld env cfg).1) ∧
      (∀ p, (∀ e ∈ entries, p = filepathJoin cfg.BackupDir e.name →
          e.modTime = some (env.now - 6 * nsPerDay)) →
        Event.removeAll p ∉ (cleanupOld env cfg).1)) := by
  have hok := sweepBackups_ok env cfg (env.addDate env.now (negInt cfg.RetentionDays)) hrm entries
  have hrun : cleanupOld env cfg =
      ((sweepBackups env cfg (env.addDate env.now (negInt cfg.RetentionDays)) entries).1 ++
        sweepLogs cfg (env.addDate env.now (negInt cfg.RetentionDays)) env.logEntries, none) := by
    unfold cleanupOld
    rw [hlist]
    simp only []
    generalize sweepBackups env cfg (env.addDate env.now (negInt cfg.RetentionDays)) entries = r
      at hok ⊢
    obtain ⟨evs, err⟩ := r
    simp only at hok
    subst hok
    rfl
  have hall : ∀ p, Event.removeAll p ∈ (cleanupOld env cfg).1 ↔
      ∃ e ∈ entries, hasPrefix e.name (cfg.BackupPrefix ++ "_") = true ∧
        (∃ t, e.modTime = some t ∧ t < env.addDate env.now (negInt cfg.RetentionDays)) ∧
        p = filepathJoin cfg.BackupDir e.name := by
    intro p
    rw [hrun]
    simp only [List.mem_append, mem_sweepBackups env cfg _ hrm, mem_sweepLogs]
    constructor
    · rintro (⟨e, he, hp, ht, h | h⟩ | ⟨l, _, _, h⟩)
      · exact ⟨e, he, hp, ht, Event.removeAll.inj h⟩
      · cases h
      · cases h
    · rintro ⟨e, he, hp, ht, rfl⟩
      exact Or.inl ⟨e, he, hp, ht, Or.inl rfl⟩
  refine ⟨by rw [hrun], hall, ?_, ?_⟩
  · intro p
    rw [hrun]
    simp only [List.mem_append, mem_sweepBackups env cfg _ hrm, mem_sweepLogs]
    constructor
    · rintro (⟨e, _, _, _, h | h⟩ | ⟨l, hl, ht, h⟩)
      · cases h
      · cases h
      · exact ⟨l, hl, ht, Event.remove.inj h⟩
    · rintro ⟨l, hl, ht, rfl⟩
      exact Or.inr ⟨l, hl, ht, rfl⟩
  · intro hdays hfixed
    have hneg : negInt cfg.RetentionDays = -7 := by
      rw [hdays]
      decide
    have hday : (0 : Int) < nsPerDay := by decide
    refine ⟨?_, ?_⟩
    · intro e he hp hm
      refine (hall _).2 ⟨e, he, hp, ⟨_, hm, ?_⟩, rfl⟩
      rw [hneg, hfixed]
      omega
    · intro p hp hmem
      obtain ⟨e, he, _, ⟨t, hm, hlt⟩, hpe⟩ := (hall p).1 hmem
      rw [hp e he hpe] at hm
      rw [hneg, hfixed] at hlt
      have ht := Option.some.inj hm
      omega

/-- With a retention of 7 days the artifact 8 days old is removed, the one 6 days
old and the unrelated file stay, and the old log file is deleted. -/
theorem cleanupOld_removes_exactly_witness :
    (∀ p, (cleanupEnvWith retentionListing
      [⟨"mysql_full_20231227_030000.log", false, some (sampleNow - 8 * nsPerDay)⟩]).removeAll p =
        none) ∧
    sampleConfig.RetentionDays = 7 ∧
    (cleanupOld (cleanupEnvWith retentionListing
      [⟨"mysql_full_20231227_030000.log", false, some (sampleNow - 8 * nsPerDay)⟩])
      sampleConfig).1 =
      [.removeAll "/data/backup/mysql_full_20231227_030000",
       .stdout "[2024-01-04 03:00:00] cleaned old backup /data/backup/mysql_full_20231227_030000\n",
       .remove "/data/backup/log/mysql_full_20231227_030000.log"] ∧
    (cleanupOld (cleanupEnvWith retentionListing
      [⟨"mysql_full_20231227_030000.log", false, some (sampleNow - 8 * nsPerDay)⟩])
      sampleConfig).2 = none ∧
    Event.removeAll (filepathJoin sampleConfig.BackupDir "mysql_full_20231227_030000") ∈
      (cleanupOld (cleanupEnvWith retentionListing
        [⟨"mysql_full_20231227_030000.log", false, some (sampleNow - 8 * nsPerDay)⟩])
        sampleConfig).1 :=
  ⟨fun _ => rfl, rfl, by decide,
    (cleanupOld_removes_exactly (cleanupEnvWith retentionListing
      [⟨"mysql_full_20231227_030000.log", false, some (sampleNow - 8 * nsPerDay)⟩])
      sampleConfig retentionListing (fun _ => rfl) rfl).1,
    ((cleanupOld_removes_exactly (cleanupEnvWith retentionListing
      [⟨"mysql_full_20231227_030000.log", false, some (sampleNow - 8 * nsPerDay)⟩])
      sampleConfig retentionListing (fun _ => rfl) rfl).2.2.2 rfl (by decide)).1
      ⟨"mysql_full_20231227_030000", true, some (sampleNow - 8 * nsPerDay)⟩
      (by decide) (by decide) rfl⟩

end MysqlXtrabackup

namespace MysqlXtrabackup
open GoStd Sys

theorem password_mem_engineArgs (cfg : Config) (targetDir : String) :
    "--password=" ++ cfg.MySQL.Password ∈ engineArgs cfg targetDir := by
  unfold engineArgs
  simp only []
  split <;> split <;> simp

theorem tarDir_no_engine (env : BackupEnv) (dir bin : String) (xs : List String) :
    Event.run .engine bin xs ∉ (tarDir env dir).1 := by
  unfold tarDir
  cases env.statTarget with
  | error err => simp
  | ok isDir =>
    cases isDir with
    | false => simp
    | true =>
      cases env.lookTar with
      | error err => simp
      | ok _ => cases env.tarErr <;> simp

theorem incrementalArgs_ok (env : BackupEnv) (cfg : Config) (args args0 : List String)
    (noted : List Event) (h : incrementalArgs env cfg args = .ok (noted, args0)) :
    (∀ site bin xs, Event.run site bin xs ∉ noted) ∧ ∀ a ∈ args, a ∈ args0 := by
  unfold incrementalArgs at h
  split at h
  · split at h
    · cases h
    · simp only [Except.ok.injEq, Prod.mk.injEq] at h
      obtain ⟨rfl, rfl⟩ := h
      exact ⟨by simp, fun a ha => List.mem_append_left _ ha⟩
  · simp only [Except.ok.injEq, Prod.mk.injEq] at h
    obtain ⟨rfl, rfl⟩ := h
    exact ⟨by simp, fun a ha => ha⟩

/-- The shape of the trace of `runBackup`: either no process is started, or
the engine is started once, right after the line that logs its invocation. -/
theorem runBackup_shape (env : BackupEnv) (cfg : Config) :
    (∀ site bin xs, Event.run site bin xs ∉ (runBackup env cfg).1) ∨
    ∃ pre post args,
      (runBackup env cfg).1 =
        pre ++ [Event.logLine ("[" ++ timeStamp (env.clock 3) ++ "] exec: " ++
          cfg.XtraBackup.Bin ++ " " ++ stringsJoin (maskPassword args) " " ++ "\n"),
          Event.run .engine cfg.XtraBackup.Bin args] ++ post ∧
      (∀ bin xs, Event.run .engine bin xs ∉ pre) ∧
      (∀ bin xs, Event.run .engine bin xs ∉ post) ∧
      "--password=" ++ cfg.MySQL.Password ∈ args := by
  unfold runBackup
  cases h1 : env.mkdirBackupDir with
  | some err => left; simp
  | none =>
  cases h2 : env.mkdirLogDir with
  | some err => left; simp
  | none =>
  cases h3 : env.openLog with
  | some err => left; simp
  | none =>
  simp only []
  cases hinc : incrementalArgs env cfg (engineArgs cfg (filepathJoin cfg.BackupDir
      (cfg.BackupPrefix ++ "_" ++ cfg.BackupType ++ "_" ++ formatCompact (env.clock 0)))) with
  | error err => left; simp
  | ok r =>
  obtain ⟨noted, args0⟩ := r
  obtain ⟨hnoted, hargs⟩ := incrementalArgs_ok env cfg _ _ _ hinc
  have hpw : "--password=" ++ cfg.MySQL.Password ∈ args0 ++ cfg.XtraBackup.ExtraArgs :=
    List.mem_append_left _ (hargs _ (password_mem_engineArgs cfg _))
  have hpre : ∀ bin xs, Event.run .engine bin xs ∉
      [Event.mkdirAll cfg.BackupDir, .mkdirAll cfg.LogDir,
        .openFile (filepathJoin cfg.LogDir (cfg.BackupPrefix ++ "_" ++ cfg.BackupType ++ "_" ++
          formatCompact (env.clock 0) ++ ".log"))] ++
      [.logLine ("[" ++ timeStamp (env.clock 1) ++ "] starting backup: " ++
        (cfg.BackupPrefix ++ "_" ++ cfg.BackupType ++ "_" ++ formatCompact (env.clock 0)) ++
        "\n")] ++ noted := by
    intro bin xs hmem
    rcases List.mem_append.1 hmem with hmem | hmem
    · simp at hmem
    · exact hnoted _ _ _ hmem
  right
  simp only []
  cases h4 : env.runErr with
  | some err =>
    refine ⟨_, [], args0 ++ cfg.XtraBackup.ExtraArgs, ?_, hpre, by simp, hpw⟩
    simp
  | none =>
    simp only []
    by_cases htarflag : cfg.TarArchive = true
    · simp only [htarflag, if_true]
      have hno := tarDir_no_engine env (filepathJoin cfg.BackupDir
        (cfg.BackupPrefix ++ "_" ++ cfg.BackupType ++ "_" ++ formatCompact (env.clock 0)))
      generalize tarDir env (filepathJoin cfg.BackupDir
        (cfg.BackupPrefix ++ "_" ++ cfg.BackupType ++ "_" ++ formatCompact (env.clock 0))) = tr
        at hno ⊢
      obtain ⟨tarred, res⟩ := tr
      cases res with
      | error err =>
        refine ⟨_, tarred, args0 ++ cfg.XtraBackup.ExtraArgs, ?_, hpre, hno, hpw⟩
        simp
      | ok archive =>
        refine ⟨_, tarred ++ [.logLine ("[" ++ timeStamp (env.clock 5) ++ "] backup finished\n")],
          args0 ++ cfg.XtraBackup.ExtraArgs, ?_, hpre, ?_, hpw⟩
        · simp
        · intro bin xs hmem
          rcases List.mem_append.1 hmem with hmem | hmem
          · exact hno _ _ hmem
          · simp at hmem
    · simp only [htarflag]
      refine ⟨_, [.logLine ("[" ++ timeStamp (env.clock 5) ++ "] backup finished\n")],
          args0 ++ cfg.XtraBackup.ExtraArgs, ?_, hpre, by simp, hpw⟩
      simp

end MysqlXtrabackup

namespace MysqlXtrabackup
open GoStd Sys

theorem xtra_engine_run (env : Dbbackup.XtraEnv) (config : Dbbackup.MySQLConfig)
    (outputDir bin : String) (xs : List String)
    (h : Event.run .engine bin xs ∈ (Dbbackup.backupMySQLWithXtraBackup env config outputDir).1) :
    bin = "xtrabackup" ∧ "--password=" ++ config.Password ∈ xs ∧
    Event.stdout ("Executing: xtrabackup with args " ++
      Dbbackup.sprintSlice (Dbbackup.logArgs xs) ++ "\n") ∈
      (Dbbackup.backupMySQLWithXtraBackup env config outputDir).1 := by
  unfold Dbbackup.backupMySQLWithXtraBackup at h ⊢
  cases h1 : env.lookPath with
  | error err => simp [h1] at h
  | ok path =>
    cases h2 : env.mkdirErr with
    | some err => simp [h1, h2] at h
    | none =>
      cases h3 : env.runErr <;> simp only [h1, h2, h3] at h ⊢ <;> simp at h <;>
        obtain ⟨rfl, rfl⟩ := h <;> simp


theorem hasPrefix_password (pw : String) :
    hasPrefix ("--password=" ++ pw) "--password=" = true := by
  simp [hasPrefix, String.data_append, List.isPrefixOf]

theorem maskPassword_append (xs ys : List String) :
    maskPassword (xs ++ ys) = maskPassword xs ++ maskPassword ys := by
  simp only [maskPassword_eq_map, List.map_append]

theorem engineArgs_blind (cfg : Config) (pw targetDir : String) :
    maskPassword (engineArgs (withPassword cfg pw) targetDir) =
      maskPassword (engineArgs cfg targetDir) := by
  simp only [maskPassword_eq_map]
  unfold engineArgs withPassword
  simp only []
  split <;> split <;> simp [hasPrefix_password]

theorem incrementalArgs_suffix (env : BackupEnv) (cfg : Config) :
    (∃ err, ∀ args, incrementalArgs env cfg args = .error err) ∨
    ∃ noted suffix, ∀ args, incrementalArgs env cfg args = .ok (noted, args ++ suffix) := by
  unfold incrementalArgs
  split
  · cases findLatestFull env.listing cfg.BackupDir cfg.BackupPrefix with
    | error err => exact Or.inl ⟨err, fun _ => rfl⟩
    | ok baseDir => exact Or.inr ⟨_, _, fun _ => rfl⟩
  · exact Or.inr ⟨[], [], fun _ => by simp⟩

theorem incrementalArgs_withPassword (env : BackupEnv) (cfg : Config) (pw : String)
    (args : List String) :
    incrementalArgs env (withPassword cfg pw) args = incrementalArgs env cfg args := rfl

theorem runBackup_blind (env : BackupEnv) (cfg : Config) (pw : String) :
    (runBackup env (withPassword cfg pw)).1.map hideArgs = (runBackup env cfg).1.map hideArgs ∧
    (runBackup env (withPassword cfg pw)).2 = (runBackup env cfg).2 := by
  unfold runBackup
  cases env.mkdirBackupDir with
  | some err => exact ⟨rfl, rfl⟩
  | none =>
  cases env.mkdirLogDir with
  | some err => exact ⟨rfl, rfl⟩
  | none =>
  cases env.openLog with
  | some err => exact ⟨rfl, rfl⟩
  | none =>
  simp only [incrementalArgs_withPassword]
  have hmask := engineArgs_blind cfg pw (filepathJoin cfg.BackupDir
    (cfg.BackupPrefix ++ "_" ++ cfg.BackupType ++ "_" ++ formatCompact (env.clock 0)))
  rcases incrementalArgs_suffix env cfg with ⟨err, hinc⟩ | ⟨noted, suffix, hinc⟩
  · simp [hinc, withPassword]
  · simp only [hinc]
    have h1 : (withPassword cfg pw).BackupDir = cfg.BackupDir := rfl
    have h2 : (withPassword cfg pw).LogDir = cfg.LogDir := rfl
    have h3 : (withPassword cfg pw).BackupPrefix = cfg.BackupPrefix := rfl
    have h4 : (withPassword cfg pw).BackupType = cfg.BackupType := rfl
    have h5 : (withPassword cfg pw).XtraBackup = cfg.XtraBackup := rfl
    have h6 : (withPassword cfg pw).TarArchive = cfg.TarArchive := rfl
    simp only [h1, h2, h3, h4, h5, h6]
    cases env.runErr with
    | some err =>
      simp [hideArgs, maskPassword_append, hmask]
    | none =>
      simp only []
      generalize (if cfg.TarArchive = true then tarDir env (filepathJoin cfg.BackupDir
        (cfg.BackupPrefix ++ "_" ++ cfg.BackupType ++ "_" ++ formatCompact (env.clock 0)))
        else ([], .ok (filepathJoin cfg.BackupDir
          (cfg.BackupPrefix ++ "_" ++ cfg.BackupType ++ "_" ++ formatCompact (env.clock 0))))) = tr
      obtain ⟨tarred, res⟩ := tr
      cases res with
      | error err =>
        simp [hideArgs, maskPassword_append, hmask]
      | ok archivePath =>
        simp [hideArgs, maskPassword_append, hmask]

theorem xtra_blind (env : Dbbackup.XtraEnv) (config : Dbbackup.MySQLConfig)
    (outputDir pw : String) :
    (Dbbackup.backupMySQLWithXtraBackup env { config with Password := pw } outputDir).1.map
        hideArgs =
      (Dbbackup.backupMySQLWithXtraBackup env config outputDir).1.map hideArgs ∧
    (Dbbackup.backupMySQLWithXtraBackup env { config with Password := pw } outputDir).2 =
      (Dbbackup.backupMySQLWithXtraBackup env config outputDir).2 := by
  have hlog : ∀ xs, Dbbackup.logArgs xs = maskPassword xs := fun _ => rfl
  unfold Dbbackup.backupMySQLWithXtraBackup
  cases env.lookPath with
  | error err => exact ⟨rfl, rfl⟩
  | ok path =>
    cases env.mkdirErr with
    | some err => exact ⟨rfl, rfl⟩
    | none =>
      cases env.runErr <;>
        simp [hideArgs, hlog, maskPassword_eq_map, hasPrefix_password]

theorem xtra_launched (env : Dbbackup.XtraEnv) (config : Dbbackup.MySQLConfig)
    (outputDir path : String) (hlook : env.lookPath = .ok path) (hmk : env.mkdirErr = none) :
    Event.run .engine "xtrabackup"
      ["--backup", "--datadir=" ++ config.Datadir,
       "--target-dir=" ++ (outputDir ++ "/xtrabackup_" ++ formatCompact env.now),
       "--host=" ++ config.Host, "--port=" ++ config.Port, "--user=" ++ config.Username,
       "--password=" ++ config.Password] ∈
      (Dbbackup.backupMySQLWithXtraBackup env config outputDir).1 := by
  unfold Dbbackup.backupMySQLWithXtraBackup
  rw [hlook, hmk]
  cases env.runErr <;> simp

/-- C4: `maskPassword` keeps the length, renders every element that starts
with `--password=` as `--password=***` and every other element unchanged; the
engine subprocess of `runBackup` (and of `backupMySQLWithXtraBackup`) is
started with the unmasked arguments, the true password among them, while the
logged invocation line is written from the masked copy of those arguments, and
nothing else the function writes or returns depends on the password: with
another password the events are the same apart from the arguments the
subprocess receives, and so is the result. -/
theorem maskPassword_redacts (args : List String) :
    (maskPassword args).length = args.length ∧
    (∀ (i : Nat) (v : String), args[i]? = some v → hasPrefix v "--password=" = true →
      (maskPassword args)[i]? = some "--password=***") ∧
    (∀ (i : Nat) (v : String), args[i]? = some v → hasPrefix v "--password=" = false →
      (maskPassword args)[i]? = some v) ∧
    (∀ (env : BackupEnv) (cfg : Config) (bin : String) (xs : List String),
      Event.run .engine bin xs ∈ (runBackup env cfg).1 →
        bin = cfg.XtraBackup.Bin ∧ "--password=" ++ cfg.MySQL.Password ∈ xs ∧
        Event.logLine ("[" ++ timeStamp (env.clock 3) ++ "] exec: " ++ bin ++ " " ++
          stringsJoin (maskPassword xs) " " ++ "\n") ∈ (runBackup env cfg).1) ∧
    (∀ (env : BackupEnv) (cfg : Config) (pw : String),
      (runBackup env (withPassword cfg pw)).1.map hideArgs =
        (runBackup env cfg).1.map hideArgs ∧
      (runBackup env (withPassword cfg pw)).2 = (runBackup env cfg).2) ∧
    (∀ (env : Dbbackup.XtraEnv) (config : Dbbackup.MySQLConfig) (outputDir bin : String)
      (xs : List String),
      Event.run .engine bin xs ∈ (Dbbackup.backupMySQLWithXtraBackup env config outputDir).1 →
        "--password=" ++ config.Password ∈ xs ∧ Dbbackup.logArgs xs = maskPassword xs ∧
        Event.stdout ("Executing: xtrabackup with args " ++
          Dbbackup.sprintSlice (maskPassword xs) ++ "\n") ∈
          (Dbbackup.backupMySQLWithXtraBackup env config outputDir).1) ∧
    (∀ (env : Dbbackup.XtraEnv) (config : Dbbackup.MySQLConfig) (outputDir path : String),
      env.lookPath = .ok path → env.mkdirErr = none →
        Event.run .engine "xtrabackup"
          ["--backup", "--datadir=" ++ config.Datadir,
           "--target-dir=" ++ (outputDir ++ "/xtrabackup_" ++ formatCompact env.now),
           "--host=" ++ config.Host, "--port=" ++ config.Port, "--user=" ++ config.Username,
           "--password=" ++ config.Password] ∈
          (Dbbackup.backupMySQLWithXtraBackup env config outputDir).1) ∧
    (∀ (env : Dbbackup.XtraEnv) (config : Dbbackup.MySQLConfig) (outputDir pw : String),
      (Dbbackup.backupMySQLWithXtraBackup env { config with Password := pw } outputDir).1.map
          hideArgs =
        (Dbbackup.backupMySQLWithXtraBackup env config outputDir).1.map hideArgs ∧
      (Dbbackup.backupMySQLWithXtraBackup env { config with Password := pw } outputDir).2 =
        (Dbbackup.backupMySQLWithXtraBackup env config outputDir).2) := by
  refine ⟨?_, ?_, ?_, ?_, runBackup_blind, ?_, xtra_launched, xtra_blind⟩
  · rw [maskPassword_eq_map, List.length_map]
  · intro i v hv hp
    rw [maskPassword_eq_map, List.getElem?_map, hv, Option.map_some', if_pos hp]
  · intro i v hv hp
    rw [maskPassword_eq_map, List.getElem?_map, hv, Option.map_some']
    simp [hp]
  · intro env cfg bin xs h
    rcases runBackup_shape env cfg with hnone | ⟨pre, post, args, hshape, hpre, hpost, hpw⟩
    · exact absurd h (hnone _ _ _)
    · rw [hshape] at h ⊢
      have hcase : bin = cfg.XtraBackup.Bin ∧ xs = args := by
        rcases List.mem_append.1 h with h | h
        · rcases List.mem_append.1 h with h | h
          · exact absurd h (hpre _ _)
          · simpa using h
        · exact absurd h (hpost _ _)
      obtain ⟨rfl, rfl⟩ := hcase
      exact ⟨rfl, hpw, by simp⟩
  · intro env config outputDir bin xs h
    obtain ⟨_, hpw, hlog⟩ := xtra_engine_run env config outputDir bin xs h
    exact ⟨hpw, rfl, hlog⟩

/-- In the sample run the engine receives `--password=s3cret` while the logged
line shows `--password=***`; so it is in the sample run of the flag-driven tool,
whose displayed line is the masked one. -/
theorem maskPassword_redacts_witness :
    Event.run .engine "/usr/bin/xtrabackup"
      ["--defaults-file=/etc/my.cnf", "--user=backup", "--password=s3cret", "--backup",
       "--target-dir=/data/backup/mysql_incr_20240104_030000", "--parallel=2",
       "--ftwrl-wait-timeout=300", "--backup-lock-timeout=300", "--host=127.0.0.1",
       "--port=3306", "--incremental-basedir=/data/backup/mysql_full_20240102_000000",
       "--no-lock"] ∈ (runBackup (backupEnvWith sampleListing) sampleConfig).1 ∧
    Event.logLine ("[2024-01-04 03:00:00] exec: /usr/bin/xtrabackup --defaults-file=/etc/my.cnf " ++
      "--user=backup --password=*** --backup " ++
      "--target-dir=/data/backup/mysql_incr_20240104_030000 --parallel=2 " ++
      "--ftwrl-wait-timeout=300 --backup-lock-timeout=300 --host=127.0.0.1 --port=3306 " ++
      "--incremental-basedir=/data/backup/mysql_full_20240102_000000 --no-lock\n") ∈
      (runBackup (backupEnvWith sampleListing) sampleConfig).1 ∧
    (maskPassword ["--user=backup", "--password=s3cret"])[1]? = some "--password=***" ∧
    (maskPassword ["--user=backup", "--password=s3cret"])[0]? = some "--user=backup" ∧
    "--password=" ++ sampleConfig.MySQL.Password ∈
      ["--defaults-file=/etc/my.cnf", "--user=backup", "--password=s3cret", "--backup",
       "--target-dir=/data/backup/mysql_incr_20240104_030000", "--parallel=2",
       "--ftwrl-wait-timeout=300", "--backup-lock-timeout=300", "--host=127.0.0.1",
       "--port=3306", "--incremental-basedir=/data/backup/mysql_full_20240102_000000",
       "--no-lock"] ∧
    Event.run .engine "xtrabackup"
      ["--backup", "--datadir=" ++ sampleXtraConfig.Datadir,
       "--target-dir=" ++ ("./backups" ++ "/xtrabackup_" ++
         formatCompact Dbbackup.calmWorld.xtra.now),
       "--host=" ++ sampleXtraConfig.Host, "--port=" ++ sampleXtraConfig.Port,
       "--user=" ++ sampleXtraConfig.Username, "--password=" ++ sampleXtraConfig.Password] ∈
      (Dbbackup.backupMySQLWithXtraBackup Dbbackup.calmWorld.xtra sampleXtraConfig
        "./backups").1 ∧
    (Dbbackup.backupMySQLWithXtraBackup Dbbackup.calmWorld.xtra sampleXtraConfig "./backups").1 =
      [.stdout "Starting MySQL backup with XtraBackup...\n",
       .mkdirAll "./backups/xtrabackup_20240104_030000",
       .stdout ("Executing: xtrabackup with args [--backup --datadir=/var/lib/mysql " ++
         "--target-dir=./backups/xtrabackup_20240104_030000 --host=127.0.0.1 --port=3306 " ++
         "--user=backup --password=***]\n"),
       .run .engine "xtrabackup"
         ["--backup", "--datadir=/var/lib/mysql",
          "--target-dir=./backups/xtrabackup_20240104_030000", "--host=127.0.0.1",
          "--port=3306", "--user=backup", "--password=s3cret"],
       .stdout ("MySQL backup with XtraBackup completed successfully: " ++
         "./backups/xtrabackup_20240104_030000\n")] ∧
    (runBackup (backupEnvWith sampleListing) (withPassword sampleConfig "hunter2")).1.map
        hideArgs =
      (runBackup (backupEnvWith sampleListing) sampleConfig).1.map hideArgs :=
  ⟨by decide, by decide,
   (maskPassword_redacts ["--user=backup", "--password=s3cret"]).2.1 1 "--password=s3cret"
     (by decide) (by decide),
   (maskPassword_redacts ["--user=backup", "--password=s3cret"]).2.2.1 0 "--user=backup"
     (by decide) (by decide),
   ((maskPassword_redacts []).2.2.2.1 (backupEnvWith sampleListing) sampleConfig
     "/usr/bin/xtrabackup" _ (by decide)).2.1,
   (maskPassword_redacts []).2.2.2.2.2.2.1 Dbbackup.calmWorld.xtra sampleXtraConfig "./backups"
     "/usr/bin/xtrabackup" rfl rfl,
   by decide,
   ((maskPassword_redacts []).2.2.2.2.1 (backupEnvWith sampleListing) sampleConfig
     "hunter2").1⟩

end MysqlXtrabackup

namespace MysqlXtrabackup
open GoStd Sys

theorem tarDir_events (env : BackupEnv) (dir : String) :
    ∀ ev ∈ (tarDir env dir).1, ev.ofBackup = true := by
  unfold tarDir
  cases env.statTarget with
  | error err => simp
  | ok isDir =>
    cases isDir with
    | false => simp
    | true =>
      cases env.lookTar with
      | error err => simp
      | ok _ => cases env.tarErr <;> simp [Event.ofBackup]

theorem incrementalArgs_events (env : BackupEnv) (cfg : Config) (args args0 : List String)
    (noted : List Event) (h : incrementalArgs env cfg args = .ok (noted, args0)) :
    ∀ ev ∈ noted, ev.ofBackup = true := by
  unfold incrementalArgs at h
  split at h
  · split at h
    · cases h
    · simp only [Except.ok.injEq, Prod.mk.injEq] at h
      obtain ⟨rfl, rfl⟩ := h
      simp [Event.ofBackup]
  · simp only [Except.ok.injEq, Prod.mk.injEq] at h
    obtain ⟨rfl, rfl⟩ := h
    simp

theorem runBackup_events (env : BackupEnv) (cfg : Config) :
    ∀ ev ∈ (runBackup env cfg).1, ev.ofBackup = true := by
  unfold runBackup
  cases h1 : env.mkdirBackupDir with
  | some err => simp [Event.ofBackup]
  | none =>
  cases h2 : env.mkdirLogDir with
  | some err => simp [Event.ofBackup]
  | none =>
  cases h3 : env.openLog with
  | some err => simp [Event.ofBackup]
  | none =>
  simp only []
  cases hinc : incrementalArgs env cfg (engineArgs cfg (filepathJoin cfg.BackupDir
      (cfg.BackupPrefix ++ "_" ++ cfg.BackupType ++ "_" ++ formatCompact (env.clock 0)))) with
  | error err => simp [Event.ofBackup]
  | ok r =>
  obtain ⟨noted, args0⟩ := r
  have hnoted := eq_true (incrementalArgs_events env cfg _ _ _ hinc)
  simp only []
  cases h4 : env.runErr with
  | some err =>
    simp only [List.forall_mem_append, List.forall_mem_cons, hnoted]
    simp [Event.ofBackup]
  | none =>
    simp only []
    have htar := tarDir_events env (filepathJoin cfg.BackupDir
      (cfg.BackupPrefix ++ "_" ++ cfg.BackupType ++ "_" ++ formatCompact (env.clock 0)))
    by_cases htarflag : cfg.TarArchive = true
    · simp only [htarflag, if_true]
      generalize tarDir env (filepathJoin cfg.BackupDir
        (cfg.BackupPrefix ++ "_" ++ cfg.BackupType ++ "_" ++ formatCompact (env.clock 0))) = tr
        at htar ⊢
      obtain ⟨tarred, res⟩ := tr
      simp only [] at htar
      replace htar := eq_true htar
      cases res with
      | error err =>
        simp only [List.forall_mem_append, List.forall_mem_cons, hnoted, htar]
        simp [Event.ofBackup]
      | ok archive =>
        simp only [List.forall_mem_append, List.forall_mem_cons, hnoted, htar]
        simp [Event.ofBackup]
    · rw [if_neg htarflag]
      simp only [List.forall_mem_append, List.forall_mem_cons, hnoted]
      simp [Event.ofBackup]

end MysqlXtrabackup

namespace GoStd

theorem append_ne_empty {a : String} (b : String) (h : a ≠ "") : a ++ b ≠ "" := by
  intro hab
  apply h
  have hd : (a ++ b).data = [] := by rw [hab]
  rw [String.data_append] at hd
  have : a.data = [] := (List.append_eq_nil.1 hd).1
  exact String.ext this

end GoStd

namespace MysqlXtrabackup
open GoStd Sys

theorem sendArchive_spec (now : Civil) (scpErr : Option String) (cfg : Config)
    (res : BackupResult) :
    (∃ line args, (sendArchive now scpErr cfg res).1 = [.stdout line, .run .scp "scp" args]) ∧
    ∀ err, (sendArchive now scpErr cfg res).2 = some err → err ≠ "" := by
  unfold sendArchive
  cases scpErr with
  | none => exact ⟨⟨_, _, rfl⟩, by simp⟩
  | some e =>
    refine ⟨⟨_, _, rfl⟩, ?_⟩
    intro err h
    simp only [Option.some.injEq] at h
    subst h
    exact append_ne_empty _ (by decide)

theorem sweepBackups_spec (env : CleanupEnv) (cfg : Config) (cutoff : Int)
    (entries : List DirEntry) :
    (∀ ev ∈ (sweepBackups env cfg cutoff entries).1, ev.ofCleanup = true) ∧
    ∀ err, (sweepBackups env cfg cutoff entries).2 = some err → err ≠ "" := by
  induction entries with
  | nil => simp [sweepBackups]
  | cons e rest ih =>
    unfold sweepBackups
    split
    · exact ih
    · cases hm : e.modTime with
      | none => simpa using ih
      | some t =>
        by_cases hlt : t < cutoff
        · cases hr : env.removeAll (filepathJoin cfg.BackupDir e.name) with
          | some e' =>
            simp only [hlt, if_true, hr]
            refine ⟨by simp [Event.ofCleanup], ?_⟩
            intro err h
            simp only [Option.some.injEq] at h
            subst h
            exact append_ne_empty _ (append_ne_empty _ (append_ne_empty _ (by decide)))
          | none =>
            simp only [hlt, if_true, hr]
            refine ⟨?_, ih.2⟩
            simp only [List.forall_mem_cons, eq_true ih.1]
            simp [Event.ofCleanup]
        · simpa [hlt] using ih

theorem sweepLogs_events (cfg : Config) (cutoff : Int) (logs : List DirEntry) :
    ∀ ev ∈ sweepLogs cfg cutoff logs, ev.ofCleanup = true := by
  intro ev hev
  obtain ⟨l, _, _, rfl⟩ := (mem_sweepLogs cfg cutoff logs ev).1 hev
  rfl

theorem cleanupOld_spec (env : CleanupEnv) (cfg : Config) :
    (∀ ev ∈ (cleanupOld env cfg).1, ev.ofCleanup = true) ∧
    ∀ err, (cleanupOld env cfg).2 = some err → err ≠ "" := by
  unfold cleanupOld
  cases env.listing with
  | error e =>
    refine ⟨by simp, ?_⟩
    intro err h
    simp only [Option.some.injEq] at h
    subst h
    exact append_ne_empty _ (by decide)
  | ok entries =>
    simp only []
    have hs := sweepBackups_spec env cfg (env.addDate env.now (negInt cfg.RetentionDays)) entries
    generalize sweepBackups env cfg (env.addDate env.now (negInt cfg.RetentionDays)) entries = r
      at hs ⊢
    obtain ⟨evs, res⟩ := r
    cases res with
    | some e => exact hs
    | none =>
      refine ⟨?_, by simp⟩
      simp only [List.forall_mem_append]
      exact ⟨hs.1, sweepLogs_events _ _ _⟩

end MysqlXtrabackup

namespace MysqlXtrabackup
open GoStd Sys

end MysqlXtrabackup

namespace MysqlXtrabackup
open GoStd Sys

/-- A webhook that `http.NewRequest` refuses: nothing is posted and the
process is stopped with exit code 2. -/
theorem sendFeishu_refused (requestErr : String → Option String) (postErr : Option String)
    (cfg : Config) (res : Option BackupResult) (status errMsg e : String)
    (h : cfg.Feishu.Enabled = true) (hreq : requestErr cfg.Feishu.Webhook = some e) :
    sendFeishu requestErr postErr cfg res status errMsg =
      ([.crash "runtime error: invalid memory address or nil pointer dereference", .exit 2],
        false) := by
  simp [sendFeishu, h, hreq]

theorem mem_thenRun (sent : List Event × Bool) (rest : List Event) (ev : Event)
    (h : ev ∈ thenRun sent rest) : ev ∈ sent.1 ∨ ev ∈ rest := by
  unfold thenRun at h
  rcases List.mem_append.1 h with h | h
  · exact Or.inl h
  · split at h
    · exact Or.inr h
    · simp at h

/-- With notification enabled and a webhook that `http.NewRequest` refuses, a
run that fails in the backup stage posts nothing and is stopped by the Go
run-time with exit code 2. -/
theorem main_refused_webhook (w : World) (fl : Flags) (cfg0 cfg : Config) (evs : List Event)
    (err e : String)
    (hload : loadConfig (w.readFile fl.cfgPath) w.unmarshal = .ok cfg0)
    (hval : validateConfig w.lookPath (overrideType fl cfg0) = (cfg, none))
    (hrun : runBackup w.backup cfg = (evs, .error err))
    (hen : cfg.Feishu.Enabled = true) (hreq : w.requestErr cfg.Feishu.Webhook = some e) :
    main w fl = evs ++
      [.crash "runtime error: invalid memory address or nil pointer dereference", .exit 2] := by
  unfold main
  rw [hload]
  simp only [hval, hrun]
  rw [sendFeishu_refused _ _ _ _ _ _ e hen hreq]
  simp [thenRun]

end MysqlXtrabackup

namespace MysqlXtrabackup
open GoStd Sys

theorem andThen_ok (r : Config × Option ConfigError) (next : Config → Config × Option ConfigError)
    (cfg' : Config) :
    andThen r next = (cfg', none) ↔ ∃ mid, r = (mid, none) ∧ next mid = (cfg', none) := by
  obtain ⟨c, e⟩ := r
  cases e with
  | none => simp [andThen]
  | some err => simp [andThen]

theorem checkLayout_of (cfg : Config)
    (hty : cfg.BackupType = "full" ∨ cfg.BackupType = "incr") (hdir : cfg.BackupDir ≠ "") :
    checkLayout cfg = ({ cfg with
        BackupPrefix := if cfg.BackupPrefix = "" then "mysql" else cfg.BackupPrefix
        LogDir := if cfg.LogDir = "" then filepathJoin cfg.BackupDir "log" else cfg.LogDir },
      none) := by
  obtain ⟨ty, dir, pfx, rd, tar, logdir, my, xb, rem, fei⟩ := cfg
  simp only [] at hty hdir
  have hty' : ¬ (ty ≠ "full" ∧ ty ≠ "incr") := by
    rintro ⟨h1, h2⟩; rcases hty with h | h <;> contradiction
  unfold checkLayout
  simp only [hty', hdir, if_false]
  by_cases hp : pfx = "" <;> by_cases hl : logdir = "" <;> simp [hp, hl]

theorem checkLayout_pre (cfg : Config) (h : (checkLayout cfg).2 = none) :
    (cfg.BackupType = "full" ∨ cfg.BackupType = "incr") ∧ cfg.BackupDir ≠ "" := by
  unfold checkLayout at h
  split at h
  · cases h
  · rename_i hty
    split at h
    · cases h
    · rename_i hdir
      refine ⟨?_, hdir⟩
      by_cases h1 : cfg.BackupType = "full"
      · exact Or.inl h1
      · by_cases h2 : cfg.BackupType = "incr"
        · exact Or.inr h2
        · exact absurd ⟨h1, h2⟩ hty

theorem checkMySQL_of (cfg : Config) (hd : cfg.MySQL.DefaultsFile ≠ "")
    (hu : cfg.MySQL.User ≠ "") (hp : cfg.MySQL.Password ≠ "") :
    checkMySQL cfg = ({ cfg with MySQL := { cfg.MySQL with
        Host := if cfg.MySQL.Socket = "" ∧ cfg.MySQL.Host = "" then "127.0.0.1"
          else cfg.MySQL.Host
        Port := if cfg.MySQL.Socket = "" ∧ cfg.MySQL.Port = 0 then 3306
          else cfg.MySQL.Port } }, none) := by
  obtain ⟨ty, dir, pfx, rd, tar, logdir, ⟨df, sock, host, port, user, pw⟩, xb, rem, fei⟩ := cfg
  simp only [] at hd hu hp
  unfold checkMySQL
  simp only [hd, hu, hp, or_self, if_false]
  by_cases hs : sock = "" <;> by_cases hh : host = "" <;> by_cases hpo : port = 0 <;>
    simp [hs, hh, hpo]

theorem checkMySQL_pre (cfg : Config) (h : (checkMySQL cfg).2 = none) :
    cfg.MySQL.DefaultsFile ≠ "" ∧ cfg.MySQL.User ≠ "" ∧ cfg.MySQL.Password ≠ "" := by
  unfold checkMySQL at h
  split at h
  · cases h
  · rename_i hd
    split at h
    · cases h
    · rename_i hu
      exact ⟨hd, fun h1 => hu (Or.inl h1), fun h2 => hu (Or.inr h2)⟩

theorem checkEngine_of (lookPath : String → Except String String) (cfg : Config) (found : String)
    (hf : cfg.XtraBackup.Bin = "" → lookPath "xtrabackup" = .ok found) :
    checkEngine lookPath cfg = ({ cfg with XtraBackup := { cfg.XtraBackup with
        Bin := if cfg.XtraBackup.Bin = "" then found else cfg.XtraBackup.Bin
        Parallel := if cfg.XtraBackup.Parallel = 0 then 2 else cfg.XtraBackup.Parallel
        CompressThreads :=
          if cfg.XtraBackup.Compress = true ∧ cfg.XtraBackup.CompressThreads = 0 then 2
          else cfg.XtraBackup.CompressThreads } }, none) := by
  obtain ⟨ty, dir, pfx, rd, tar, logdir, my, ⟨bin, par, comp, thr, extra⟩, rem, fei⟩ := cfg
  simp only [] at hf
  unfold checkEngine
  by_cases hb : bin = ""
  · simp only [hb, if_true, hf hb]
    by_cases hpar : par = 0 <;> by_cases hc : comp = true <;> by_cases ht : thr = 0 <;>
      simp [hpar, hc, ht]
  · simp only [hb, if_false]
    by_cases hpar : par = 0 <;> by_cases hc : comp = true <;> by_cases ht : thr = 0 <;>
      simp [hpar, hc, ht]

theorem checkEngine_pre (lookPath : String → Except String String) (cfg : Config)
    (h : (checkEngine lookPath cfg).2 = none) :
    cfg.XtraBackup.Bin = "" → ∃ found, lookPath "xtrabackup" = .ok found := by
  intro hb
  unfold checkEngine at h
  simp only [hb, if_true] at h
  cases hl : lookPath "xtrabackup" with
  | error err => simp [hl] at h
  | ok bin => exact ⟨bin, rfl⟩

theorem checkRemote_of (lookPath : String → Except String String) (cfg : Config)
    (hr : cfg.Remote.Enabled = true →
      cfg.Remote.User ≠ "" ∧ cfg.Remote.Host ≠ "" ∧ cfg.Remote.DestDir ≠ "" ∧
      ∃ scp, lookPath "scp" = .ok scp) :
    checkRemote lookPath cfg = ({ cfg with Remote := { cfg.Remote with
        Port := if cfg.Remote.Enabled = true ∧ cfg.Remote.Port = 0 then 22
          else cfg.Remote.Port } }, none) := by
  obtain ⟨ty, dir, pfx, rd, tar, logdir, my, xb, ⟨en, user, host, port, dest⟩, fei⟩ := cfg
  simp only [] at hr
  unfold checkRemote
  by_cases he : en = true
  · obtain ⟨h1, h2, h3, scp, h4⟩ := hr he
    simp only [he, if_true, h1, h2, h3, or_self, if_false, h4]
    by_cases hp : port = 0 <;> simp [hp]
  · simp [he]

theorem checkRemote_pre (lookPath : String → Except String String) (cfg : Config)
    (h : (checkRemote lookPath cfg).2 = none) :
    cfg.Remote.Enabled = true →
      cfg.Remote.User ≠ "" ∧ cfg.Remote.Host ≠ "" ∧ cfg.Remote.DestDir ≠ "" ∧
      ∃ scp, lookPath "scp" = .ok scp := by
  intro he
  unfold checkRemote at h
  rw [if_pos he] at h
  split at h
  · cases h
  · rename_i hf
    cases hl : lookPath "scp" with
    | error err => simp [hl] at h
    | ok scp =>
      exact ⟨fun h1 => hf (Or.inl h1), fun h2 => hf (Or.inr (Or.inl h2)),
        fun h3 => hf (Or.inr (Or.inr h3)), scp, rfl⟩

theorem checkFeishu_of (cfg : Config)
    (hf : cfg.Feishu.Enabled = true → cfg.Feishu.Webhook ≠ "" ∧ cfg.Feishu.Keyword ≠ "") :
    checkFeishu cfg = (cfg, none) := by
  unfold checkFeishu
  by_cases he : cfg.Feishu.Enabled = true
  · simp [he, (hf he).1, (hf he).2]
  · simp [he]

theorem checkFeishu_pre (cfg : Config) (h : (checkFeishu cfg).2 = none) :
    cfg.Feishu.Enabled = true → cfg.Feishu.Webhook ≠ "" ∧ cfg.Feishu.Keyword ≠ "" := by
  intro he
  unfold checkFeishu at h
  rw [if_pos he] at h
  split at h
  · cases h
  · rename_i h1
    split at h
    · cases h
    · rename_i h2
      exact ⟨h1, h2⟩

end MysqlXtrabackup

namespace MysqlXtrabackup
open GoStd Sys

theorem andThen_of {r : Config × Option ConfigError}
    {next : Config → Config × Option ConfigError} {mid cfg' : Config}
    (h1 : r = (mid, none)) (h2 : next mid = (cfg', none)) : andThen r next = (cfg', none) := by
  subst h1
  exact h2

theorem validateConfig_of (lookPath : String → Except String String) (cfg : Config)
    (found : String) (hacc : Acceptable lookPath cfg)
    (hf : cfg.XtraBackup.Bin = "" → lookPath "xtrabackup" = .ok found) :
    validateConfig lookPath cfg = (specDefaults found cfg, none) := by
  obtain ⟨hty, hdir, hd, hu, hp, _, hr, hfe⟩ := hacc
  unfold validateConfig
  exact andThen_of (andThen_of (andThen_of (andThen_of (checkLayout_of cfg hty hdir)
    (checkMySQL_of _ hd hu hp)) (checkEngine_of lookPath _ found hf))
    (checkRemote_of lookPath _ hr)) (checkFeishu_of _ hfe)

theorem validateConfig_ok (lookPath : String → Except String String) (cfg cfg' : Config)
    (h : validateConfig lookPath cfg = (cfg', none)) :
    Acceptable lookPath cfg ∧
    ∃ found, (cfg.XtraBackup.Bin = "" → lookPath "xtrabackup" = .ok found) ∧
      cfg' = specDefaults found cfg := by
  have h0 := h
  unfold validateConfig at h
  obtain ⟨m4, h4, h5⟩ := (andThen_ok _ _ _).1 h
  obtain ⟨m3, h3, h4⟩ := (andThen_ok _ _ _).1 h4
  obtain ⟨m2, h2, h3⟩ := (andThen_ok _ _ _).1 h3
  obtain ⟨m1, h1, h2⟩ := (andThen_ok _ _ _).1 h2
  have p1 := checkLayout_pre cfg (by rw [h1])
  have hm1 := (Prod.mk.inj (h1.symm.trans (checkLayout_of cfg p1.1 p1.2))).1
  have p2 := checkMySQL_pre m1 (by rw [h2])
  have hm2 := (Prod.mk.inj (h2.symm.trans (checkMySQL_of m1 p2.1 p2.2.1 p2.2.2))).1
  have p3 := checkEngine_pre lookPath m2 (by rw [h3])
  have hmy : m1.MySQL = cfg.MySQL := by rw [hm1]
  have hxb : m2.XtraBackup = cfg.XtraBackup := by rw [hm2, hm1]
  rw [hmy] at p2
  rw [hxb] at p3
  have key : ∀ found, (cfg.XtraBackup.Bin = "" → lookPath "xtrabackup" = .ok found) →
      Acceptable lookPath cfg ∧ cfg' = specDefaults found cfg := by
    intro found hf
    have hm3 := (Prod.mk.inj (h3.symm.trans
      (checkEngine_of lookPath m2 found (by rw [hxb]; exact hf)))).1
    have p4 := checkRemote_pre lookPath m3 (by rw [h4])
    have hm4 := (Prod.mk.inj (h4.symm.trans (checkRemote_of lookPath m3 p4))).1
    have p5 := checkFeishu_pre m4 (by rw [h5])
    have hre : m3.Remote = cfg.Remote := by rw [hm3, hm2, hm1]
    have hfe : m4.Feishu = cfg.Feishu := by rw [hm4, hm3, hm2, hm1]
    rw [hre] at p4
    rw [hfe] at p5
    have hacc : Acceptable lookPath cfg :=
      ⟨p1.1, p1.2, p2.1, p2.2.1, p2.2.2, p3, p4, p5⟩
    have := validateConfig_of lookPath cfg found hacc hf
    rw [h0] at this
    exact ⟨hacc, (Prod.mk.inj this).1⟩
  by_cases hb : cfg.XtraBackup.Bin = ""
  · obtain ⟨found, hfound⟩ := p3 hb
    obtain ⟨hacc, hcfg⟩ := key found (fun _ => hfound)
    exact ⟨hacc, found, fun _ => hfound, hcfg⟩
  · obtain ⟨hacc, hcfg⟩ := key "" (fun h => absurd h hb)
    exact ⟨hacc, "", fun h => absurd h hb, hcfg⟩

end MysqlXtrabackup

namespace MysqlXtrabackup
open GoStd Sys

theorem specDefaults_acceptable (lookPath : String → Except String String) (cfg : Config)
    (found : String) (hacc : Acceptable lookPath cfg)
    (hf : cfg.XtraBackup.Bin = "" → lookPath "xtrabackup" = .ok found) :
    Acceptable lookPath (specDefaults found cfg) ∧
    ((specDefaults found cfg).XtraBackup.Bin = "" → lookPath "xtrabackup" = .ok found) := by
  obtain ⟨hty, hdir, hd, hu, hp, hb, hr, hfe⟩ := hacc
  have hbin : (specDefaults found cfg).XtraBackup.Bin = "" → lookPath "xtrabackup" = .ok found := by
    intro h
    by_cases hb0 : cfg.XtraBackup.Bin = ""
    · exact hf hb0
    · simp [specDefaults, hb0] at h
  exact ⟨⟨hty, hdir, hd, hu, hp, fun h => ⟨found, hbin h⟩, hr, hfe⟩, hbin⟩

theorem specDefaults_idem (found : String) (cfg : Config) :
    specDefaults found (specDefaults found cfg) = specDefaults found cfg := by
  obtain ⟨ty, dir, pfx, rd, tar, logdir, ⟨df, sock, host, port, user, pw⟩,
    ⟨bin, par, comp, thr, extra⟩, ⟨ren, ruser, rhost, rport, rdest⟩, fei⟩ := cfg
  simp only [specDefaults, Config.mk.injEq, MySQLSection.mk.injEq, XtraBackupSection.mk.injEq,
    RemoteSection.mk.injEq, true_and, and_true]
  refine ⟨?_, ?_, ⟨?_, ?_⟩, ⟨?_, ?_, ?_⟩, ?_⟩ <;> split_ifs <;> simp_all

/-- C7: validation is idempotent. If `validateConfig` succeeds on `cfg` and
leaves `cfg'`, then, with the same `PATH` lookup, it succeeds on `cfg'` and
leaves it unchanged. -/
theorem validateConfig_idempotent (lookPath : String → Except String String)
    (cfg cfg' : Config) (h : validateConfig lookPath cfg = (cfg', none)) :
    validateConfig lookPath cfg' = (cfg', none) := by
  obtain ⟨hacc, found, hf, rfl⟩ := validateConfig_ok lookPath cfg cfg' h
  obtain ⟨hacc', hf'⟩ := specDefaults_acceptable lookPath cfg found hacc hf
  rw [validateConfig_of lookPath _ found hacc' hf', specDefaults_idem]

end MysqlXtrabackup

namespace MysqlXtrabackup
open GoStd Sys

theorem andThen_err (r : Config × Option ConfigError)
    (next : Config → Config × Option ConfigError) (e : ConfigError)
    (h : (andThen r next).2 = some e) :
    r.2 = some e ∨ ∃ mid, r = (mid, none) ∧ (next mid).2 = some e := by
  obtain ⟨c, o⟩ := r
  cases o with
  | none => exact Or.inr ⟨c, rfl, h⟩
  | some err => exact Or.inl h

theorem checkLayout_badType (cfg : Config) (got : String)
    (h : (checkLayout cfg).2 = some (.badType got)) :
    cfg.BackupType ≠ "full" ∧ cfg.BackupType ≠ "incr" := by
  unfold checkLayout at h
  split at h
  · assumption
  · split at h
    · cases h
    · cases h

theorem checkMySQL_not_badType (cfg : Config) (got : String) :
    (checkMySQL cfg).2 ≠ some (.badType got) := by
  unfold checkMySQL
  split
  · simp
  · split <;> simp

theorem checkEngine_not_badType (lookPath : String → Except String String) (cfg : Config)
    (got : String) : (checkEngine lookPath cfg).2 ≠ some (.badType got) := by
  unfold checkEngine
  by_cases hb : cfg.XtraBackup.Bin = ""
  · simp only [hb, if_true]
    cases lookPath "xtrabackup" <;> simp
  · simp [hb]

theorem checkRemote_not_badType (lookPath : String → Except String String) (cfg : Config)
    (got : String) : (checkRemote lookPath cfg).2 ≠ some (.badType got) := by
  unfold checkRemote
  split
  · split
    · simp
    · cases lookPath "scp" <;> simp
  · simp

theorem checkFeishu_not_badType (cfg : Config) (got : String) :
    (checkFeishu cfg).2 ≠ some (.badType got) := by
  unfold checkFeishu
  split
  · split
    · simp
    · split <;> simp
  · simp

/-- C8 (as stated, refuted): the backup type `incremental` is rejected with
the error "backup_type must be full or incr, got incremental", while the type
`incr`, a value other than `full` and `incremental`, passes validation. -/
theorem validateConfig_rejects_incremental :
    validateConfig sampleLookPath { sampleConfig with BackupType := "incremental" } =
      ({ sampleConfig with BackupType := "incremental" }, some (.badType "incremental")) ∧
    (ConfigError.badType "incremental").message =
      "backup_type must be full or incr, got incremental" ∧
    validateConfig sampleLookPath { sampleConfig with BackupType := "incr" } =
      ({ sampleConfig with BackupType := "incr" }, none) := by
  decide

/-- C8 (amended): `validateConfig` does not fail on the type rule when the
backup type is `full` or `incr`, and for every other backup type it returns the
error "backup_type must be full or incr, got <type>" and leaves the
configuration as it was. -/
theorem validateConfig_type_rule (lookPath : String → Except String String) (cfg : Config) :
    ((cfg.BackupType = "full" ∨ cfg.BackupType = "incr") →
      ∀ got, (validateConfig lookPath cfg).2 ≠ some (.badType got)) ∧
    (cfg.BackupType ≠ "full" → cfg.BackupType ≠ "incr" →
      validateConfig lookPath cfg = (cfg, some (.badType cfg.BackupType)) ∧
      (ConfigError.badType cfg.BackupType).message =
        "backup_type must be full or incr, got " ++ cfg.BackupType) := by
  refine ⟨?_, ?_⟩
  · intro hty got h
    unfold validateConfig at h
    rcases andThen_err _ _ _ h with h | ⟨m, _, h⟩
    · rcases andThen_err _ _ _ h with h | ⟨m, _, h⟩
      · rcases andThen_err _ _ _ h with h | ⟨m, _, h⟩
        · rcases andThen_err _ _ _ h with h | ⟨m, _, h⟩
          · obtain ⟨h1, h2⟩ := checkLayout_badType cfg got h
            rcases hty with h' | h' <;> contradiction
          · exact checkMySQL_not_badType _ _ h
        · exact checkEngine_not_badType _ _ _ h
      · exact checkRemote_not_badType _ _ _ h
    · exact checkFeishu_not_badType _ _ h
  · intro h1 h2
    refine ⟨?_, rfl⟩
    have hl : checkLayout cfg = (cfg, some (.badType cfg.BackupType)) := by
      unfold checkLayout
      rw [if_pos ⟨h1, h2⟩]
    unfold validateConfig
    rw [hl]
    rfl

/-- The types `full` and `incr` pass the type rule; `differential` is rejected. -/
theorem validateConfig_type_rule_witness :
    (∀ got, (validateConfig sampleLookPath { sampleConfig with BackupType := "full" }).2 ≠
      some (.badType got)) ∧
    (∀ got, (validateConfig sampleLookPath sampleConfig).2 ≠ some (.badType got)) ∧
    validateConfig sampleLookPath { sampleConfig with BackupType := "differential" } =
      ({ sampleConfig with BackupType := "differential" }, some (.badType "differential")) :=
  ⟨(validateConfig_type_rule sampleLookPath { sampleConfig with BackupType := "full" }).1
     (Or.inl rfl),
   (validateConfig_type_rule sampleLookPath sampleConfig).1 (Or.inr rfl),
   ((validateConfig_type_rule sampleLookPath
     { sampleConfig with BackupType := "differential" }).2 (by decide) (by decide)).1⟩

end MysqlXtrabackup

namespace MysqlXtrabackup
open GoStd Sys

theorem validateConfig_result (lookPath : String → Except String String) (cfg : Config) :
    (∃ err, (validateConfig lookPath cfg).2 = some err) ∨
    ∃ cfg', validateConfig lookPath cfg = (cfg', none) := by
  generalize validateConfig lookPath cfg = r
  obtain ⟨c, o⟩ := r
  cases o with
  | none => exact Or.inr ⟨c, rfl⟩
  | some err => exact Or.inl ⟨err, rfl⟩

/-- C9: `validateConfig` returns an error when the backup directory, the
defaults file, the user or the password is empty, when remote shipping is
enabled with the user, host or destination empty, and when notification is
enabled with the webhook or the keyword empty; hence a configuration it
accepts has all of these present, a non-zero remote port when shipping is
enabled, and it accepts exactly the configurations that meet the
requirements. -/
theorem validateConfig_required (lookPath : String → Except String String) (cfg : Config) :
    ((cfg.BackupDir = "" ∨ cfg.MySQL.DefaultsFile = "" ∨ cfg.MySQL.User = "" ∨
        cfg.MySQL.Password = "" ∨
        (cfg.Remote.Enabled = true ∧
          (cfg.Remote.User = "" ∨ cfg.Remote.Host = "" ∨ cfg.Remote.DestDir = "")) ∨
        (cfg.Feishu.Enabled = true ∧ (cfg.Feishu.Webhook = "" ∨ cfg.Feishu.Keyword = ""))) →
      ∃ err, (validateConfig lookPath cfg).2 = some err) ∧
    (∀ cfg', validateConfig lookPath cfg = (cfg', none) →
      cfg'.BackupDir ≠ "" ∧ cfg'.MySQL.DefaultsFile ≠ "" ∧ cfg'.MySQL.User ≠ "" ∧
      cfg'.MySQL.Password ≠ "" ∧
      (cfg'.Remote.Enabled = true →
        cfg'.Remote.User ≠ "" ∧ cfg'.Remote.Host ≠ "" ∧ cfg'.Remote.DestDir ≠ "" ∧
        cfg'.Remote.Port ≠ 0) ∧
      (cfg'.Feishu.Enabled = true → cfg'.Feishu.Webhook ≠ "" ∧ cfg'.Feishu.Keyword ≠ "")) ∧
    ((validateConfig lookPath cfg).2 = none ↔ Acceptable lookPath cfg) := by
  refine ⟨?_, ?_, ?_⟩
  · intro hbad
    rcases validateConfig_result lookPath cfg with h | ⟨cfg', h⟩
    · exact h
    · exfalso
      obtain ⟨⟨_, hdir, hd, hu, hp, _, hr, hfe⟩, _⟩ := validateConfig_ok lookPath cfg cfg' h
      rcases hbad with h1 | h1 | h1 | h1 | ⟨he, h1⟩ | ⟨he, h1⟩
      · exact hdir h1
      · exact hd h1
      · exact hu h1
      · exact hp h1
      · obtain ⟨r1, r2, r3, _⟩ := hr he
        rcases h1 with h1 | h1 | h1
        · exact r1 h1
        · exact r2 h1
        · exact r3 h1
      · obtain ⟨f1, f2⟩ := hfe he
        rcases h1 with h1 | h1
        · exact f1 h1
        · exact f2 h1
  · intro cfg' h
    obtain ⟨⟨_, hdir, hd, hu, hp, _, hr, hfe⟩, found, _, rfl⟩ :=
      validateConfig_ok lookPath cfg cfg' h
    refine ⟨hdir, hd, hu, hp, ?_, hfe⟩
    intro he
    have he' : cfg.Remote.Enabled = true := he
    obtain ⟨r1, r2, r3, _⟩ := hr he'
    refine ⟨r1, r2, r3, ?_⟩
    show (if cfg.Remote.Enabled = true ∧ cfg.Remote.Port = 0 then (22 : Int)
      else cfg.Remote.Port) ≠ 0
    split
    · decide
    · rename_i hn
      intro h0
      exact hn ⟨he', h0⟩
  · constructor
    · intro h
      rcases validateConfig_result lookPath cfg with ⟨err, he⟩ | ⟨cfg', hc⟩
      · rw [he] at h; cases h
      · exact (validateConfig_ok lookPath cfg cfg' hc).1
    · intro hacc
      by_cases hb : cfg.XtraBackup.Bin = ""
      · obtain ⟨found, hf⟩ := hacc.2.2.2.2.2.1 hb
        rw [validateConfig_of lookPath cfg found hacc (fun _ => hf)]
      · rw [validateConfig_of lookPath cfg "" hacc (fun h => absurd h hb)]

/-- An empty backup directory and an empty keyword are rejected; the accepted
sample configuration has every required field and remote port 22. -/
theorem validateConfig_required_witness :
    (∃ err, (validateConfig sampleLookPath { sampleConfig with BackupDir := "" }).2 = some err) ∧
    (∃ err, (validateConfig sampleLookPath
      { sampleConfig with Feishu := { sampleConfig.Feishu with Keyword := "" } }).2 = some err) ∧
    validateConfig sampleLookPath { sampleConfig with Remote :=
      { sampleConfig.Remote with Port := 0 } } = (sampleConfig, none) ∧
    (sampleConfig.BackupDir ≠ "" ∧ sampleConfig.MySQL.DefaultsFile ≠ "" ∧
      sampleConfig.MySQL.User ≠ "" ∧ sampleConfig.MySQL.Password ≠ "" ∧
      (sampleConfig.Remote.Enabled = true →
        sampleConfig.Remote.User ≠ "" ∧ sampleConfig.Remote.Host ≠ "" ∧
        sampleConfig.Remote.DestDir ≠ "" ∧ sampleConfig.Remote.Port ≠ 0) ∧
      (sampleConfig.Feishu.Enabled = true →
        sampleConfig.Feishu.Webhook ≠ "" ∧ sampleConfig.Feishu.Keyword ≠ "")) :=
  ⟨(validateConfig_required sampleLookPath { sampleConfig with BackupDir := "" }).1
     (Or.inl rfl),
   (validateConfig_required sampleLookPath
     { sampleConfig with Feishu := { sampleConfig.Feishu with Keyword := "" } }).1
     (Or.inr (Or.inr (Or.inr (Or.inr (Or.inr ⟨rfl, Or.inr rfl⟩))))),
   by decide,
   (validateConfig_required sampleLookPath { sampleConfig with Remote :=
      { sampleConfig.Remote with Port := 0 } }).2.1 sampleConfig (by decide)⟩

/-- C10: when `validateConfig` succeeds, the configuration it leaves is the
input with the defaults of the specification applied and every other field
unchanged: the engine binary is the one found on `PATH` only if none was set,
and no field that was set is overwritten. -/
theorem validateConfig_defaults (lookPath : String → Except String String)
    (cfg cfg' : Config) (h : validateConfig lookPath cfg = (cfg', none)) :
    (∃ found, (cfg.XtraBackup.Bin = "" → lookPath "xtrabackup" = .ok found) ∧
      cfg' = specDefaults found cfg) ∧
    (cfg.BackupPrefix ≠ "" → cfg'.BackupPrefix = cfg.BackupPrefix) ∧
    (cfg.LogDir ≠ "" → cfg'.LogDir = cfg.LogDir) ∧
    (cfg.MySQL.Socket ≠ "" → cfg'.MySQL = cfg.MySQL) ∧
    (cfg.MySQL.Host ≠ "" → cfg'.MySQL.Host = cfg.MySQL.Host) ∧
    (cfg.MySQL.Port ≠ 0 → cfg'.MySQL.Port = cfg.MySQL.Port) ∧
    (cfg.XtraBackup.Bin ≠ "" → cfg'.XtraBackup.Bin = cfg.XtraBackup.Bin) ∧
    (cfg.XtraBackup.Parallel ≠ 0 → cfg'.XtraBackup.Parallel = cfg.XtraBackup.Parallel) ∧
    ((cfg.XtraBackup.Compress = false ∨ cfg.XtraBackup.CompressThreads ≠ 0) →
      cfg'.XtraBackup.CompressThreads = cfg.XtraBackup.CompressThreads) ∧
    ((cfg.Remote.Enabled = false ∨ cfg.Remote.Port ≠ 0) → cfg'.Remote = cfg.Remote) := by
  obtain ⟨_, found, hf, rfl⟩ := validateConfig_ok lookPath cfg cfg' h
  refine ⟨⟨found, hf, rfl⟩, ?_, ?_, ?_, ?_, ?_, ?_, ?_, ?_, ?_⟩
  · intro h1; simp [specDefaults, h1]
  · intro h1; simp [specDefaults, h1]
  · intro h1; simp [specDefaults, h1]
  · intro h1; simp [specDefaults, h1]
  · intro h1; simp [specDefaults, h1]
  · intro h1; simp [specDefaults, h1]
  · intro h1; simp [specDefaults, h1]
  · intro h1
    rcases h1 with h1 | h1 <;> simp [specDefaults, h1]
  · intro h1
    have hp : (if cfg.Remote.Enabled = true ∧ cfg.Remote.Port = 0 then (22 : Int)
        else cfg.Remote.Port) = cfg.Remote.Port := by
      rcases h1 with h1 | h1 <;> simp [h1]
    show ({ cfg.Remote with
      Port := if cfg.Remote.Enabled = true ∧ cfg.Remote.Port = 0 then (22 : Int)
        else cfg.Remote.Port } : RemoteSection) = cfg.Remote
    rw [hp]

end MysqlXtrabackup

namespace MysqlXtrabackup
open GoStd Sys

/-- Validating the bare configuration fills it in; validating the result again
changes nothing. -/
theorem validateConfig_idempotent_witness :
    validateConfig sampleLookPath bareConfig = (filledConfig, none) ∧
    validateConfig sampleLookPath filledConfig = (filledConfig, none) :=
  ⟨by decide, validateConfig_idempotent sampleLookPath bareConfig filledConfig (by decide)⟩

/-- The bare configuration is filled in exactly as the specification says, and
a port that was set is kept. -/
theorem validateConfig_defaults_witness :
    validateConfig sampleLookPath bareConfig = (filledConfig, none) ∧
    (∃ found, (bareConfig.XtraBackup.Bin = "" → sampleLookPath "xtrabackup" = .ok found) ∧
      filledConfig = specDefaults found bareConfig) ∧
    (sampleConfig.MySQL.Port ≠ 0 →
      (validateConfig sampleLookPath sampleConfig).1.MySQL.Port = sampleConfig.MySQL.Port) :=
  ⟨by decide,
   (validateConfig_defaults sampleLookPath bareConfig filledConfig (by decide)).1,
   (validateConfig_defaults sampleLookPath sampleConfig
     (validateConfig sampleLookPath sampleConfig).1 (by decide)).2.2.2.2.2.1⟩

end MysqlXtrabackup

namespace MysqlXtrabackup
open GoStd Sys

theorem runBackup_no_scp (env : BackupEnv) (cfg : Config) (bin : String) (args : List String) :
    Event.run .scp bin args ∉ (runBackup env cfg).1 := by
  intro h
  have := runBackup_events env cfg _ h
  simp [Event.ofBackup] at this

theorem cleanupOld_no_scp (env : CleanupEnv) (cfg : Config) (bin : String)
    (args : List String) : Event.run .scp bin args ∉ (cleanupOld env cfg).1 := by
  intro h
  have := (cleanupOld_spec env cfg).1 _ h
  simp [Event.ofCleanup] at this

theorem sendFeishu_no_scp (requestErr : String → Option String) (postErr : Option String)
    (cfg : Config) (res : Option BackupResult) (status errMsg bin : String)
    (args : List String) :
    Event.run .scp bin args ∉ (sendFeishu requestErr postErr cfg res status errMsg).1 := by
  unfold sendFeishu
  split
  · simp
  · cases requestErr cfg.Feishu.Webhook with
    | some e => simp
    | none => cases postErr <;> simp

theorem thenRun_no_scp (sent : List Event × Bool) (rest : List Event)
    (h1 : ∀ bin args, Event.run .scp bin args ∉ sent.1)
    (h2 : ∀ bin args, Event.run .scp bin args ∉ rest) :
    ∀ bin args, Event.run .scp bin args ∉ thenRun sent rest := by
  intro bin args h
  rcases mem_thenRun _ _ _ h with h | h
  · exact h1 _ _ h
  · exact h2 _ _ h

theorem overrideType_remote (fl : Flags) (cfg : Config) :
    (overrideType fl cfg).Remote = cfg.Remote := by
  obtain ⟨ty, dir, pfx, rd, tar, logdir, my, xb, rem, fei⟩ := cfg
  unfold overrideType
  simp only []
  split_ifs <;> rfl

theorem fatalf_no_scp (msg bin : String) (args : List String) :
    Event.run .scp bin args ∉ fatalf msg := by
  simp [fatalf]

theorem main_load_error (w : World) (fl : Flags) (err : String)
    (hload : loadConfig (w.readFile fl.cfgPath) w.unmarshal = .error err) :
    main w fl = fatalf ("load config: " ++ err) := by
  unfold main
  rw [hload]

theorem main_invalid (w : World) (fl : Flags) (cfg0 cfg : Config) (e : ConfigError)
    (hload : loadConfig (w.readFile fl.cfgPath) w.unmarshal = .ok cfg0)
    (hval : validateConfig w.lookPath (overrideType fl cfg0) = (cfg, some e)) :
    main w fl = fatalf ("config invalid: " ++ e.message) := by
  unfold main
  rw [hload]
  simp only [hval]

theorem main_backup_error (w : World) (fl : Flags) (cfg0 cfg : Config) (evs : List Event)
    (err : String)
    (hload : loadConfig (w.readFile fl.cfgPath) w.unmarshal = .ok cfg0)
    (hval : validateConfig w.lookPath (overrideType fl cfg0) = (cfg, none))
    (hrun : runBackup w.backup cfg = (evs, .error err)) :
    main w fl = evs ++ thenRun (sendFeishu w.requestErr w.postErr cfg none "失败" err)
      (fatalf ("backup failed: " ++ err)) := by
  unfold main
  rw [hload]
  simp only [hval, hrun]

/-- The trace of a run whose backup stage succeeds: the backup, then the
shipping step if it is due, then events none of which starts `scp`. -/
theorem main_after_backup (w : World) (fl : Flags) (cfg0 cfg : Config) (evs : List Event)
    (result : BackupResult)
    (hload : loadConfig (w.readFile fl.cfgPath) w.unmarshal = .ok cfg0)
    (hval : validateConfig w.lookPath (overrideType fl cfg0) = (cfg, none))
    (hrun : runBackup w.backup cfg = (evs, .ok result)) :
    ∃ rest, (∀ bin args, Event.run .scp bin args ∉ rest) ∧
      main w fl = evs ++
        (if cfg.Remote.Enabled = true ∧ fl.skipRemote = false then
          (sendArchive w.sendClock w.scpErr cfg result).1 else []) ++ rest := by
  have hf := sendFeishu_no_scp w.requestErr w.postErr cfg
  have hcl : ∀ sw : List Event × Option String,
      sw = (if cfg.RetentionDays > 0 then cleanupOld w.cleanup cfg else ([], none)) →
      ∀ bin args, Event.run .scp bin args ∉ sw.1 := by
    intro sw hsw
    subst hsw
    split
    · exact cleanupOld_no_scp w.cleanup cfg
    · simp
  specialize hcl _ rfl
  unfold main
  rw [hload]
  simp only [hval, hrun]
  generalize (if cfg.RetentionDays > 0 then cleanupOld w.cleanup cfg else ([], none)) = sw
    at hcl ⊢
  obtain ⟨cleaned, r3⟩ := sw
  simp only [] at hcl
  have hsplit : ∀ sh : List Event × Option String,
      (if cfg.Remote.Enabled = true ∧ fl.skipRemote = false then
        sendArchive w.sendClock w.scpErr cfg result else ([], none)) = sh →
      (if cfg.Remote.Enabled = true ∧ fl.skipRemote = false then
        (sendArchive w.sendClock w.scpErr cfg result).1 else []) = sh.1 := by
    intro sh hsh
    subst hsh
    split <;> rfl
  generalize hsh : (if cfg.Remote.Enabled = true ∧ fl.skipRemote = false then
    sendArchive w.sendClock w.scpErr cfg result else ([], none)) = sh
  rw [hsplit sh hsh]
  obtain ⟨sent, r2⟩ := sh
  simp only []
  cases r2 with
  | some err =>
    exact ⟨thenRun (sendFeishu w.requestErr w.postErr cfg (some result) "失败" err)
      (fatalf ("send to remote failed: " ++ err)),
      thenRun_no_scp _ _ (hf _ _ _) (fatalf_no_scp _), by simp [List.append_assoc]⟩
  | none =>
    simp only []
    cases r3 with
    | some err =>
      refine ⟨cleaned ++ thenRun (sendFeishu w.requestErr w.postErr cfg (some result) "失败" err)
        (fatalf ("cleanup failed: " ++ err)), ?_, by simp [List.append_assoc]⟩
      intro bin args h
      rcases List.mem_append.1 h with h | h
      · exact hcl _ _ h
      · exact thenRun_no_scp _ _ (hf _ _ _) (fatalf_no_scp _) _ _ h
    | none =>
      refine ⟨cleaned ++ thenRun (sendFeishu w.requestErr w.postErr cfg (some result) "成功" "")
        [.stdout ("Backup finished. name=" ++ result.BackupName ++ " local=" ++
          result.TargetDir ++ " archive=" ++ result.ArchivePath ++ " log=" ++
          result.LogPath ++ "\n"), .exit 0], ?_, by simp [List.append_assoc]⟩
      intro bin args h
      rcases List.mem_append.1 h with h | h
      · exact hcl _ _ h
      · exact thenRun_no_scp _ _ (hf _ _ _) (by simp) _ _ h

/-- C6: the secure-copy step runs in a run of `main` exactly when the
configuration loads and validates, the backup stage succeeds, `remote.enabled`
is true and the skip flag is not set; with the skip flag set it never runs. -/
theorem sendArchive_invoked_iff (w : World) (fl : Flags) :
    ((∃ bin args, Event.run .scp bin args ∈ main w fl) ↔
      ∃ cfg0 cfg res, loadConfig (w.readFile fl.cfgPath) w.unmarshal = .ok cfg0 ∧
        validateConfig w.lookPath (overrideType fl cfg0) = (cfg, none) ∧
        (runBackup w.backup cfg).2 = .ok res ∧
        cfg0.Remote.Enabled = true ∧ cfg.Remote.Enabled = true ∧ fl.skipRemote = false) ∧
    (fl.skipRemote = true → ∀ bin args, Event.run .scp bin args ∉ main w fl) := by
  have key : (∃ bin args, Event.run .scp bin args ∈ main w fl) ↔
      ∃ cfg0 cfg res, loadConfig (w.readFile fl.cfgPath) w.unmarshal = .ok cfg0 ∧
        validateConfig w.lookPath (overrideType fl cfg0) = (cfg, none) ∧
        (runBackup w.backup cfg).2 = .ok res ∧
        cfg0.Remote.Enabled = true ∧ cfg.Remote.Enabled = true ∧ fl.skipRemote = false := by
    constructor
    · rintro ⟨bin, args, h⟩
      obtain ⟨lr, hload⟩ : ∃ lr, loadConfig (w.readFile fl.cfgPath) w.unmarshal = lr := ⟨_, rfl⟩
      cases lr with
      | error err =>
        rw [main_load_error w fl err hload] at h
        exact absurd h (fatalf_no_scp _ _ _)
      | ok cfg0 =>
        obtain ⟨vr, hval⟩ : ∃ vr, validateConfig w.lookPath (overrideType fl cfg0) = vr :=
          ⟨_, rfl⟩
        obtain ⟨cfg, verr⟩ := vr
        cases verr with
        | some e =>
          rw [main_invalid w fl cfg0 cfg e hload hval] at h
          exact absurd h (fatalf_no_scp _ _ _)
        | none =>
          obtain ⟨rr, hrun⟩ : ∃ rr, runBackup w.backup cfg = rr := ⟨_, rfl⟩
          obtain ⟨evs, r⟩ := rr
          have hb := runBackup_no_scp w.backup cfg
          rw [hrun] at hb
          cases r with
          | error err =>
            rw [main_backup_error w fl cfg0 cfg evs err hload hval hrun] at h
            rcases List.mem_append.1 h with h | h
            · exact absurd h (hb _ _)
            · exact absurd h (thenRun_no_scp _ _ (sendFeishu_no_scp _ _ _ _ _ _)
                (fatalf_no_scp _) _ _)
          | ok result =>
            obtain ⟨rest, hrest, hmain⟩ := main_after_backup w fl cfg0 cfg evs result hload hval hrun
            rw [hmain] at h
            by_cases hship : cfg.Remote.Enabled = true ∧ fl.skipRemote = false
            · have hen : cfg.Remote.Enabled = cfg0.Remote.Enabled := by
                obtain ⟨_, found, _, hc⟩ := validateConfig_ok _ _ _ hval
                rw [hc, ← overrideType_remote fl cfg0]
                rfl
              refine ⟨cfg0, cfg, result, hload, hval, ?_, hen ▸ hship.1, hship.1, hship.2⟩
              rw [hrun]
            · rw [if_neg hship] at h
              rcases List.mem_append.1 h with h | h
              · rcases List.mem_append.1 h with h | h
                · exact absurd h (hb _ _)
                · simp at h
              · exact absurd h (hrest _ _)
    · rintro ⟨cfg0, cfg, res, hload, hval, hres, _, he, hs⟩
      obtain ⟨rr, hrun⟩ : ∃ rr, runBackup w.backup cfg = rr := ⟨_, rfl⟩
      obtain ⟨evs, r⟩ := rr
      rw [hrun] at hres
      simp only [] at hres
      subst hres
      obtain ⟨rest, _, hmain⟩ := main_after_backup w fl cfg0 cfg evs res hload hval hrun
      obtain ⟨⟨line, sargs, hsent⟩, _⟩ := sendArchive_spec w.sendClock w.scpErr cfg res
      refine ⟨"scp", sargs, ?_⟩
      rw [hmain, if_pos ⟨he, hs⟩, hsent]
      simp
  refine ⟨key, ?_⟩
  intro hskip bin args h
  obtain ⟨_, _, _, _, _, _, _, _, hs⟩ := key.1 ⟨bin, args, h⟩
  rw [hskip] at hs
  cases hs

/-- With the skip flag set no `scp` is started although `remote.enabled` is
true; without the flag it is. -/
theorem sendArchive_invoked_iff_witness :
    (∀ bin args, Event.run .scp bin args ∉
      main (worldWith sampleConfig) ⟨"config/mysql_backup.json", "", true⟩) ∧
    Event.run .scp "scp" ["-P", "22", "/data/backup/mysql_incr_20240104_030000",
      "ops@vault:/srv/backups"] ∈ main (worldWith sampleConfig) plainFlags :=
  ⟨(sendArchive_invoked_iff (worldWith sampleConfig)
      ⟨"config/mysql_backup.json", "", true⟩).2 rfl,
   by decide⟩

end MysqlXtrabackup

namespace MysqlXtrabackup
open GoStd Sys

/-- C12: the text `sendFeishu` sends is, for an enabled configuration, the
lines keyword, `状态: ` and the status, `备份名: ` and the backup name, `文件: `
and the artifact path, `日志: ` and the log path, joined by newline and followed
by a last line `错误: ` and the error message exactly when the error message is
not empty; the keyword is the first line; without a result the three fields are
empty. Every post of the call goes to the webhook with that text, and when the
request for the webhook can be built the call makes one such post; with
notification disabled nothing is sent. -/
theorem sendFeishu_text (requestErr : String → Option String) (postErr : Option String)
    (cfg : Config) (res : Option BackupResult) (status errMsg : String) :
    (cfg.Feishu.Enabled = false →
      sendFeishu requestErr postErr cfg res status errMsg = ([], true)) ∧
    (cfg.Feishu.Enabled = true →
      ∃ name archive log,
        (∀ r, res = some r →
          name = r.BackupName ∧ archive = r.ArchivePath ∧ log = r.LogPath) ∧
        (res = none → name = "" ∧ archive = "" ∧ log = "") ∧
        (∀ url text,
          Event.httpPost url text ∈ (sendFeishu requestErr postErr cfg res status errMsg).1 →
          url = cfg.Feishu.Webhook ∧
          text = stringsJoin ([cfg.Feishu.Keyword, "状态: " ++ status, "备份名: " ++ name,
            "文件: " ++ archive, "日志: " ++ log] ++
            (if errMsg = "" then [] else ["错误: " ++ errMsg])) "\n") ∧
        (requestErr cfg.Feishu.Webhook = none →
          ∃ extra, (∀ ev ∈ extra, ev.isPost = false) ∧
            sendFeishu requestErr postErr cfg res status errMsg =
              (.httpPost cfg.Feishu.Webhook
                (stringsJoin ([cfg.Feishu.Keyword, "状态: " ++ status, "备份名: " ++ name,
                  "文件: " ++ archive, "日志: " ++ log] ++
                  (if errMsg = "" then [] else ["错误: " ++ errMsg])) "\n") :: extra, true)) ∧
        stringsJoin ([cfg.Feishu.Keyword, "状态: " ++ status, "备份名: " ++ name,
            "文件: " ++ archive, "日志: " ++ log] ++
            (if errMsg = "" then [] else ["错误: " ++ errMsg])) "\n" =
          cfg.Feishu.Keyword ++ "\n" ++
            stringsJoin (["状态: " ++ status, "备份名: " ++ name, "文件: " ++ archive,
              "日志: " ++ log] ++ (if errMsg = "" then [] else ["错误: " ++ errMsg])) "\n") := by
  refine ⟨?_, ?_⟩
  · intro h
    simp [sendFeishu, h]
  · intro h
    have htext : ∀ name archive log : String,
        (if errMsg ≠ "" then
          [cfg.Feishu.Keyword, "状态: " ++ status, "备份名: " ++ name, "文件: " ++ archive,
            "日志: " ++ log] ++ ["错误: " ++ errMsg]
        else [cfg.Feishu.Keyword, "状态: " ++ status, "备份名: " ++ name, "文件: " ++ archive,
            "日志: " ++ log]) =
        [cfg.Feishu.Keyword, "状态: " ++ status, "备份名: " ++ name, "文件: " ++ archive,
          "日志: " ++ log] ++ (if errMsg = "" then [] else ["错误: " ++ errMsg]) := by
      intro name archive log
      by_cases he : errMsg = "" <;> simp [he]
    have hsend : ∀ name archive log : String,
        feishuText cfg res status errMsg =
          stringsJoin ([cfg.Feishu.Keyword, "状态: " ++ status, "备份名: " ++ name,
            "文件: " ++ archive, "日志: " ++ log] ++
            (if errMsg = "" then [] else ["错误: " ++ errMsg])) "\n" →
        (∀ url text,
          Event.httpPost url text ∈ (sendFeishu requestErr postErr cfg res status errMsg).1 →
          url = cfg.Feishu.Webhook ∧
          text = stringsJoin ([cfg.Feishu.Keyword, "状态: " ++ status, "备份名: " ++ name,
            "文件: " ++ archive, "日志: " ++ log] ++
            (if errMsg = "" then [] else ["错误: " ++ errMsg])) "\n") ∧
        (requestErr cfg.Feishu.Webhook = none →
          ∃ extra, (∀ ev ∈ extra, ev.isPost = false) ∧
            sendFeishu requestErr postErr cfg res status errMsg =
              (.httpPost cfg.Feishu.Webhook
                (stringsJoin ([cfg.Feishu.Keyword, "状态: " ++ status, "备份名: " ++ name,
                  "文件: " ++ archive, "日志: " ++ log] ++
                  (if errMsg = "" then [] else ["错误: " ++ errMsg])) "\n") :: extra, true)) := by
      intro name archive log ht
      rw [← ht]
      unfold sendFeishu
      cases requestErr cfg.Feishu.Webhook with
      | some e =>
        refine ⟨?_, fun hreq => by cases hreq⟩
        intro url text hmem
        simp [h] at hmem
      | none =>
        cases postErr with
        | none =>
          refine ⟨?_, fun _ => ⟨[], by simp, by simp [h]⟩⟩
          intro url text hmem
          simpa [h] using hmem
        | some e =>
          refine ⟨?_, fun _ => ⟨[.stderr ("send feishu failed: " ++ e ++ "\n")],
            by simp [Event.isPost], by simp [h]⟩⟩
          intro url text hmem
          simpa [h] using hmem
    cases res with
    | none =>
      obtain ⟨hall, hone⟩ := hsend "" "" "" (by
        unfold feishuText
        simp only []
        rw [htext])
      refine ⟨"", "", "", ?_, ?_, hall, hone, ?_⟩
      · intro r hr; cases hr
      · intro _; exact ⟨rfl, rfl, rfl⟩
      · by_cases he : errMsg = "" <;> simp [he, stringsJoin]
    | some r =>
      obtain ⟨hall, hone⟩ := hsend r.BackupName r.ArchivePath r.LogPath (by
        unfold feishuText
        simp only []
        rw [htext])
      refine ⟨r.BackupName, r.ArchivePath, r.LogPath, ?_, ?_, hall, hone, ?_⟩
      · intro r' hr; cases hr; exact ⟨rfl, rfl, rfl⟩
      · intro hr; cases hr
      · by_cases he : errMsg = "" <;> simp [he, stringsJoin]

/-- The success message of the sample run, the failure message of a run without
a result, and the silence of a configuration with notification disabled. -/
theorem sendFeishu_text_witness :
    sendFeishu sampleRequestErr none sampleConfig (some sampleResult) "成功" "" =
      ([.httpPost "https://open.feishu.cn/hook/1"
        ("backup\n状态: 成功\n备份名: mysql_incr_20240104_030000\n" ++
         "文件: /data/backup/mysql_incr_20240104_030000\n" ++
         "日志: /data/backup/log/mysql_incr_20240104_030000.log")], true) ∧
    sendFeishu sampleRequestErr none sampleConfig none "失败" "no full backup found" =
      ([.httpPost "https://open.feishu.cn/hook/1"
        "backup\n状态: 失败\n备份名: \n文件: \n日志: \n错误: no full backup found"], true) ∧
    sendFeishu sampleRequestErr none silentConfig (some sampleResult) "失败"
      "no full backup found" = ([], true) ∧
    ∃ name archive log,
      (∀ r, some sampleResult = some r →
        name = r.BackupName ∧ archive = r.ArchivePath ∧ log = r.LogPath) ∧
      ∃ extra, (∀ ev ∈ extra, ev.isPost = false) ∧
        sendFeishu sampleRequestErr none sampleConfig (some sampleResult) "成功" "" =
          (.httpPost sampleConfig.Feishu.Webhook
            (stringsJoin ([sampleConfig.Feishu.Keyword, "状态: " ++ "成功", "备份名: " ++ name,
              "文件: " ++ archive, "日志: " ++ log] ++
              (if ("" : String) = "" then [] else ["错误: " ++ ""])) "\n") :: extra, true) :=
  ⟨by decide, by decide,
   (sendFeishu_text sampleRequestErr none silentConfig (some sampleResult) "失败"
     "no full backup found").1 rfl,
   match (sendFeishu_text sampleRequestErr none sampleConfig (some sampleResult) "成功" "").2
     rfl with
   | ⟨name, archive, log, hres, _, _, hone, _⟩ => ⟨name, archive, log, hres, hone rfl⟩⟩

end MysqlXtrabackup

namespace GoStd

theorem digit_toNat (d : Nat) : (digit d).toNat = 48 + d % 10 := by
  have h : d % 10 < 10 := Nat.mod_lt _ (by decide)
  unfold digit
  generalize d % 10 = k at h
  interval_cases k <;> rfl

theorem digit_lt_iff (a b : Nat) : digit a < digit b ↔ a % 10 < b % 10 := by
  show (digit a).toNat < (digit b).toNat ↔ _
  rw [digit_toNat, digit_toNat]
  omega

theorem digit_eq_iff (a b : Nat) : digit a = digit b ↔ a % 10 = b % 10 := by
  constructor
  · intro h
    have := congrArg Char.toNat h
    rw [digit_toNat, digit_toNat] at this
    omega
  · intro h
    unfold digit
    rw [h]

theorem char_cons_lt (c d : Char) (r r' : List Char) :
    c :: r < d :: r' ↔ c < d ∨ (c = d ∧ r < r') := by
  constructor
  · intro h
    cases h with
    | cons h => exact Or.inr ⟨rfl, h⟩
    | rel h => exact Or.inl h
  · rintro (h | ⟨rfl, h2⟩)
    · exact List.Lex.rel h
    · exact List.Lex.cons h2

theorem digit_cons_lt (a b : Nat) (r r' : List Char) :
    digit a :: r < digit b :: r' ↔ a % 10 < b % 10 ∨ (a % 10 = b % 10 ∧ r < r') := by
  rw [char_cons_lt, digit_lt_iff, digit_eq_iff]

theorem two_digits_lt (x y : Nat) (hx : x < 100) (hy : y < 100) (r r' : List Char) :
    appendInt x 2 ++ r < appendInt y 2 ++ r' ↔ x < y ∨ (x = y ∧ r < r') := by
  have ex : appendInt x 2 = [digit (x / 10), digit x] := by simp [appendInt, hx]
  have ey : appendInt y 2 = [digit (y / 10), digit y] := by simp [appendInt, hy]
  rw [ex, ey]
  simp only [List.cons_append, List.nil_append, digit_cons_lt]
  by_cases hr : r < r'
  · simp only [hr, and_true]; omega
  · simp only [hr, and_false, or_false]; omega

theorem four_digits_split (x : Nat) (hx : x < 10000) :
    appendInt x 4 = appendInt (x / 100) 2 ++ appendInt (x % 100) 2 := by
  have h1 : x / 100 < 100 := by omega
  have h2 : x % 100 < 100 := Nat.mod_lt _ (by decide)
  have e1 : digit (x / 1000) = digit (x / 100 / 10) := by
    rw [Nat.div_div_eq_div_mul]
  have e2 : digit (x / 10) = digit (x % 100 / 10) := by
    rw [digit_eq_iff]; omega
  have e3 : digit x = digit (x % 100) := by
    rw [digit_eq_iff]; omega
  simp only [appendInt, hx, h1, h2, and_true, and_self, if_true, if_false,
    show ¬ ((4 : Nat) = 2) by decide, false_and, List.cons_append, List.nil_append]
  rw [e1, e2, e3]

theorem four_digits_lt (x y : Nat) (hx : x < 10000) (hy : y < 10000) (r r' : List Char) :
    appendInt x 4 ++ r < appendInt y 4 ++ r' ↔ x < y ∨ (x = y ∧ r < r') := by
  rw [four_digits_split x hx, four_digits_split y hy, List.append_assoc, List.append_assoc,
    two_digits_lt _ _ (by omega) (by omega),
    two_digits_lt _ _ (Nat.mod_lt _ (by decide)) (Nat.mod_lt _ (by decide))]
  by_cases hr : r < r'
  · simp only [hr, and_true]; omega
  · simp only [hr, and_false, or_false]; omega

theorem underscore_cons_lt (r r' : List Char) : '_' :: r < '_' :: r' ↔ r < r' :=
  List.Lex.cons_iff

theorem formatCompact_lt_iff (a b : Civil) (ha : a.wellFormed) (hb : b.wellFormed) :
    formatCompact a < formatCompact b ↔ a.earlier b := by
  obtain ⟨ha1, _, ha2, _, ha3, ha4, ha5, ha6⟩ := ha
  obtain ⟨hb1, _, hb2, _, hb3, hb4, hb5, hb6⟩ := hb
  rw [String.lt_iff_toList_lt]
  unfold formatCompact Civil.earlier
  simp only [String.toList, List.append_assoc]
  rw [four_digits_lt _ _ (by omega) (by omega), two_digits_lt _ _ (by omega) (by omega),
    two_digits_lt _ _ (by omega) (by omega), underscore_cons_lt,
    two_digits_lt _ _ (by omega) (by omega), two_digits_lt _ _ (by omega) (by omega)]
  have hs := two_digits_lt a.second b.second (by omega) (by omega) [] []
  simp only [List.append_nil] at hs
  rw [hs]
  have hnil : ¬ (([] : List Char) < []) := by
    intro h; cases h
  simp only [hnil, and_false, or_false]

end GoStd

namespace MysqlXtrabackup
open GoStd Sys

/-- What a run of `runBackup` that reaches the engine looks like: the engine is
started with the arguments built from the configuration, and a successful run
returns the name, target directory and log path it computed at the start. -/
theorem runBackup_launched (env : BackupEnv) (cfg : Config) :
    (∀ bin xs, Event.run .engine bin xs ∈ (runBackup env cfg).1 →
      bin = cfg.XtraBackup.Bin ∧
      ∃ noted args0,
        incrementalArgs env cfg (engineArgs cfg (filepathJoin cfg.BackupDir
          (cfg.BackupPrefix ++ "_" ++ cfg.BackupType ++ "_" ++ formatCompact (env.clock 0)))) =
          .ok (noted, args0) ∧
        xs = args0 ++ cfg.XtraBackup.ExtraArgs) ∧
    (∀ res, (runBackup env cfg).2 = .ok res →
      res.BackupName =
        cfg.BackupPrefix ++ "_" ++ cfg.BackupType ++ "_" ++ formatCompact (env.clock 0) ∧
      res.TargetDir = filepathJoin cfg.BackupDir res.BackupName ∧
      res.LogPath = filepathJoin cfg.LogDir (res.BackupName ++ ".log") ∧
      Event.openFile res.LogPath ∈ (runBackup env cfg).1 ∧
      ∃ xs, Event.run .engine cfg.XtraBackup.Bin xs ∈ (runBackup env cfg).1) := by
  unfold runBackup
  cases h1 : env.mkdirBackupDir with
  | some err => simp
  | none =>
  cases h2 : env.mkdirLogDir with
  | some err => simp
  | none =>
  cases h3 : env.openLog with
  | some err => simp
  | none =>
  simp only []
  cases hinc : incrementalArgs env cfg (engineArgs cfg (filepathJoin cfg.BackupDir
      (cfg.BackupPrefix ++ "_" ++ cfg.BackupType ++ "_" ++ formatCompact (env.clock 0)))) with
  | error err => simp
  | ok r =>
  obtain ⟨noted, args0⟩ := r
  obtain ⟨hnoted, _⟩ := incrementalArgs_ok env cfg _ _ _ hinc
  have hnoted' : ∀ bin xs, Event.run .engine bin xs ∉ noted := fun bin xs => hnoted _ bin xs
  simp only []
  have hpick : ∀ (post : List Event) (bin : String) (xs : List String),
      (∀ bin xs, Event.run .engine bin xs ∉ post) →
      Event.run .engine bin xs ∈
        [Event.mkdirAll cfg.BackupDir, .mkdirAll cfg.LogDir,
          .openFile (filepathJoin cfg.LogDir (cfg.BackupPrefix ++ "_" ++ cfg.BackupType ++ "_" ++
            formatCompact (env.clock 0) ++ ".log"))] ++
        [.logLine ("[" ++ timeStamp (env.clock 1) ++ "] starting backup: " ++
          (cfg.BackupPrefix ++ "_" ++ cfg.BackupType ++ "_" ++ formatCompact (env.clock 0)) ++
          "\n")] ++ noted ++
        [.logLine ("[" ++ timeStamp (env.clock 3) ++ "] exec: " ++ cfg.XtraBackup.Bin ++ " " ++
          stringsJoin (maskPassword (args0 ++ cfg.XtraBackup.ExtraArgs)) " " ++ "\n"),
          .run .engine cfg.XtraBackup.Bin (args0 ++ cfg.XtraBackup.ExtraArgs)] ++ post →
      bin = cfg.XtraBackup.Bin ∧
      ∃ noted' args0', (Except.ok (noted, args0) : Except String (List Event × List String)) =
          Except.ok (noted', args0') ∧
        xs = args0' ++ cfg.XtraBackup.ExtraArgs := by
    intro post bin xs hpost hmem
    rcases List.mem_append.1 hmem with hmem | hmem
    · rcases List.mem_append.1 hmem with hmem | hmem
      · rcases List.mem_append.1 hmem with hmem | hmem
        · simp at hmem
        · exact absurd hmem (hnoted' _ _)
      · simp only [List.mem_cons, reduceCtorEq, Event.run.injEq, true_and, List.mem_singleton,
          List.not_mem_nil, or_false, false_or] at hmem
        exact ⟨hmem.1, noted, args0, rfl, hmem.2⟩
    · exact absurd hmem (hpost _ _)
  cases h4 : env.runErr with
  | some err =>
    refine ⟨fun bin xs h => hpick [] bin xs (by simp) (by simpa using h), by simp⟩
  | none =>
    simp only []
    by_cases htarflag : cfg.TarArchive = true
    · simp only [htarflag, if_true]
      have hno := tarDir_no_engine env (filepathJoin cfg.BackupDir
        (cfg.BackupPrefix ++ "_" ++ cfg.BackupType ++ "_" ++ formatCompact (env.clock 0)))
      generalize tarDir env (filepathJoin cfg.BackupDir
        (cfg.BackupPrefix ++ "_" ++ cfg.BackupType ++ "_" ++ formatCompact (env.clock 0))) = tr
        at hno ⊢
      obtain ⟨tarred, res⟩ := tr
      simp only [] at hno
      cases res with
      | error err =>
        refine ⟨fun bin xs h => hpick tarred bin xs (fun b x => hno b x) h, by simp⟩
      | ok archive =>
        refine ⟨fun bin xs h => hpick
          (tarred ++ [.logLine ("[" ++ timeStamp (env.clock 5) ++ "] backup finished\n")])
          bin xs ?_ (by simpa [List.append_assoc] using h), ?_⟩
        · intro b x hm
          rcases List.mem_append.1 hm with hm | hm
          · exact hno b x hm
          · simp at hm
        · intro res hres
          simp only [Except.ok.injEq] at hres
          subst hres
          refine ⟨rfl, rfl, rfl, by simp, args0 ++ cfg.XtraBackup.ExtraArgs, ?_⟩
          simp
    · rw [if_neg htarflag]
      simp only []
      refine ⟨fun bin xs h => hpick
          ([] ++ [.logLine ("[" ++ timeStamp (env.clock 5) ++ "] backup finished\n")])
          bin xs (by simp) (by simpa [List.append_assoc] using h), ?_⟩
      intro res hres
      simp only [Except.ok.injEq] at hres
      subst hres
      refine ⟨rfl, rfl, rfl, by simp, args0 ++ cfg.XtraBackup.ExtraArgs, ?_⟩
      simp

end MysqlXtrabackup

namespace GoStd

theorem append_lt_append_iff (p x y : List Char) : p ++ x < p ++ y ↔ x < y := by
  induction p with
  | nil => rfl
  | cons c cs ih =>
    rw [List.cons_append, List.cons_append]
    exact (List.Lex.cons_iff (r := (· < ·))).trans ih

theorem string_append_lt_iff (p x y : String) : p ++ x < p ++ y ↔ x < y := by
  rw [String.lt_iff_toList_lt, String.lt_iff_toList_lt]
  exact append_lt_append_iff p.data x.data y.data

theorem formatCompact_data (t : Civil) (h : t.wellFormed) :
    (formatCompact t).data =
      [digit (t.year / 1000), digit (t.year / 100), digit (t.year / 10), digit t.year,
       digit (t.month / 10), digit t.month, digit (t.day / 10), digit t.day, '_',
       digit (t.hour / 10), digit t.hour, digit (t.minute / 10), digit t.minute,
       digit (t.second / 10), digit t.second] := by
  obtain ⟨h1, _, h2, _, h3, h4, h5, h6⟩ := h
  have e1 : appendInt t.year 4 =
      [digit (t.year / 1000), digit (t.year / 100), digit (t.year / 10), digit t.year] := by
    have : t.year < 10000 := by omega
    simp [appendInt, this]
  have e2 : ∀ x : Nat, x < 100 → appendInt x 2 = [digit (x / 10), digit x] := by
    intro x hx
    simp [appendInt, hx]
  unfold formatCompact
  rw [e1, e2 _ (by omega), e2 _ (by omega), e2 _ (by omega), e2 _ (by omega), e2 _ (by omega)]
  rfl

end GoStd

namespace MysqlXtrabackup
open GoStd Sys

theorem targetDir_mem_engineArgs (cfg : Config) (targetDir : String) :
    "--target-dir=" ++ targetDir ∈ engineArgs cfg targetDir := by
  unfold engineArgs
  simp only []
  split <;> split <;> simp

/-- C11 (as stated, refuted): the name of the sample run ends in the time stamp
`20240104_030000`, which has 15 characters, an underscore among them. -/
theorem runBackup_name_has_separator :
    (runBackup (backupEnvWith sampleListing) sampleConfig).2 = .ok sampleResult ∧
    sampleResult.BackupName =
      sampleConfig.BackupPrefix ++ "_" ++ sampleConfig.BackupType ++ "_" ++ "20240104_030000" ∧
    formatCompact sampleClock = "20240104_030000" ∧
    ("20240104_030000" : String).length = 15 ∧
    '_' ∈ ("20240104_030000" : String).data := by
  decide

/-- C11 (amended): a run of `runBackup` that succeeds returns the backup name
prefix + `_` + type + `_` + time stamp, the target directory
`<backup_dir>/<name>` and the log file `<log_dir>/<name>.log`; the log file was
opened and the engine got `--target-dir=` with that directory; and the time
stamp of a date with a year of at most four digits has the form
`YYYYMMDD_HHMMSS`: eight decimal digits, an underscore, six decimal digits. -/
theorem runBackup_names (env : BackupEnv) (cfg : Config) (res : BackupResult)
    (h : (runBackup env cfg).2 = .ok res) :
    res.BackupName =
      cfg.BackupPrefix ++ "_" ++ cfg.BackupType ++ "_" ++ formatCompact (env.clock 0) ∧
    res.TargetDir = filepathJoin cfg.BackupDir res.BackupName ∧
    res.LogPath = filepathJoin cfg.LogDir (res.BackupName ++ ".log") ∧
    Event.openFile res.LogPath ∈ (runBackup env cfg).1 ∧
    (∃ xs, Event.run .engine cfg.XtraBackup.Bin xs ∈ (runBackup env cfg).1) ∧
    (∀ bin xs, Event.run .engine bin xs ∈ (runBackup env cfg).1 →
      "--target-dir=" ++ res.TargetDir ∈ xs) ∧
    ((env.clock 0).wellFormed →
      (formatCompact (env.clock 0)).data =
        [digit ((env.clock 0).year / 1000), digit ((env.clock 0).year / 100),
         digit ((env.clock 0).year / 10), digit (env.clock 0).year,
         digit ((env.clock 0).month / 10), digit (env.clock 0).month,
         digit ((env.clock 0).day / 10), digit (env.clock 0).day, '_',
         digit ((env.clock 0).hour / 10), digit (env.clock 0).hour,
         digit ((env.clock 0).minute / 10), digit (env.clock 0).minute,
         digit ((env.clock 0).second / 10), digit (env.clock 0).second] ∧
      ∀ d, 48 ≤ (digit d).toNat ∧ (digit d).toNat ≤ 57) := by
  obtain ⟨hrun, hres⟩ := runBackup_launched env cfg
  obtain ⟨hn, ht, hl, ho, hx⟩ := hres res h
  refine ⟨hn, ht, hl, ho, hx, ?_, ?_⟩
  · intro bin xs hmem
    obtain ⟨_, noted, args0, hinc, rfl⟩ := hrun bin xs hmem
    obtain ⟨_, hsub⟩ := incrementalArgs_ok env cfg _ _ _ hinc
    rw [ht, hn]
    exact List.mem_append_left _ (hsub _ (targetDir_mem_engineArgs cfg _))
  · intro hw
    refine ⟨formatCompact_data _ hw, ?_⟩
    intro d
    rw [digit_toNat]
    omega

/-- The sample run: its name, directory and log file, and the shape of its
time stamp. -/
theorem runBackup_names_witness :
    (runBackup (backupEnvWith sampleListing) sampleConfig).2 = .ok sampleResult ∧
    sampleResult.BackupName = "mysql_incr_20240104_030000" ∧
    sampleResult.TargetDir = filepathJoin sampleConfig.BackupDir sampleResult.BackupName ∧
    sampleResult.LogPath =
      filepathJoin sampleConfig.LogDir (sampleResult.BackupName ++ ".log") ∧
    sampleClock.wellFormed ∧
    (formatCompact sampleClock).data =
      ['2', '0', '2', '4', '0', '1', '0', '4', '_', '0', '3', '0', '0', '0', '0'] :=
  ⟨by decide, by decide,
   (runBackup_names (backupEnvWith sampleListing) sampleConfig sampleResult (by decide)).2.1,
   (runBackup_names (backupEnvWith sampleListing) sampleConfig sampleResult (by decide)).2.2.1,
   by decide, by decide⟩

end MysqlXtrabackup

namespace MysqlXtrabackup
open GoStd Sys

/-- The directory `findLatestFull` picks: an entry that matches and whose name
no other matching entry exceeds. -/
theorem findLatestFull_max (entries : List DirEntry) (root pfx : String)
    (h : ∃ e ∈ entries, e.isDir = true ∧ hasPrefix e.name (pfx ++ "_full_") = true) :
    ∃ best ∈ entries, best.isDir = true ∧ hasPrefix best.name (pfx ++ "_full_") = true ∧
      findLatestFull (.ok entries) root pfx = .ok (filepathJoin root best.name) ∧
      ∀ e ∈ entries, e.isDir = true → hasPrefix e.name (pfx ++ "_full_") = true →
        e.name ≤ best.name := by
  obtain ⟨e0, he0, hd0, hp0⟩ := h
  have hmem : ∀ n : String,
      n ∈ (entries.filter (fun e => e.isDir && hasPrefix e.name (pfx ++ "_full_"))).map
        (fun e => e.name) ↔
      ∃ e ∈ entries, e.isDir = true ∧ hasPrefix e.name (pfx ++ "_full_") = true ∧ e.name = n := by
    intro n
    simp only [List.mem_map, List.mem_filter, Bool.and_eq_true]
    constructor
    · rintro ⟨e, ⟨he, hd, hp⟩, rfl⟩; exact ⟨e, he, hd, hp, rfl⟩
    · rintro ⟨e, he, hd, hp, rfl⟩; exact ⟨e, ⟨he, hd, hp⟩, rfl⟩
  have hin : e0.name ∈ (entries.filter (fun e => e.isDir &&
      hasPrefix e.name (pfx ++ "_full_"))).map (fun e => e.name) :=
    (hmem _).2 ⟨e0, he0, hd0, hp0, rfl⟩
  have hlen : ¬ ((entries.filter (fun e => e.isDir && hasPrefix e.name (pfx ++ "_full_"))).map
      (fun e => e.name)).length = 0 := by
    intro h0
    rw [List.length_eq_zero.1 h0] at hin
    simp at hin
  have hsne : sortStrings ((entries.filter (fun e => e.isDir &&
      hasPrefix e.name (pfx ++ "_full_"))).map (fun e => e.name)) ≠ [] := by
    intro hnil
    have := mem_sortStrings.2 hin
    rw [hnil] at this
    simp at this
  obtain ⟨best, hb, hbd, hbp, hbn⟩ := (hmem _).1 (mem_sortStrings.1 (getLastD_mem "" hsne))
  refine ⟨best, hb, hbd, hbp, ?_, ?_⟩
  · simp only [findLatestFull, if_neg hlen, hbn]
  · intro e he hd hp
    rw [hbn]
    exact le_getLastD "" (pairwise_sortStrings _)
      (mem_sortStrings.2 ((hmem _).2 ⟨e, he, hd, hp, rfl⟩))

/-- C13: for dates with a year of at most four digits the time stamp of backup
names keeps the order of time: one date is earlier than another exactly when
its time stamp is the lexicographically smaller string; so among the
directories `<prefix>_full_<time stamp>` of one prefix, `findLatestFull` picks
one than whose time stamp no other is later. -/
theorem formatCompact_order :
    (∀ a b : Civil, a.wellFormed → b.wellFormed →
      ((a.earlier b ↔ formatCompact a < formatCompact b) ∧
       (a.earlier b ↔ strLt (formatCompact a) (formatCompact b) = true))) ∧
    (∀ (entries : List DirEntry) (root pfx : String) (stamp : DirEntry → Civil),
      (∀ e ∈ entries, e.isDir = true → hasPrefix e.name (pfx ++ "_full_") = true →
        e.name = pfx ++ "_full_" ++ formatCompact (stamp e) ∧ (stamp e).wellFormed) →
      (∃ e ∈ entries, e.isDir = true ∧ hasPrefix e.name (pfx ++ "_full_") = true) →
      ∃ best ∈ entries, best.isDir = true ∧ hasPrefix best.name (pfx ++ "_full_") = true ∧
        findLatestFull (.ok entries) root pfx = .ok (filepathJoin root best.name) ∧
        ∀ e ∈ entries, e.isDir = true → hasPrefix e.name (pfx ++ "_full_") = true →
          ¬ (stamp best).earlier (stamp e)) := by
  refine ⟨?_, ?_⟩
  · intro a b ha hb
    exact ⟨(formatCompact_lt_iff a b ha hb).symm,
      ((strLt_iff _ _).trans (formatCompact_lt_iff a b ha hb)).symm⟩
  · intro entries root pfx stamp hform hex
    obtain ⟨best, hb, hbd, hbp, hfind, hmax⟩ := findLatestFull_max entries root pfx hex
    refine ⟨best, hb, hbd, hbp, hfind, ?_⟩
    intro e he hd hp hlate
    obtain ⟨hen, hew⟩ := hform e he hd hp
    obtain ⟨hbn, hbw⟩ := hform best hb hbd hbp
    have hlt : formatCompact (stamp best) < formatCompact (stamp e) :=
      (formatCompact_lt_iff _ _ hbw hew).2 hlate
    have hname : best.name < e.name := by
      rw [hbn, hen]
      exact (string_append_lt_iff _ _ _).2 hlt
    exact absurd (hmax e he hd hp) (not_le.2 hname)

/-- Two sample dates a day apart, and the sample listing, whose later full
backup is the one chosen. -/
theorem formatCompact_order_witness :
    (Civil.wellFormed ⟨2024, 1, 1, 0, 0, 0⟩ ∧ Civil.wellFormed ⟨2024, 1, 2, 0, 0, 0⟩) ∧
    Civil.earlier ⟨2024, 1, 1, 0, 0, 0⟩ ⟨2024, 1, 2, 0, 0, 0⟩ ∧
    strLt (formatCompact ⟨2024, 1, 1, 0, 0, 0⟩) (formatCompact ⟨2024, 1, 2, 0, 0, 0⟩) = true ∧
    formatCompact ⟨2024, 1, 1, 0, 0, 0⟩ < formatCompact ⟨2024, 1, 2, 0, 0, 0⟩ ∧
    ∃ best ∈ sampleListing, best.isDir = true ∧
      hasPrefix best.name ("mysql" ++ "_full_") = true ∧
      findLatestFull (.ok sampleListing) "/data/backup" "mysql" =
        .ok (filepathJoin "/data/backup" best.name) ∧
      ∀ e ∈ sampleListing, e.isDir = true → hasPrefix e.name ("mysql" ++ "_full_") = true →
        ¬ (sampleStamp best).earlier (sampleStamp e) :=
  ⟨⟨by decide, by decide⟩, by decide, by decide,
   ((formatCompact_order.1 ⟨2024, 1, 1, 0, 0, 0⟩ ⟨2024, 1, 2, 0, 0, 0⟩
     (by decide) (by decide)).1).1 (by decide),
   formatCompact_order.2 sampleListing "/data/backup" "mysql" sampleStamp
     (by decide) (by decide)⟩

end MysqlXtrabackup

namespace MysqlXtrabackup
open GoStd Sys

theorem engineArgs_eq (cfg : Config) (targetDir : String) :
    engineArgs cfg targetDir =
      ["--defaults-file=" ++ cfg.MySQL.DefaultsFile, "--user=" ++ cfg.MySQL.User,
        "--password=" ++ cfg.MySQL.Password, "--backup", "--target-dir=" ++ targetDir,
        "--parallel=" ++ sprintInt cfg.XtraBackup.Parallel, "--ftwrl-wait-timeout=300",
        "--backup-lock-timeout=300"] ++
      (if cfg.MySQL.Socket ≠ "" then ["--socket=" ++ cfg.MySQL.Socket]
        else ["--host=" ++ cfg.MySQL.Host, "--port=" ++ sprintInt cfg.MySQL.Port]) ++
      (if cfg.XtraBackup.Compress = true then
          ["--compress", "--compress-threads=" ++ sprintInt cfg.XtraBackup.CompressThreads]
        else []) := by
  unfold engineArgs
  simp only []
  split <;> split <;> simp

theorem incrementalArgs_eq (env : BackupEnv) (cfg : Config) (args args0 : List String)
    (noted : List Event) (h : incrementalArgs env cfg args = .ok (noted, args0)) :
    (cfg.BackupType = "incr" →
      ∃ baseDir, findLatestFull env.listing cfg.BackupDir cfg.BackupPrefix = .ok baseDir ∧
        args0 = args ++ ["--incremental-basedir=" ++ baseDir]) ∧
    (cfg.BackupType ≠ "incr" → args0 = args) := by
  unfold incrementalArgs at h
  by_cases hty : cfg.BackupType = "incr"
  · rw [if_pos hty] at h
    cases hf : findLatestFull env.listing cfg.BackupDir cfg.BackupPrefix with
    | error err => rw [hf] at h; cases h
    | ok baseDir =>
      rw [hf] at h
      simp only [Except.ok.injEq, Prod.mk.injEq] at h
      exact ⟨fun _ => ⟨baseDir, rfl, h.2.symm⟩, fun hn => absurd hty hn⟩
  · rw [if_neg hty] at h
    simp only [Except.ok.injEq, Prod.mk.injEq] at h
    exact ⟨fun hy => absurd hy hty, fun _ => h.2.symm⟩

/-- C14 (as stated, refuted): a validated configuration with a socket and with
`--host=10.0.0.5` among the passthrough arguments gives an argument vector that
holds a `--host` argument. -/
theorem runBackup_args_host_with_socket :
    validateConfig sampleLookPath socketConfig = (socketConfig, none) ∧
    socketConfig.MySQL.Socket = "/var/run/mysqld/mysqld.sock" ∧
    Event.run .engine "/usr/bin/xtrabackup"
      ["--defaults-file=/etc/my.cnf", "--user=backup", "--password=s3cret", "--backup",
       "--target-dir=/data/backup/mysql_full_20240104_030000", "--parallel=2",
       "--ftwrl-wait-timeout=300", "--backup-lock-timeout=300",
       "--socket=/var/run/mysqld/mysqld.sock", "--host=10.0.0.5"] ∈
      (runBackup (backupEnvWith sampleListing) socketConfig).1 ∧
    hasPrefix "--host=10.0.0.5" "--host=" = true := by
  decide

/-- C14 (amended): the argument vector the engine is started with is, in this
order, the defaults-file, user, password, `--backup`, target-dir, parallel and
the two lock-wait timeout flags; then `--socket=<socket>` when a socket is
configured and otherwise `--host=<host>` and `--port=<port>`; then `--compress`
and `--compress-threads=<n>` exactly when compression is requested; then
`--incremental-basedir=<dir>` exactly when the type is `incr`; then the
passthrough arguments, unchanged and in order. Before the passthrough arguments
no argument starts with `--host=` or `--port=` when a socket is configured, and
none starts with `--socket=` otherwise. -/
theorem runBackup_argument_vector (env : BackupEnv) (cfg : Config) (bin : String)
    (xs : List String) (h : Event.run .engine bin xs ∈ (runBackup env cfg).1) :
    ∃ targetDir conn comp incr,
      xs = ["--defaults-file=" ++ cfg.MySQL.DefaultsFile, "--user=" ++ cfg.MySQL.User,
        "--password=" ++ cfg.MySQL.Password, "--backup", "--target-dir=" ++ targetDir,
        "--parallel=" ++ sprintInt cfg.XtraBackup.Parallel, "--ftwrl-wait-timeout=300",
        "--backup-lock-timeout=300"] ++ conn ++ comp ++ incr ++ cfg.XtraBackup.ExtraArgs ∧
      targetDir = filepathJoin cfg.BackupDir
        (cfg.BackupPrefix ++ "_" ++ cfg.BackupType ++ "_" ++ formatCompact (env.clock 0)) ∧
      (cfg.MySQL.Socket ≠ "" → conn = ["--socket=" ++ cfg.MySQL.Socket]) ∧
      (cfg.MySQL.Socket = "" →
        conn = ["--host=" ++ cfg.MySQL.Host, "--port=" ++ sprintInt cfg.MySQL.Port]) ∧
      (cfg.XtraBackup.Compress = true →
        comp = ["--compress",
          "--compress-threads=" ++ sprintInt cfg.XtraBackup.CompressThreads]) ∧
      (cfg.XtraBackup.Compress = false → comp = []) ∧
      (cfg.BackupType = "incr" →
        ∃ baseDir, findLatestFull env.listing cfg.BackupDir cfg.BackupPrefix = .ok baseDir ∧
          incr = ["--incremental-basedir=" ++ baseDir]) ∧
      (cfg.BackupType ≠ "incr" → incr = []) ∧
      (cfg.MySQL.Socket ≠ "" →
        ∀ a ∈ ["--defaults-file=" ++ cfg.MySQL.DefaultsFile, "--user=" ++ cfg.MySQL.User,
            "--password=" ++ cfg.MySQL.Password, "--backup", "--target-dir=" ++ targetDir,
            "--parallel=" ++ sprintInt cfg.XtraBackup.Parallel, "--ftwrl-wait-timeout=300",
            "--backup-lock-timeout=300"] ++ conn ++ comp ++ incr,
          hasPrefix a "--host=" = false ∧ hasPrefix a "--port=" = false) ∧
      (cfg.MySQL.Socket = "" →
        ∀ a ∈ ["--defaults-file=" ++ cfg.MySQL.DefaultsFile, "--user=" ++ cfg.MySQL.User,
            "--password=" ++ cfg.MySQL.Password, "--backup", "--target-dir=" ++ targetDir,
            "--parallel=" ++ sprintInt cfg.XtraBackup.Parallel, "--ftwrl-wait-timeout=300",
            "--backup-lock-timeout=300"] ++ conn ++ comp ++ incr,
          hasPrefix a "--socket=" = false) := by
  obtain ⟨_, noted, args0, hinc, rfl⟩ := (runBackup_launched env cfg).1 bin xs h
  obtain ⟨hincr, hfull⟩ := incrementalArgs_eq env cfg _ _ _ hinc
  have hconn1 : cfg.MySQL.Socket ≠ "" →
      (if cfg.MySQL.Socket ≠ "" then ["--socket=" ++ cfg.MySQL.Socket]
        else ["--host=" ++ cfg.MySQL.Host, "--port=" ++ sprintInt cfg.MySQL.Port]) =
      ["--socket=" ++ cfg.MySQL.Socket] := fun hs => if_pos hs
  have hconn2 : cfg.MySQL.Socket = "" →
      (if cfg.MySQL.Socket ≠ "" then ["--socket=" ++ cfg.MySQL.Socket]
        else ["--host=" ++ cfg.MySQL.Host, "--port=" ++ sprintInt cfg.MySQL.Port]) =
      ["--host=" ++ cfg.MySQL.Host, "--port=" ++ sprintInt cfg.MySQL.Port] :=
    fun hs => if_neg (not_not.2 hs)
  have hcomp1 : cfg.XtraBackup.Compress = true →
      (if cfg.XtraBackup.Compress = true then
          ["--compress", "--compress-threads=" ++ sprintInt cfg.XtraBackup.CompressThreads]
        else []) =
      ["--compress", "--compress-threads=" ++ sprintInt cfg.XtraBackup.CompressThreads] :=
    fun hc => if_pos hc
  have hcomp2 : cfg.XtraBackup.Compress = false →
      (if cfg.XtraBackup.Compress = true then
          ["--compress", "--compress-threads=" ++ sprintInt cfg.XtraBackup.CompressThreads]
        else []) = ([] : List String) :=
    fun hc => if_neg (by simp [hc])
  have hpre : ∀ incr : List String,
      (∀ a ∈ incr, hasPrefix a "--host=" = false ∧ hasPrefix a "--port=" = false ∧
        hasPrefix a "--socket=" = false) →
      (cfg.MySQL.Socket ≠ "" →
        ∀ a ∈ ["--defaults-file=" ++ cfg.MySQL.DefaultsFile, "--user=" ++ cfg.MySQL.User,
            "--password=" ++ cfg.MySQL.Password, "--backup",
            "--target-dir=" ++ filepathJoin cfg.BackupDir
              (cfg.BackupPrefix ++ "_" ++ cfg.BackupType ++ "_" ++ formatCompact (env.clock 0)),
            "--parallel=" ++ sprintInt cfg.XtraBackup.Parallel, "--ftwrl-wait-timeout=300",
            "--backup-lock-timeout=300"] ++
            (if cfg.MySQL.Socket ≠ "" then ["--socket=" ++ cfg.MySQL.Socket]
              else ["--host=" ++ cfg.MySQL.Host, "--port=" ++ sprintInt cfg.MySQL.Port]) ++
            (if cfg.XtraBackup.Compress = true then
              ["--compress", "--compress-threads=" ++ sprintInt cfg.XtraBackup.CompressThreads]
              else []) ++ incr,
          hasPrefix a "--host=" = false ∧ hasPrefix a "--port=" = false) ∧
      (cfg.MySQL.Socket = "" →
        ∀ a ∈ ["--defaults-file=" ++ cfg.MySQL.DefaultsFile, "--user=" ++ cfg.MySQL.User,
            "--password=" ++ cfg.MySQL.Password, "--backup",
            "--target-dir=" ++ filepathJoin cfg.BackupDir
              (cfg.BackupPrefix ++ "_" ++ cfg.BackupType ++ "_" ++ formatCompact (env.clock 0)),
            "--parallel=" ++ sprintInt cfg.XtraBackup.Parallel, "--ftwrl-wait-timeout=300",
            "--backup-lock-timeout=300"] ++
            (if cfg.MySQL.Socket ≠ "" then ["--socket=" ++ cfg.MySQL.Socket]
              else ["--host=" ++ cfg.MySQL.Host, "--port=" ++ sprintInt cfg.MySQL.Port]) ++
            (if cfg.XtraBackup.Compress = true then
              ["--compress", "--compress-threads=" ++ sprintInt cfg.XtraBackup.CompressThreads]
              else []) ++ incr,
          hasPrefix a "--socket=" = false) := by
    intro incr hincr'
    constructor
    · intro hs a ha
      rw [hconn1 hs] at ha
      rcases List.mem_append.1 ha with ha | ha
      · by_cases hc : cfg.XtraBackup.Compress = true
        · rw [hcomp1 hc] at ha
          simp only [List.cons_append, List.nil_append, List.mem_cons, List.mem_singleton,
            List.not_mem_nil, or_false] at ha
          rcases ha with rfl | rfl | rfl | rfl | rfl | rfl | rfl | rfl | rfl | rfl | rfl <;>
            simp [hasPrefix, String.data_append, List.isPrefixOf]
        · rw [hcomp2 (by simpa using hc)] at ha
          simp only [List.cons_append, List.nil_append, List.append_nil, List.mem_cons,
            List.mem_singleton, List.not_mem_nil, or_false] at ha
          rcases ha with rfl | rfl | rfl | rfl | rfl | rfl | rfl | rfl | rfl <;>
            simp [hasPrefix, String.data_append, List.isPrefixOf]
      · exact ⟨(hincr' a ha).1, (hincr' a ha).2.1⟩
    · intro hs a ha
      rw [hconn2 hs] at ha
      rcases List.mem_append.1 ha with ha | ha
      · by_cases hc : cfg.XtraBackup.Compress = true
        · rw [hcomp1 hc] at ha
          simp only [List.cons_append, List.nil_append, List.mem_cons, List.mem_singleton,
            List.not_mem_nil, or_false] at ha
          rcases ha with rfl | rfl | rfl | rfl | rfl | rfl | rfl | rfl | rfl | rfl | rfl |
            rfl <;> simp [hasPrefix, String.data_append, List.isPrefixOf]
        · rw [hcomp2 (by simpa using hc)] at ha
          simp only [List.cons_append, List.nil_append, List.append_nil, List.mem_cons,
            List.mem_singleton, List.not_mem_nil, or_false] at ha
          rcases ha with rfl | rfl | rfl | rfl | rfl | rfl | rfl | rfl | rfl | rfl <;>
            simp [hasPrefix, String.data_append, List.isPrefixOf]
      · exact (hincr' a ha).2.2
  by_cases hty : cfg.BackupType = "incr"
  · obtain ⟨baseDir, hf, rfl⟩ := hincr hty
    obtain ⟨hp1, hp2⟩ := hpre ["--incremental-basedir=" ++ baseDir] (by
      intro a ha
      rw [List.mem_singleton] at ha
      subst ha
      simp [hasPrefix, String.data_append, List.isPrefixOf])
    refine ⟨_, _, _, ["--incremental-basedir=" ++ baseDir], ?_, rfl, hconn1, hconn2, hcomp1,
      hcomp2, fun _ => ⟨baseDir, hf, rfl⟩, fun hn => absurd hty hn, hp1, hp2⟩
    rw [engineArgs_eq]
  · have := hfull hty
    subst this
    obtain ⟨hp1, hp2⟩ := hpre [] (by simp)
    refine ⟨_, _, _, [], ?_, rfl, hconn1, hconn2, hcomp1, hcomp2,
      fun hy => absurd hy hty, fun _ => rfl, hp1, hp2⟩
    rw [engineArgs_eq, List.append_nil]

end MysqlXtrabackup

namespace MysqlXtrabackup
open GoStd Sys

/-- The argument vector of the sample incremental run: the fixed flags, host
and port, the base directory, then the passthrough argument. -/
theorem runBackup_argument_vector_witness :
    Event.run .engine "/usr/bin/xtrabackup" sampleArgs ∈
      (runBackup (backupEnvWith sampleListing) sampleConfig).1 ∧
    ∃ targetDir conn comp incr,
      sampleArgs =
        ["--defaults-file=" ++ sampleConfig.MySQL.DefaultsFile,
          "--user=" ++ sampleConfig.MySQL.User, "--password=" ++ sampleConfig.MySQL.Password,
          "--backup", "--target-dir=" ++ targetDir,
          "--parallel=" ++ sprintInt sampleConfig.XtraBackup.Parallel,
          "--ftwrl-wait-timeout=300", "--backup-lock-timeout=300"] ++ conn ++ comp ++ incr ++
          sampleConfig.XtraBackup.ExtraArgs ∧
      targetDir = "/data/backup/mysql_incr_20240104_030000" ∧
      conn = ["--host=127.0.0.1", "--port=3306"] ∧ comp = [] ∧
      incr = ["--incremental-basedir=/data/backup/mysql_full_20240102_000000"] := by
  refine ⟨by decide, ?_⟩
  obtain ⟨targetDir, conn, comp, incr, hxs, htd, _, hconn, _, hcomp, hincr, _⟩ :=
    runBackup_argument_vector (backupEnvWith sampleListing) sampleConfig "/usr/bin/xtrabackup"
      sampleArgs (by decide)
  obtain ⟨baseDir, hbase, hi⟩ := hincr (by decide)
  have hfull : findLatestFull (backupEnvWith sampleListing).listing sampleConfig.BackupDir
      sampleConfig.BackupPrefix = .ok "/data/backup/mysql_full_20240102_000000" := by decide
  rw [hfull] at hbase
  have hb := Except.ok.inj hbase
  subst hb
  exact ⟨targetDir, conn, comp, incr, hxs, htd.trans (by decide),
    (hconn (by decide)).trans (by decide), hcomp (by decide), hi.trans (by decide)⟩

end MysqlXtrabackup

namespace Dbbackup
open GoStd Sys

/-- The run of `main` once the three required-argument checks pass, no port is
given and the type has no default port. -/
theorem main_no_default (w : World) (fl : Flags)
    (htype : dbTypeOf fl ≠ "")
    (hdb : ¬ (strFlag fl "db" "" = "" ∧ dbTypeOf fl ≠ "mysql" ∧
      fl.postgresAllDatabases = false ∧ fl.mongoAllDBs = false))
    (huser : usernameOf fl ≠ "")
    (hport : portOf fl = "") (hp : defaultPort (dbTypeOf fl) = none) :
    main w fl = [.stdout "Error: unsupported database type\n", .exit 1] := by
  unfold main
  simp only []
  rw [if_neg htype, if_neg hdb, if_neg huser, if_pos hport, hp]

/-- A type other than the three exact names has no default port. -/
theorem defaultPort_none (t : String) (h1 : t ≠ "mysql") (h2 : t ≠ "postgresql")
    (h3 : t ≠ "mongodb") : defaultPort t = none := by
  unfold defaultPort
  rw [if_neg h1, if_neg h2, if_neg h3]

/-- A type whose name differs from `mysql` needs a database name or one of the
all-databases flags of the other engines: without them the run stops at the
database check, whatever the port. -/
theorem main_database_required (w : World) (fl : Flags)
    (htype : dbTypeOf fl ≠ "") (hmy : dbTypeOf fl ≠ "mysql") (hdb : strFlag fl "db" "" = "")
    (hpg : fl.postgresAllDatabases = false) (hmg : fl.mongoAllDBs = false) :
    main w fl = [.stdout "Error: -db is required\n", .stderr w.usage, .exit 1] := by
  unfold main
  simp only []
  rw [if_neg htype, if_pos ⟨hdb, hmy, hpg, hmg⟩]

/-- With no port given, a type other than the three exact names never reaches
a backup function: the run prints one of the four error messages and exits
with code 1. -/
theorem main_rejects_without_port (w : World) (fl : Flags) (hport : portOf fl = "")
    (h1 : dbTypeOf fl ≠ "mysql") (h2 : dbTypeOf fl ≠ "postgresql")
    (h3 : dbTypeOf fl ≠ "mongodb") :
    main w fl ∈
      [[.stdout "Error: -t or -type is required\n", .stderr w.usage, .exit 1],
       [.stdout "Error: -db is required\n", .stderr w.usage, .exit 1],
       [.stdout "Error: -u or -user is required\n", .stderr w.usage, .exit 1],
       [.stdout "Error: unsupported database type\n", .exit 1]] := by
  by_cases htype : dbTypeOf fl = ""
  · have : main w fl = [.stdout "Error: -t or -type is required\n", .stderr w.usage, .exit 1] := by
      unfold main
      simp only []
      rw [if_pos htype]
    rw [this]
    simp
  by_cases hdb : strFlag fl "db" "" = "" ∧ dbTypeOf fl ≠ "mysql" ∧
      fl.postgresAllDatabases = false ∧ fl.mongoAllDBs = false
  · have : main w fl = [.stdout "Error: -db is required\n", .stderr w.usage, .exit 1] := by
      unfold main
      simp only []
      rw [if_neg htype, if_pos hdb]
    rw [this]
    simp
  by_cases huser : usernameOf fl = ""
  · have : main w fl = [.stdout "Error: -u or -user is required\n", .stderr w.usage, .exit 1] := by
      unfold main
      simp only []
      rw [if_neg htype, if_neg hdb, if_pos huser]
    rw [this]
    simp
  rw [main_no_default w fl htype hdb huser hport (defaultPort_none _ h1 h2 h3)]
  simp

end Dbbackup
